import Mathlib

/-!
# GK20A GPC PLL clock driver: solver, programming sequence, rate controller

A shallow embedding of `drivers/video/tegra/host/gk20a/clk_gk20a.c`.

* `u32` values are natural numbers, every arithmetic result is reduced
  modulo `2 ^ 32` where the C code computes in `u32`.
* Undefined behaviour of the C code (division by zero, reading `pl_to_div`
  outside its 15 entries) and the kernel's `BUG()`/`BUG_ON()` are explicit
  faults.
* Loops are recursive functions over a fuel argument; the callers supply a
  fuel that covers every terminating run.
-/

namespace Gk20aClk

/-! ## Machine integers -/

/-- The modulus of `u32` arithmetic. -/
def U32 : Nat := 4294967296

/-- Truncation of a natural number to `u32`. -/
def u32 (x : Nat) : Nat := x % U32

/-- The conversion `(int)x` of a `u32` value (two's complement). -/
def to_int (x : Nat) : Int :=
  if x < 2147483648 then (x : Int) else (x : Int) - 4294967296

/-- Modelled from the spec: the kernel's `abs()` macro, which is not part of
the sources at hand, applied to the `u32` difference `a - b`
(`delta = |rounded_output - target_frequency|`).  The difference wraps
modulo `2 ^ 32`, is read as a signed 32-bit number and its magnitude is
stored back into a `u32`. -/
def abs_diff (a b : Nat) : Nat :=
  let d := (u32 a + U32 - u32 b) % U32
  if d < 2147483648 then d else U32 - d

/-! ## Data model -/

/-- The type `struct pll_parms`: the legal operating envelope of one PLL. -/
structure pll_parms where
  min_freq : Nat
  max_freq : Nat
  min_vco : Nat
  max_vco : Nat
  min_u : Nat
  max_u : Nat
  min_M : Nat
  max_M : Nat
  min_N : Nat
  max_N : Nat
  min_PL : Nat
  max_PL : Nat
deriving DecidableEq, Repr

/-- The type `struct pll`: reference clock, coefficients, frequency and
enable flag of one PLL. -/
structure pll where
  id : Nat
  clk_in : Nat
  M : Nat
  N : Nat
  PL : Nat
  freq : Nat
  enabled : Bool
deriving DecidableEq, Repr

/-- The shipped parameter block `gpc_pll_params` ("from vbios PLL info table"). -/
def gpc_pll_params : pll_parms :=
  { min_freq := 204, max_freq := 1248
    min_vco := 1000, max_vco := 2000
    min_u := 12, max_u := 38
    min_M := 1, max_M := 255
    min_N := 8, max_N := 255
    min_PL := 1, max_PL := 32 }

/-- The static table `pl_to_div`, indexed by the PL field value. -/
def pl_to_div : List Nat := [1, 2, 3, 4, 5, 6, 8, 10, 12, 16, 12, 16, 20, 24, 32]

/-- Faults: the ways a call can end without returning. -/
inductive Fault where
  /-- an integer division by zero -/
  | div_by_zero
  /-- a read of `pl_to_div` outside its 15 entries -/
  | out_of_bounds
  /-- the assertion `BUG_ON(best_delta == ~0)` of `clk_config_pll` -/
  | bug_on_best_delta
  /-- the `BUG()` of `clk_program_gpc_pll` after the lock wait ran out -/
  | bug_lock_timeout
  /-- a loop that does not terminate -/
  | out_of_fuel
deriving DecidableEq, Repr

/-! ## The solver `clk_config_pll` -/

/-- The running best candidate of the search: `best_delta`, `best_M`,
`best_N`, `best_PL`. -/
structure Best where
  best_delta : Nat
  best_M : Nat
  best_N : Nat
  best_PL : Nat
deriving DecidableEq, Repr

/-- How a loop of the search ends: it ran to its end or left through `break`
(`next`), it jumped to `found_match` (`found`), or it faulted. -/
inductive Flow where
  | next (b : Best)
  | found (b : Best)
  | fault (f : Fault)
deriving DecidableEq, Repr

/-- The loops `for (pl = 0; pl < 14; pl++) if (pl_to_div[pl] >= x) { x = pl; break; }`
that replace a divider factor by a table index; `fuel` counts the
iterations left, `pl` is the loop variable. -/
def find_PL (x : Nat) : Nat → Nat → Nat
  | 0, _ => x
  | fuel + 1, pl => if x ≤ pl_to_div.getD pl 0 then pl else find_PL x fuel (pl + 1)

/-- The innermost loop `for (; n <= n2; n++)` of `clk_config_pll`, for fixed
`pl` (with `d = pl_to_div[pl]`) and `m`. -/
def n_loop (p : pll_parms) (ref_clk_f target_clk_f min_vco_f max_vco_f : Nat)
    (best_fit : Bool) (pl d m n2 : Nat) : Nat → Nat → Best → Flow
  | 0, _, _ => Flow.fault Fault.out_of_fuel
  | fuel + 1, n, b =>
    if n2 < n then Flow.next b
    else if n < p.min_N then
      n_loop p ref_clk_f target_clk_f min_vco_f max_vco_f best_fit pl d m n2 fuel (u32 (n + 1)) b
    else if p.max_N < n then Flow.next b
    else
      let vco_f := u32 (ref_clk_f * n) / m
      if min_vco_f ≤ vco_f ∧ vco_f ≤ max_vco_f then
        let lwv := u32 (vco_f + d / 2) / d
        let delta := abs_diff lwv target_clk_f
        if delta < b.best_delta then
          if delta = 0 ∨ (best_fit = false ∧ 218 < vco_f / delta) then
            Flow.found ⟨delta, m, n, pl⟩
          else
            n_loop p ref_clk_f target_clk_f min_vco_f max_vco_f best_fit pl d m n2 fuel
              (u32 (n + 1)) ⟨delta, m, n, pl⟩
        else
          n_loop p ref_clk_f target_clk_f min_vco_f max_vco_f best_fit pl d m n2 fuel
            (u32 (n + 1)) b
      else
        n_loop p ref_clk_f target_clk_f min_vco_f max_vco_f best_fit pl d m n2 fuel
          (u32 (n + 1)) b

/-- The loop `for (m = pll_params->min_M; m <= pll_params->max_M; m++)` of
`clk_config_pll`, for a fixed `pl`; `target_vco_f = target_clk_f * pl_to_div[pl]`. -/
def m_loop (p : pll_parms) (ref_clk_f target_clk_f min_vco_f max_vco_f : Nat)
    (best_fit : Bool) (pl d target_vco_f : Nat) : Nat → Nat → Best → Flow
  | 0, _, _ => Flow.fault Fault.out_of_fuel
  | fuel + 1, m, b =>
    if p.max_M < m then Flow.next b
    else if m = 0 then Flow.fault Fault.div_by_zero
    else
      let u_f := ref_clk_f / m
      if u_f < p.min_u then Flow.next b
      else if p.max_u < u_f then
        m_loop p ref_clk_f target_clk_f min_vco_f max_vco_f best_fit pl d target_vco_f fuel
          (u32 (m + 1)) b
      else if ref_clk_f = 0 then Flow.fault Fault.div_by_zero
      else
        let n := u32 (target_vco_f * m) / ref_clk_f
        let n2 := u32 (u32 (target_vco_f * m) + (ref_clk_f - 1)) / ref_clk_f
        if p.max_N < n then Flow.next b
        else
          match n_loop p ref_clk_f target_clk_f min_vco_f max_vco_f best_fit pl d m n2
              (p.max_N + 4) n b with
          | Flow.next b1 =>
            m_loop p ref_clk_f target_clk_f min_vco_f max_vco_f best_fit pl d target_vco_f fuel
              (u32 (m + 1)) b1
          | r => r

/-- The outer loop `for (pl = high_PL; pl >= (int)low_PL; pl--)` of
`clk_config_pll`; `pl` is an `int`, `low` is `(int)low_PL`. -/
def pl_loop (p : pll_parms) (ref_clk_f target_clk_f min_vco_f max_vco_f : Nat)
    (best_fit : Bool) (low : Int) : Nat → Int → Best → Flow
  | 0, _, _ => Flow.fault Fault.out_of_fuel
  | fuel + 1, pl, b =>
    if pl < low then Flow.next b
    else if pl < 0 then Flow.fault Fault.out_of_bounds
    else
      match pl_to_div.get? pl.toNat with
      | none => Flow.fault Fault.out_of_bounds
      | some d =>
        match m_loop p ref_clk_f target_clk_f min_vco_f max_vco_f best_fit pl.toNat d
            (u32 (target_clk_f * d)) (p.max_M + 2) p.min_M b with
        | Flow.next b1 =>
          pl_loop p ref_clk_f target_clk_f min_vco_f max_vco_f best_fit low fuel (pl - 1) b1
        | r => r

/-- The value `max_vco_f` after lines 93-95: the VCO ceiling of the search. -/
def vco_ceiling (pll_params : pll_parms) (target_clk_f : Nat) : Nat :=
  let target_vco_f := u32 (target_clk_f + target_clk_f / 50)
  if pll_params.max_vco < target_vco_f then target_vco_f else pll_params.max_vco

/-- The value `high_PL` after lines 97-99 and the index loop of lines 112-117
(the target VCO frequency `target_vco_f` must not be zero). -/
def high_PL (pll_params : pll_parms) (target_clk_f : Nat) : Nat :=
  let target_vco_f := u32 (target_clk_f + target_clk_f / 50)
  let h := u32 (vco_ceiling pll_params target_clk_f + target_vco_f - 1) / target_vco_f
  find_PL (max (min h pll_params.max_PL) pll_params.min_PL) 14 0

/-- The value `low_PL` after lines 101-103 and the index loop of lines 106-111. -/
def low_PL (pll_params : pll_parms) (target_clk_f : Nat) : Nat :=
  let target_vco_f := u32 (target_clk_f + target_clk_f / 50)
  let l := pll_params.min_vco / target_vco_f
  find_PL (max (min l pll_params.max_PL) pll_params.min_PL) 14 0

/-- The search of `clk_config_pll` up to the label `found_match`: the window
computation and the three nested loops. -/
def pll_search (ref_clk_f : Nat) (pll_params : pll_parms) (target_clk_f : Nat)
    (best_fit : Bool) : Flow :=
  if u32 (target_clk_f + target_clk_f / 50) = 0 then Flow.fault Fault.div_by_zero
  else
    pl_loop pll_params ref_clk_f target_clk_f pll_params.min_vco
      (vco_ceiling pll_params target_clk_f) best_fit
      (to_int (low_PL pll_params target_clk_f)) 17
      (to_int (high_PL pll_params target_clk_f))
      ⟨U32 - 1, pll_params.max_M, pll_params.min_N, pll_params.min_PL⟩

/-- The code of `clk_config_pll` from the label `found_match` on: the
assertion, the store of the best triple and the achieved frequency. -/
def found_match (p : pll) (b : Best) : Except Fault (pll × Nat) :=
  if b.best_delta = U32 - 1 then Except.error Fault.bug_on_best_delta
  else
    match pl_to_div.get? b.best_PL with
    | none => Except.error Fault.out_of_bounds
    | some d =>
      if u32 (b.best_M * d) = 0 then Except.error Fault.div_by_zero
      else
        let freq := u32 (p.clk_in * b.best_N) / u32 (b.best_M * d)
        Except.ok ({ p with M := b.best_M, N := b.best_N, PL := b.best_PL, freq := freq }, freq)

/-- The function `clk_config_pll`: returns the updated `struct pll` and the
value written back through `*target_freq`. -/
def clk_config_pll (p : pll) (pll_params : pll_parms) (target_freq : Nat)
    (best_fit : Bool) : Except Fault (pll × Nat) :=
  match pll_search p.clk_in pll_params (u32 target_freq) best_fit with
  | Flow.fault f => Except.error f
  | Flow.next b => found_match p b
  | Flow.found b => found_match p b

/-! ## Registers and the hardware behind them -/

/-- One access of the driver to the hardware, in the order of execution. -/
inductive Ev where
  | readl (r v : Nat)
  | writel (r v : Nat)
  | udelay (usecs : Nat)
deriving DecidableEq, Repr

/-- Modelled from the spec: the register I/O collaborator behind
`gk20a_readl`/`gk20a_writel` (declared in `gk20a.h`, which is not part of the
sources at hand): "read(register_address) -> value" and
"write(register_address, value)" on a hardware state `σ`, which may also
change while the driver waits. -/
structure RegIO (σ : Type) where
  readl : σ → Nat → Nat × σ
  writel : σ → Nat → Nat → σ
  udelay : σ → Nat → σ

/-- The register addresses and field accessors of `hw_trim_gk20a.h` used by
the PLL code.  The header is not part of the sources at hand, so its values
are parameters of the model. -/
structure hw_trim where
  trim_sys_sel_vco_r : Nat
  trim_sys_sel_vco_gpc2clk_out_m : Nat
  trim_sys_sel_vco_gpc2clk_out_bypass_f : Nat
  trim_sys_sel_vco_gpc2clk_out_vco_f : Nat
  trim_sys_gpcpll_cfg_r : Nat
  trim_sys_gpcpll_cfg_iddq_v : Nat → Nat
  trim_sys_gpcpll_cfg_iddq_m : Nat
  trim_sys_gpcpll_cfg_iddq_power_on_v : Nat
  trim_sys_gpcpll_cfg_enable_m : Nat
  trim_sys_gpcpll_cfg_enable_no_f : Nat
  trim_sys_gpcpll_cfg_enable_yes_f : Nat
  trim_sys_gpcpll_cfg_enb_lckdet_m : Nat
  trim_sys_gpcpll_cfg_enb_lckdet_power_on_f : Nat
  trim_sys_gpcpll_cfg_enb_lckdet_power_off_f : Nat
  trim_sys_gpcpll_cfg_pll_lock_true_f : Nat
  trim_sys_gpcpll_coeff_r : Nat
  trim_sys_gpcpll_coeff_mdiv_f : Nat → Nat
  trim_sys_gpcpll_coeff_ndiv_f : Nat → Nat
  trim_sys_gpcpll_coeff_pldiv_f : Nat → Nat

/-- The type `struct clk_gk20a`: the PLL state, the lock wait budget and the
two frequency caps (all frequencies in MHz of gpc2clk). -/
structure clk_gk20a where
  gpc_pll : pll
  pll_delay : Nat
  cap_freq : Nat
  cap_freq_thermal : Nat
deriving DecidableEq, Repr

/-- The part of `struct gk20a` the clock code works on, together with the
hardware state `regs` and the log `trace` of every access made to it. -/
structure gk20a (σ : Type) where
  clk : clk_gk20a
  power_on : Bool
  regs : σ
  trace : List Ev
deriving DecidableEq, Repr

/-- How a call ends: it returns an `int`, or it does not return. -/
inductive Status where
  | ret (code : Int)
  | abort (f : Fault)
deriving DecidableEq, Repr

/-- The error number `EINVAL`. -/
def EINVAL : Int := 22

/-- The error number `EBUSY`. -/
def EBUSY : Int := 16

/-- The error number `ENODATA`. -/
def ENODATA : Int := 61

/-- The call `gk20a_readl(g, r)`: the `u32` value read, and the state after. -/
def gk20a_readl {σ : Type} (io : RegIO σ) (g : gk20a σ) (r : Nat) : Nat × gk20a σ :=
  (u32 (io.readl g.regs r).1,
   { g with regs := (io.readl g.regs r).2,
            trace := g.trace ++ [Ev.readl r (u32 (io.readl g.regs r).1)] })

/-- The call `gk20a_writel(g, r, v)`. -/
def gk20a_writel {σ : Type} (io : RegIO σ) (g : gk20a σ) (r v : Nat) : gk20a σ :=
  { g with regs := io.writel g.regs r v, trace := g.trace ++ [Ev.writel r v] }

/-- The call `udelay(usecs)`. -/
def udelay {σ : Type} (io : RegIO σ) (g : gk20a σ) (usecs : Nat) : gk20a σ :=
  { g with regs := io.udelay g.regs usecs, trace := g.trace ++ [Ev.udelay usecs] }

/-- Modelled from the spec: the helper `set_field(val, mask, field)` of
`gk20a.h` (not part of the sources at hand), a read-modify-write helper
"parameterized by field mask": the bits of `mask` are cleared in `val` and
`field` is or-ed in, as `u32`. -/
def set_field (val mask field : Nat) : Nat :=
  (u32 val &&& (u32 mask ^^^ (U32 - 1))) ||| u32 field

/-- Modelled from the spec: the macro `rate_gpc2clk_to_gpu` (not part of the
sources at hand), "external = internal / 2". -/
def rate_gpc2clk_to_gpu (rate : Nat) : Nat := rate / 2

/-- Modelled from the spec: the macro `rate_gpu_to_gpc2clk` (not part of the
sources at hand), "internal = external * 2". -/
def rate_gpu_to_gpc2clk (rate : Nat) : Nat := rate * 2

/-! ## The programming sequence -/

/-- The lock wait `do { ... } while (--timeout > 0)` of `clk_program_gpc_pll`:
the first argument is the number of iterations left; the result says whether
the jump to `pll_locked` was taken. -/
def wait_pll_lock {σ : Type} (h : hw_trim) (io : RegIO σ) : Nat → gk20a σ → Bool × gk20a σ
  | 0, g => (false, g)
  | k + 1, g =>
    if (gk20a_readl io g h.trim_sys_gpcpll_cfg_r).1 &&& h.trim_sys_gpcpll_cfg_pll_lock_true_f ≠ 0
    then (true, (gk20a_readl io g h.trim_sys_gpcpll_cfg_r).2)
    else wait_pll_lock h io k (udelay io (gk20a_readl io g h.trim_sys_gpcpll_cfg_r).2 100)

/-- The value written to the coefficient register for the coefficients of `p`. -/
def coeff_of (h : hw_trim) (p : pll) : Nat :=
  h.trim_sys_gpcpll_coeff_mdiv_f p.M ||| h.trim_sys_gpcpll_coeff_ndiv_f p.N |||
    h.trim_sys_gpcpll_coeff_pldiv_f p.PL

/-- The part of `clk_program_gpc_pll` before the lock wait: bypass, leaving
IDDQ, disabling the PLL, writing the coefficients, enabling the PLL and
powering the lock detection. -/
def program_steps {σ : Type} (h : hw_trim) (io : RegIO σ) (g : gk20a σ) : gk20a σ :=
  let r1 := gk20a_readl io g h.trim_sys_sel_vco_r
  let g1 := gk20a_writel io r1.2 h.trim_sys_sel_vco_r
    (set_field r1.1 h.trim_sys_sel_vco_gpc2clk_out_m h.trim_sys_sel_vco_gpc2clk_out_bypass_f)
  let r2 := gk20a_readl io g1 h.trim_sys_gpcpll_cfg_r
  let g2 :=
    if h.trim_sys_gpcpll_cfg_iddq_v r2.1 ≠ 0 then
      udelay io (gk20a_writel io r2.2 h.trim_sys_gpcpll_cfg_r
        (set_field r2.1 h.trim_sys_gpcpll_cfg_iddq_m h.trim_sys_gpcpll_cfg_iddq_power_on_v)) 2
    else r2.2
  let r3 := gk20a_readl io g2 h.trim_sys_gpcpll_cfg_r
  let g3 := gk20a_writel io r3.2 h.trim_sys_gpcpll_cfg_r
    (set_field r3.1 h.trim_sys_gpcpll_cfg_enable_m h.trim_sys_gpcpll_cfg_enable_no_f)
  let g4 := gk20a_writel io g3 h.trim_sys_gpcpll_coeff_r (coeff_of h g.clk.gpc_pll)
  let r5 := gk20a_readl io g4 h.trim_sys_gpcpll_cfg_r
  let g5 := gk20a_writel io r5.2 h.trim_sys_gpcpll_cfg_r
    (set_field r5.1 h.trim_sys_gpcpll_cfg_enable_m h.trim_sys_gpcpll_cfg_enable_yes_f)
  let r6 := gk20a_readl io g5 h.trim_sys_gpcpll_cfg_r
  if r6.1 &&& h.trim_sys_gpcpll_cfg_enb_lckdet_power_off_f ≠ 0 then
    gk20a_writel io r6.2 h.trim_sys_gpcpll_cfg_r
      (set_field r6.1 h.trim_sys_gpcpll_cfg_enb_lckdet_m
        h.trim_sys_gpcpll_cfg_enb_lckdet_power_on_f)
  else r6.2

/-- The function `clk_program_gpc_pll`.  Running out of lock polls ends in
`BUG()`, which does not return. -/
def clk_program_gpc_pll {σ : Type} (h : hw_trim) (io : RegIO σ) (g : gk20a σ) :
    Status × gk20a σ :=
  let w := wait_pll_lock h io (u32 (g.clk.pll_delay / 100 + 1)) (program_steps h io g)
  if w.1 = true then
    let r7 := gk20a_readl io w.2 h.trim_sys_sel_vco_r
    let g7 := gk20a_writel io r7.2 h.trim_sys_sel_vco_r
      (set_field r7.1 h.trim_sys_sel_vco_gpc2clk_out_m h.trim_sys_sel_vco_gpc2clk_out_vco_f)
    (Status.ret 0, { g7 with clk := { g7.clk with gpc_pll := { g7.clk.gpc_pll with enabled := true } } })
  else (Status.abort Fault.bug_lock_timeout, w.2)

/-- The function `clk_disable_gpcpll`. -/
def clk_disable_gpcpll {σ : Type} (h : hw_trim) (io : RegIO σ) (g : gk20a σ) :
    Status × gk20a σ :=
  let r := gk20a_readl io g h.trim_sys_gpcpll_cfg_r
  let g1 := gk20a_writel io r.2 h.trim_sys_gpcpll_cfg_r
    (set_field r.1 h.trim_sys_gpcpll_cfg_enable_m h.trim_sys_gpcpll_cfg_enable_no_f)
  (Status.ret 0, { g1 with clk := { g1.clk with gpc_pll := { g1.clk.gpc_pll with enabled := false } } })

/-! ## The rate controller -/

/-- The state written by `gk20a_init_clk_setup_sw` on its first run: the lock
wait budget, the reference clock and the initial coefficients
(`12 x 60 = 720 MHz`); `gk20a_clk_init_cap_freqs` has not run yet. -/
def gk20a_init_clk_setup_sw {σ : Type} (g : gk20a σ) : gk20a σ :=
  { g with clk := { g.clk with
      pll_delay := 5000000
      gpc_pll := { g.clk.gpc_pll with clk_in := 12, M := 1, N := 60, PL := 0, freq := 12 * 60 } } }

/-- The function `gk20a_clk_init_cap_freqs`. -/
def gk20a_clk_init_cap_freqs {σ : Type} (g : gk20a σ) : gk20a σ :=
  { g with clk := { g.clk with
      cap_freq := gpc_pll_params.max_freq, cap_freq_thermal := gpc_pll_params.max_freq } }

/-- The frequency `set_pll_target` hands to the solver: the request clamped
by the two `if`s on `gpc_pll_params` and then by the two caps (lines 393-402). -/
def clamp_target (clk : clk_gk20a) (freq : Nat) : Nat :=
  let freq1 :=
    if gpc_pll_params.max_freq < freq then gpc_pll_params.max_freq
    else if freq < gpc_pll_params.min_freq then gpc_pll_params.min_freq
    else freq
  let freq2 := if clk.cap_freq < freq1 then clk.cap_freq else freq1
  if clk.cap_freq_thermal < freq2 then clk.cap_freq_thermal else freq2

/-- The function `set_pll_target`.  `clk_config_pll` returns 0 whenever it
returns, so the `-EINVAL` branch is never taken; a fault of the solver ends
the call. -/
def set_pll_target {σ : Type} (g : gk20a σ) (freq old_freq : Nat) : Status × gk20a σ :=
  if clamp_target g.clk freq ≠ old_freq then
    match clk_config_pll g.clk.gpc_pll gpc_pll_params (clamp_target g.clk freq) true with
    | Except.ok r => (Status.ret 0, { g with clk := { g.clk with gpc_pll := r.1 } })
    | Except.error f => (Status.abort f, g)
  else (Status.ret 0, g)

/-- The function `set_pll_freq`. -/
def set_pll_freq {σ : Type} (h : hw_trim) (io : RegIO σ) (g : gk20a σ)
    (freq old_freq : Nat) : Status × gk20a σ :=
  if freq = old_freq ∧ g.clk.gpc_pll.enabled = true then (Status.ret 0, g)
  else if g.power_on = true then clk_program_gpc_pll h io g
  else (Status.ret 0, g)

/-- The result of `gk20a_clk_export_set_rate`: how the call ended, the state
after it and the value of `*rate` (`none` for a null pointer). -/
structure SetRate (σ : Type) where
  status : Status
  g : gk20a σ
  rate : Option Nat
deriving DecidableEq, Repr

/-- The function `gk20a_clk_export_set_rate`; its calls of `mutex_lock` and
`mutex_unlock` are logged by `gk20a_clk_export_set_rate_accesses`. -/
def gk20a_clk_export_set_rate {σ : Type} (h : hw_trim) (io : RegIO σ) (g : gk20a σ)
    (rate : Option Nat) : SetRate σ :=
  match rate with
  | none => ⟨Status.ret (-ENODATA), g, none⟩
  | some r =>
    let old_freq := g.clk.gpc_pll.freq
    let t := set_pll_target g (u32 (rate_gpu_to_gpc2clk r)) old_freq
    if t.1 = Status.ret 0 then
      let a :=
        if t.2.clk.gpc_pll.enabled = true then
          set_pll_freq h io t.2 t.2.clk.gpc_pll.freq old_freq
        else t
      if a.1 = Status.ret 0 then ⟨a.1, a.2, some (rate_gpc2clk_to_gpu a.2.clk.gpc_pll.freq)⟩
      else ⟨a.1, a.2, some r⟩
    else ⟨t.1, t.2, some r⟩

/-- The function `gk20a_clk_export_enable`; its calls of `mutex_lock` and
`mutex_unlock` are logged by `gk20a_clk_export_enable_accesses`. -/
def gk20a_clk_export_enable {σ : Type} (h : hw_trim) (io : RegIO σ) (g : gk20a σ) :
    Status × gk20a σ :=
  set_pll_freq h io g g.clk.gpc_pll.freq g.clk.gpc_pll.freq

/-- The function `gk20a_clk_export_disable`; it returns `void`, the status
tells only whether it returned.  Its calls of `mutex_lock` and `mutex_unlock`
are logged by `gk20a_clk_export_disable_accesses`. -/
def gk20a_clk_export_disable {σ : Type} (h : hw_trim) (io : RegIO σ) (g : gk20a σ) :
    Status × gk20a σ :=
  if g.power_on = true then (Status.ret 0, (clk_disable_gpcpll h io g).2)
  else (Status.ret 0, g)

/-- The function `gk20a_clk_get_rate`. -/
def gk20a_clk_get_rate {σ : Type} (g : gk20a σ) : Nat :=
  rate_gpc2clk_to_gpu g.clk.gpc_pll.freq

/-- Modelled from the spec: `gk20a_clk_set_rate` calls `clk_set_rate` of the
kernel's clock framework, which is not part of the sources at hand; the
request comes back to the driver through the registered operation
`gk20a_clk_export_set_rate` ("forces a `set_target` + `apply` down to the new
ceiling"). -/
def gk20a_clk_set_rate {σ : Type} (h : hw_trim) (io : RegIO σ) (g : gk20a σ)
    (rate : Nat) : Status × gk20a σ :=
  ((gk20a_clk_export_set_rate h io g (some rate)).status,
   (gk20a_clk_export_set_rate h io g (some rate)).g)

/-- The clamp of a cap to `[min_freq, max_freq]` in external units
(lines 586-589 and 607-610). -/
def clamp_cap (rate : Nat) : Nat :=
  if rate_gpc2clk_to_gpu gpc_pll_params.max_freq < rate then
    rate_gpc2clk_to_gpu gpc_pll_params.max_freq
  else if rate < rate_gpc2clk_to_gpu gpc_pll_params.min_freq then
    rate_gpc2clk_to_gpu gpc_pll_params.min_freq
  else rate

/-- The function `gk20a_clk_set_cap`. -/
def gk20a_clk_set_cap {σ : Type} (h : hw_trim) (io : RegIO σ) (g : gk20a σ)
    (rate : Nat) : Status × gk20a σ :=
  let g1 : gk20a σ :=
    { g with clk := { g.clk with cap_freq := u32 (rate_gpu_to_gpc2clk (clamp_cap rate)) } }
  if gk20a_clk_get_rate g1 ≤ clamp_cap rate then (Status.ret 0, g1)
  else gk20a_clk_set_rate h io g1 (clamp_cap rate)

/-- The function `gk20a_clk_set_cap_thermal`. -/
def gk20a_clk_set_cap_thermal {σ : Type} (h : hw_trim) (io : RegIO σ) (g : gk20a σ)
    (rate : Nat) : Status × gk20a σ :=
  let g1 : gk20a σ :=
    { g with clk := { g.clk with cap_freq_thermal := u32 (rate_gpu_to_gpc2clk (clamp_cap rate)) } }
  if gk20a_clk_get_rate g1 ≤ clamp_cap rate then (Status.ret 0, g1)
  else gk20a_clk_set_rate h io g1 (clamp_cap rate)

/-! ## Quantities the statements are written in -/

/-- The result of the search as an option: the best candidate with which
control reaches `found_match`, or `none` after a fault. -/
def search_best : Flow → Option Best
  | Flow.next b => some b
  | Flow.found b => some b
  | Flow.fault _ => none

/-- The output frequency of the triple `(m, n, pl)` with integer truncation,
`clk_in * n / (m * pl_to_div[pl])`. -/
def pll_freq_of (clk_in m n pl : Nat) : Nat :=
  clk_in * n / (m * pl_to_div.getD pl 0)

/-- The rounded output `lwv = (vco_f + pl_to_div[pl] / 2) / pl_to_div[pl]` of the
triple `(m, n, pl)`, where `vco_f = clk_in * n / m`, without wrap-around. -/
def lwv_of (clk_in m n pl : Nat) : Nat :=
  (clk_in * n / m + pl_to_div.getD pl 0 / 2) / pl_to_div.getD pl 0

/-- The distance `|a - b|` of two natural numbers. -/
def adist (a b : Nat) : Nat := (a - b) + (b - a)

/-- The rounded delta `|lwv - target|` of the triple `(m, n, pl)`: the
quantity the search compares. -/
def delta_of (clk_in target m n pl : Nat) : Nat :=
  adist (lwv_of clk_in m n pl) target

/-- A `struct pll` as `gk20a_init_clk_setup_sw` leaves it: input clock 12 MHz,
coefficients `M = 1`, `N = 60`, `PL = 0`, frequency 720 MHz, not enabled. -/
def init_pll : pll :=
  { id := 0, clk_in := 12, M := 1, N := 60, PL := 0, freq := 720, enabled := false }

/-! ## Checks evaluated over the legal frequency range -/

/-- A strict binding: `force n f` is `f n`, with `n` evaluated first. -/
def force {α : Type} (n : Nat) (f : Nat → α) : α :=
  match n with
  | 0 => f 0
  | k + 1 => f (k + 1)

/-- The search `pll_search` with its window evaluated before the loops start. -/
def pll_search_strict (ref_clk_f : Nat) (pll_params : pll_parms) (target_clk_f : Nat)
    (best_fit : Bool) : Flow :=
  if u32 (target_clk_f + target_clk_f / 50) = 0 then Flow.fault Fault.div_by_zero
  else
    force (vco_ceiling pll_params target_clk_f) fun mx =>
    force (low_PL pll_params target_clk_f) fun lo =>
    force (high_PL pll_params target_clk_f) fun hi =>
      pl_loop pll_params ref_clk_f target_clk_f pll_params.min_vco mx best_fit
        (to_int lo) 17 (to_int hi)
        ⟨U32 - 1, pll_params.max_M, pll_params.min_N, pll_params.min_PL⟩

/-- Conjunction of `P k` for all `k < n`. -/
def all_below (P : Nat → Bool) : Nat → Bool
  | 0 => true
  | k + 1 => P k && all_below P k

/-- The clamp of a multiplier to `[84, 166]`, the values of `n` whose VCO
frequency `12 * n` lies in `[1000, 2000]`. -/
def clamp_n (n : Nat) : Nat :=
  bif Nat.ble n 84 then 84 else bif Nat.ble 166 n then 166 else n

/-- For the divider index `pl`: the delta `bd` is not above the rounded delta
of the two multipliers next to `target * pl_to_div[pl] / 12` within `[84, 166]`. -/
def pl_check (target bd pl : Nat) : Bool :=
  force (pl_to_div.getD pl 0) fun d =>
  force (target * d / 12) fun n0 =>
    Nat.ble bd (adist ((12 * clamp_n n0 + d / 2) / d) target) &&
    Nat.ble bd (adist ((12 * clamp_n (n0 + 1) + d / 2) / d) target)

/-- What is checked of a best candidate `(bd, M, N, PL)` for `target`. -/
def best_props (target bd M N PL : Nat) : Bool :=
  decide (bd = delta_of 12 target M N PL) && decide (bd < U32 - 1) &&
  decide (M = 1) && decide (84 ≤ N) && decide (N ≤ 166) && decide (PL < 15) &&
  decide (pll_freq_of 12 M N PL ≤ target + 6) &&
  (decide (target < 204) || all_below (pl_check target bd) 15)

/-- What is checked of the best-fit search on `target` with the shipped
parameters and a 12 MHz input clock: it faults below 83 MHz only, and its best
candidate has the properties `best_props`. -/
def solver_check (target : Nat) : Bool :=
  match search_best (pll_search_strict 12 gpc_pll_params target true) with
  | none => decide (target < 83)
  | some b =>
    decide (83 ≤ target) &&
    force b.best_delta fun bd => force b.best_M fun M => force b.best_N fun N =>
      force b.best_PL fun PL => best_props target bd M N PL

/-! ## A simulated hardware, to run the model -/

/-- A simulated PLL register block: the output mux register, the PLL
configuration register and the coefficient register. -/
structure SimRegs where
  sel_vco : Nat
  cfg : Nat
  coeff : Nat
deriving DecidableEq, Repr

/-- A field layout for `hw_trim`, used to run the model: enable in bit 0,
IDDQ in bit 1, lock detection off in bit 4 and lock in bit 17 of the
configuration register; M, N and PL in bits 0-7, 8-15 and 16-21 of the
coefficient register; the output mux in bit 0 of its register. -/
def sim_trim : hw_trim :=
  { trim_sys_sel_vco_r := 0x137100
    trim_sys_sel_vco_gpc2clk_out_m := 1
    trim_sys_sel_vco_gpc2clk_out_bypass_f := 0
    trim_sys_sel_vco_gpc2clk_out_vco_f := 1
    trim_sys_gpcpll_cfg_r := 0x137000
    trim_sys_gpcpll_cfg_iddq_v := fun r => (r >>> 1) &&& 1
    trim_sys_gpcpll_cfg_iddq_m := 2
    trim_sys_gpcpll_cfg_iddq_power_on_v := 0
    trim_sys_gpcpll_cfg_enable_m := 1
    trim_sys_gpcpll_cfg_enable_no_f := 0
    trim_sys_gpcpll_cfg_enable_yes_f := 1
    trim_sys_gpcpll_cfg_enb_lckdet_m := 16
    trim_sys_gpcpll_cfg_enb_lckdet_power_on_f := 0
    trim_sys_gpcpll_cfg_enb_lckdet_power_off_f := 16
    trim_sys_gpcpll_cfg_pll_lock_true_f := 131072
    trim_sys_gpcpll_coeff_r := 0x137004
    trim_sys_gpcpll_coeff_mdiv_f := fun v => (v &&& 255) <<< 0
    trim_sys_gpcpll_coeff_ndiv_f := fun v => (v &&& 255) <<< 8
    trim_sys_gpcpll_coeff_pldiv_f := fun v => (v &&& 63) <<< 16 }

/-- A simulated hardware for `sim_trim`: registers keep what is written, and
the configuration register reads back with the lock bit set whenever the PLL
is enabled with lock detection on. -/
def sim_io : RegIO SimRegs :=
  { readl := fun s r =>
      if r = 0x137100 then (s.sel_vco, s)
      else if r = 0x137000 then
        (if s.cfg &&& 1 ≠ 0 ∧ s.cfg &&& 16 = 0 then s.cfg ||| 131072 else s.cfg, s)
      else if r = 0x137004 then (s.coeff, s)
      else (0, s)
    writel := fun s r v =>
      if r = 0x137100 then { s with sel_vco := v }
      else if r = 0x137000 then { s with cfg := v &&& 131071 }
      else if r = 0x137004 then { s with coeff := v }
      else s
    udelay := fun s _ => s }

/-- A simulated hardware for `sim_trim` whose PLL never locks. -/
def sim_io_no_lock : RegIO SimRegs :=
  { sim_io with readl := fun s r =>
      if r = 0x137100 then (s.sel_vco, s)
      else if r = 0x137000 then (s.cfg, s)
      else if r = 0x137004 then (s.coeff, s)
      else (0, s) }

/-- A controller state over the simulated hardware after initialization and
a first programming: the PLL runs at 720 MHz, the device is powered, both caps
are at `max_freq`. -/
def sim_state : gk20a SimRegs :=
  { clk := { gpc_pll := { init_pll with enabled := true }, pll_delay := 5000000,
             cap_freq := 1248, cap_freq_thermal := 1248 }
    power_on := true
    regs := { sel_vco := 1, cfg := 1, coeff := 15361 }
    trace := [] }

/-! ## Predicates and compositions the statements are written in -/

/-- The candidate `b` was recorded in the scan of the divider index `pl` with
`d = pl_to_div[pl]`: `best_delta` is the delta the search computed for the
triple, and the triple ends the search in the mode without best fit: its
delta is 0, or `vco_f / delta > 218`. -/
def accepted_at (ref_clk_f target_clk_f pl d : Nat) (b : Best) : Prop :=
  b.best_PL = pl ∧
  b.best_delta =
    abs_diff (u32 (u32 (ref_clk_f * b.best_N) / b.best_M + d / 2) / d) target_clk_f ∧
  (b.best_delta = 0 ∨ 218 < u32 (ref_clk_f * b.best_N) / b.best_M / b.best_delta)

/-- The candidate `b` is a triple with a divider index of the table, whose
`best_delta` is the delta the search computes for it, and which ends the search
in the mode without best fit. -/
def accepted (ref_clk_f target_clk_f : Nat) (b : Best) : Prop :=
  ∃ d, pl_to_div.get? b.best_PL = some d ∧ accepted_at ref_clk_f target_clk_f b.best_PL d b

/-- The run `x` without best fit against the run `y` with best fit from the
same state: they end alike, or `x` jumped to `found_match` with a candidate
satisfying `P`. -/
def fast_rel (P : Best → Prop) (x y : Flow) : Prop :=
  x = y ∨ ∃ b1, x = Flow.found b1 ∧ P b1

/-- The values written to the coefficient register, in order, by the accesses
of a trace. -/
def coeff_writes (h : hw_trim) : List Ev → List Nat
  | [] => []
  | Ev.writel r v :: es =>
    if r = h.trim_sys_gpcpll_coeff_r then v :: coeff_writes h es else coeff_writes h es
  | Ev.readl _ _ :: es => coeff_writes h es
  | Ev.udelay _ :: es => coeff_writes h es

/-- The coefficient register is neither the output mux register nor the PLL
configuration register. -/
def coeff_reg_apart (h : hw_trim) : Prop :=
  h.trim_sys_sel_vco_r ≠ h.trim_sys_gpcpll_coeff_r ∧
  h.trim_sys_gpcpll_cfg_r ≠ h.trim_sys_gpcpll_coeff_r

/-- Two calls of `gk20a_clk_export_enable` in a row; the second is made only
if the first returned. -/
def enable_twice {σ : Type} (h : hw_trim) (io : RegIO σ) (g : gk20a σ) : Status × gk20a σ :=
  match (gk20a_clk_export_enable h io g).1 with
  | Status.ret _ => gk20a_clk_export_enable h io (gk20a_clk_export_enable h io g).2
  | Status.abort f => (Status.abort f, (gk20a_clk_export_enable h io g).2)

/-- The device with its power state set to `powered`; nothing else changes. -/
def set_power {σ : Type} (g : gk20a σ) (powered : Bool) : gk20a σ :=
  { g with power_on := powered }

/-- The smallest index of the divider table whose factor is at least `t`
("the smallest divider-table index whose factor is ≥ that bound"), if there is
one. -/
def smallest_index_ge (t : Nat) : Option Nat :=
  (List.range pl_to_div.length).find? (fun i => decide (t ≤ pl_to_div.getD i 0))

/-- The register writes of a trace, in order: address and value. -/
def writes_of : List Ev → List (Nat × Nat)
  | [] => []
  | Ev.writel r v :: es => (r, v) :: writes_of es
  | Ev.readl _ _ :: es => writes_of es
  | Ev.udelay _ :: es => writes_of es

/-- The values read from registers by the accesses of a trace, in order. -/
def reads_of : List Ev → List Nat
  | [] => []
  | Ev.readl _ v :: es => v :: reads_of es
  | Ev.writel _ _ :: es => reads_of es
  | Ev.udelay _ :: es => reads_of es

/-- The accesses of `clk_program_gpc_pll` before the lock wait, given the
values read: `d1` from the output mux register, then `c2`, `c3`, `c5`, `c6`
from the PLL configuration register.  The mux goes to bypass, the PLL leaves
IDDQ if `c2` shows it there, the PLL is disabled, the coefficients of `p` are
written in one write, the PLL is enabled, and the lock detection is powered if
`c6` shows it off. -/
def steps_trace (h : hw_trim) (p : pll) (d1 c2 c3 c5 c6 : Nat) : List Ev :=
  [Ev.readl h.trim_sys_sel_vco_r d1,
   Ev.writel h.trim_sys_sel_vco_r
     (set_field d1 h.trim_sys_sel_vco_gpc2clk_out_m h.trim_sys_sel_vco_gpc2clk_out_bypass_f),
   Ev.readl h.trim_sys_gpcpll_cfg_r c2] ++
  (if h.trim_sys_gpcpll_cfg_iddq_v c2 ≠ 0 then
    [Ev.writel h.trim_sys_gpcpll_cfg_r
       (set_field c2 h.trim_sys_gpcpll_cfg_iddq_m h.trim_sys_gpcpll_cfg_iddq_power_on_v),
     Ev.udelay 2]
   else []) ++
  [Ev.readl h.trim_sys_gpcpll_cfg_r c3,
   Ev.writel h.trim_sys_gpcpll_cfg_r
     (set_field c3 h.trim_sys_gpcpll_cfg_enable_m h.trim_sys_gpcpll_cfg_enable_no_f),
   Ev.writel h.trim_sys_gpcpll_coeff_r (coeff_of h p),
   Ev.readl h.trim_sys_gpcpll_cfg_r c5,
   Ev.writel h.trim_sys_gpcpll_cfg_r
     (set_field c5 h.trim_sys_gpcpll_cfg_enable_m h.trim_sys_gpcpll_cfg_enable_yes_f),
   Ev.readl h.trim_sys_gpcpll_cfg_r c6] ++
  (if c6 &&& h.trim_sys_gpcpll_cfg_enb_lckdet_power_off_f ≠ 0 then
    [Ev.writel h.trim_sys_gpcpll_cfg_r
       (set_field c6 h.trim_sys_gpcpll_cfg_enb_lckdet_m
         h.trim_sys_gpcpll_cfg_enb_lckdet_power_on_f)]
   else [])

/-- The accesses of the lock wait that reads the values `vs` from the PLL
configuration register: each read that does not show the lock bit is followed
by `udelay(100)`, a read that shows it ends the wait. -/
def poll_trace (h : hw_trim) : List Nat → List Ev
  | [] => []
  | v :: vs =>
    if v &&& h.trim_sys_gpcpll_cfg_pll_lock_true_f ≠ 0 then
      [Ev.readl h.trim_sys_gpcpll_cfg_r v]
    else Ev.readl h.trim_sys_gpcpll_cfg_r v :: Ev.udelay 100 :: poll_trace h vs

/-- The accesses of `clk_program_gpc_pll` after the lock was seen, given the
value `d7` read from the output mux register: the mux goes back to the VCO. -/
def vco_trace (h : hw_trim) (d7 : Nat) : List Ev :=
  [Ev.readl h.trim_sys_sel_vco_r d7,
   Ev.writel h.trim_sys_sel_vco_r
     (set_field d7 h.trim_sys_sel_vco_gpc2clk_out_m h.trim_sys_sel_vco_gpc2clk_out_vco_f)]

/-- The register writes of `clk_program_gpc_pll` before the lock wait, in
order, given the values read (see `steps_trace`): output mux to bypass; PLL out
of IDDQ, only if `c2` shows IDDQ; PLL enable field to "no"; the one write of
the coefficient register, carrying `M`, `N` and `PL`; PLL enable field to
"yes"; lock detection powered, only if `c6` shows it off. -/
def program_writes (h : hw_trim) (p : pll) (d1 c2 c3 c5 c6 : Nat) : List (Nat × Nat) :=
  [(h.trim_sys_sel_vco_r,
     set_field d1 h.trim_sys_sel_vco_gpc2clk_out_m h.trim_sys_sel_vco_gpc2clk_out_bypass_f)] ++
  (if h.trim_sys_gpcpll_cfg_iddq_v c2 ≠ 0 then
    [(h.trim_sys_gpcpll_cfg_r,
       set_field c2 h.trim_sys_gpcpll_cfg_iddq_m h.trim_sys_gpcpll_cfg_iddq_power_on_v)]
   else []) ++
  [(h.trim_sys_gpcpll_cfg_r,
     set_field c3 h.trim_sys_gpcpll_cfg_enable_m h.trim_sys_gpcpll_cfg_enable_no_f),
   (h.trim_sys_gpcpll_coeff_r, coeff_of h p),
   (h.trim_sys_gpcpll_cfg_r,
     set_field c5 h.trim_sys_gpcpll_cfg_enable_m h.trim_sys_gpcpll_cfg_enable_yes_f)] ++
  (if c6 &&& h.trim_sys_gpcpll_cfg_enb_lckdet_power_off_f ≠ 0 then
    [(h.trim_sys_gpcpll_cfg_r,
       set_field c6 h.trim_sys_gpcpll_cfg_enb_lckdet_m
         h.trim_sys_gpcpll_cfg_enb_lckdet_power_on_f)]
   else [])

/-- A reading of how a loop of the search ended: `J` holds of the running best
candidate when the loop ran to its end, `R` holds of it when the loop jumped to
`found_match`, and a fault is one of the loops: a division by zero, a read
outside `pl_to_div`, or a loop without end. -/
def flow_ok (J R : Best → Prop) : Flow → Prop
  | Flow.next b => J b
  | Flow.found b => R b
  | Flow.fault f => f = Fault.div_by_zero ∨ f = Fault.out_of_bounds ∨ f = Fault.out_of_fuel

/-- The constraints a triple has passed when the search records it as the
best candidate `b`: `M` within `[min_M, max_M]` and not zero, `u = ref / M`
within `[min_u, max_u]`, `N` within `[min_N, max_N]`, the divider index `PL`
within the window from `(int)low_PL` to `high_PL` and inside `pl_to_div`, the
VCO frequency within `[min_vco, max_vco_f]`, where `max_vco_f` is the raised
ceiling of lines 93-95; `best_delta` is the delta computed for the triple. -/
def searched (ref_clk_f : Nat) (pp : pll_parms) (target_clk_f : Nat) (b : Best) : Prop :=
  pp.min_M ≤ b.best_M ∧ b.best_M ≤ pp.max_M ∧ b.best_M ≠ 0 ∧
  pp.min_u ≤ ref_clk_f / b.best_M ∧ ref_clk_f / b.best_M ≤ pp.max_u ∧
  pp.min_N ≤ b.best_N ∧ b.best_N ≤ pp.max_N ∧
  to_int (low_PL pp target_clk_f) ≤ (b.best_PL : Int) ∧
  (b.best_PL : Int) ≤ to_int (high_PL pp target_clk_f) ∧
  pp.min_vco ≤ u32 (ref_clk_f * b.best_N) / b.best_M ∧
  u32 (ref_clk_f * b.best_N) / b.best_M ≤ vco_ceiling pp target_clk_f ∧
  ∃ d, pl_to_div.get? b.best_PL = some d ∧
    b.best_delta =
      abs_diff (u32 (u32 (ref_clk_f * b.best_N) / b.best_M + d / 2) / d) target_clk_f

/-- The range constraints of the bounds on a triple, in the words of the
specification ("PllBounds": the ranges of `vco`, `u`, `m`, `n` and `pl`):
`M`, `N` and `PL` lie in their ranges, `u = ref / M` lies in `[min_u, max_u]`
and `vco = ref * N / M` lies in `[min_vco, max_vco]`. -/
def range_constraints (ref_clk_f : Nat) (pp : pll_parms) (M N PL : Nat) : Prop :=
  pp.min_M ≤ M ∧ M ≤ pp.max_M ∧ pp.min_N ≤ N ∧ N ≤ pp.max_N ∧
  pp.min_PL ≤ PL ∧ PL ≤ pp.max_PL ∧
  pp.min_u ≤ ref_clk_f / M ∧ ref_clk_f / M ≤ pp.max_u ∧
  pp.min_vco ≤ ref_clk_f * N / M ∧ ref_clk_f * N / M ≤ pp.max_vco

/-- The field `freq` of a `struct pll` is the frequency of its coefficients as
`clk_config_pll` computes it: `clk_in * N / (M * pl_to_div[PL])` in `u32`
arithmetic. -/
def pll_consistent (q : pll) : Prop :=
  ∃ d, pl_to_div.get? q.PL = some d ∧ q.freq = u32 (q.clk_in * q.N) / u32 (q.M * d)

/-- The `struct pll` last programmed into the hardware after a call of the rate
controller that took the state `g` to `g1`, when it was `hw` before.  These
calls (set rate, enable, the cap setters) access the hardware only inside
`clk_program_gpc_pll`, so a call that returned 0 with a longer access log has
programmed the coefficients of `g1`. -/
def programmed {σ : Type} (g g1 : gk20a σ) (hw : Option pll) : Option pll :=
  if g1.trace = g.trace then hw else some g1.clk.gpc_pll

/-- What a call of the rate controller that returned 0 does to the state: the
frequency field stays the frequency of the coefficients, and either nothing was
programmed (the access log and the power state are as before, a PLL that is
enabled was enabled before, and its frequency is as before if the device is
powered), or the device was powered and the coefficients of the new state were
programmed, with one write of the coefficient register, and the PLL is
enabled. -/
def rate_step {σ : Type} (h : hw_trim) (g g1 : gk20a σ) : Prop :=
  (pll_consistent g.clk.gpc_pll → pll_consistent g1.clk.gpc_pll) ∧
  ((g1.trace = g.trace ∧ g1.power_on = g.power_on ∧
      (g1.clk.gpc_pll.enabled = true →
        g.clk.gpc_pll.enabled = true ∧
        (g.power_on = true → g1.clk.gpc_pll.freq = g.clk.gpc_pll.freq))) ∨
    (g1.trace ≠ g.trace ∧ g.power_on = true ∧ g1.power_on = true ∧
      g1.clk.gpc_pll.enabled = true ∧
      (coeff_reg_apart h →
        coeff_writes h g1.trace = coeff_writes h g.trace ++ [coeff_of h g1.clk.gpc_pll])))

/-- The states of the controller reachable from initialization, each with the
`struct pll` last programmed into the hardware by a call of
`clk_program_gpc_pll` that returned 0 (`none` before the first).  The steps
are the entry points of the driver, taken when they return 0: the programming
of `gk20a_init_clk_setup_hw` (line 386, which does not test `g->power_on`), set
rate, enable, disable, the two cap setters, and the power transitions, which
happen outside the driver.  `prog_ok` says in which states
`gk20a_init_clk_setup_hw` is run, `off_ok` in which states the power may be
turned off.  `set_pll_target` and `set_pll_freq` are static and run only
inside these calls. -/
inductive reachable {σ : Type} (h : hw_trim) (io : RegIO σ)
    (prog_ok off_ok : gk20a σ → Prop) : gk20a σ → Option pll → Prop
  | init (g0 : gk20a σ) (hen : g0.clk.gpc_pll.enabled = false) (htr : g0.trace = []) :
      reachable h io prog_ok off_ok (gk20a_clk_init_cap_freqs (gk20a_init_clk_setup_sw g0)) none
  | program (g : gk20a σ) (hw : Option pll) (hr : reachable h io prog_ok off_ok g hw)
      (hp : prog_ok g) (hs : (clk_program_gpc_pll h io g).1 = Status.ret 0) :
      reachable h io prog_ok off_ok (clk_program_gpc_pll h io g).2 (some g.clk.gpc_pll)
  | set_rate (g : gk20a σ) (hw : Option pll) (rate : Nat) (hr : reachable h io prog_ok off_ok g hw)
      (hs : (gk20a_clk_export_set_rate h io g (some rate)).status = Status.ret 0) :
      reachable h io prog_ok off_ok (gk20a_clk_export_set_rate h io g (some rate)).g
        (programmed g (gk20a_clk_export_set_rate h io g (some rate)).g hw)
  | enable (g : gk20a σ) (hw : Option pll) (hr : reachable h io prog_ok off_ok g hw)
      (hs : (gk20a_clk_export_enable h io g).1 = Status.ret 0) :
      reachable h io prog_ok off_ok (gk20a_clk_export_enable h io g).2
        (programmed g (gk20a_clk_export_enable h io g).2 hw)
  | disable (g : gk20a σ) (hw : Option pll) (hr : reachable h io prog_ok off_ok g hw) :
      reachable h io prog_ok off_ok (gk20a_clk_export_disable h io g).2 hw
  | set_cap (g : gk20a σ) (hw : Option pll) (rate : Nat) (hr : reachable h io prog_ok off_ok g hw)
      (hs : (gk20a_clk_set_cap h io g rate).1 = Status.ret 0) :
      reachable h io prog_ok off_ok (gk20a_clk_set_cap h io g rate).2
        (programmed g (gk20a_clk_set_cap h io g rate).2 hw)
  | set_cap_thermal (g : gk20a σ) (hw : Option pll) (rate : Nat)
      (hr : reachable h io prog_ok off_ok g hw)
      (hs : (gk20a_clk_set_cap_thermal h io g rate).1 = Status.ret 0) :
      reachable h io prog_ok off_ok (gk20a_clk_set_cap_thermal h io g rate).2
        (programmed g (gk20a_clk_set_cap_thermal h io g rate).2 hw)
  | power_on (g : gk20a σ) (hw : Option pll) (hr : reachable h io prog_ok off_ok g hw) :
      reachable h io prog_ok off_ok (set_power g true) hw
  | power_off (g : gk20a σ) (hw : Option pll) (hr : reachable h io prog_ok off_ok g hw)
      (hok : off_ok g) :
      reachable h io prog_ok off_ok (set_power g false) hw

/-- The simulated controller right after initialization: coefficients
`(1, 60, 0)` for 720 MHz, the PLL not enabled, the device powered, no access
made yet. -/
def sim_init : gk20a SimRegs :=
  gk20a_clk_init_cap_freqs (gk20a_init_clk_setup_sw
    { sim_state with
      clk := { sim_state.clk with gpc_pll := { sim_state.clk.gpc_pll with enabled := false } } })

/-- The simulated controller after this run: initialization, enable (which
programs 720 MHz), power off, and a rate request for 335 MHz. -/
def stale_state : gk20a SimRegs :=
  (gk20a_clk_export_set_rate sim_trim sim_io
    (set_power (gk20a_clk_export_enable sim_trim sim_io sim_init).2 false) (some 335)).g

/-- The divider factor `high_PL` holds after lines 97-99, before the index loop
of lines 112-117 replaces it by an index: the factor threshold of `high_PL`. -/
def high_factor (pll_params : pll_parms) (target_clk_f : Nat) : Nat :=
  let target_vco_f := u32 (target_clk_f + target_clk_f / 50)
  let h := u32 (vco_ceiling pll_params target_clk_f + target_vco_f - 1) / target_vco_f
  max (min h pll_params.max_PL) pll_params.min_PL

/-- The divider factor `low_PL` holds after lines 101-103, before the index loop
of lines 106-111 replaces it by an index: the factor threshold of `low_PL`. -/
def low_factor (pll_params : pll_parms) (target_clk_f : Nat) : Nat :=
  let target_vco_f := u32 (target_clk_f + target_clk_f / 50)
  let l := pll_params.min_vco / target_vco_f
  max (min l pll_params.max_PL) pll_params.min_PL

/-- The frequency `set_pll_target` hands to the solver when a cap setter called
with `rate` forces the rate down (`thermal` says which setter): the setter has
stored the clamped cap in its field and requests it through
`gk20a_clk_set_rate`, `gk20a_clk_export_set_rate` converts the request to
internal units, and `set_pll_target` clamps it by the legal range and by both
caps. -/
def cap_target (clk : clk_gk20a) (thermal : Bool) (rate : Nat) : Nat :=
  if thermal = true then
    clamp_target { clk with cap_freq_thermal := u32 (rate_gpu_to_gpc2clk (clamp_cap rate)) }
      (u32 (rate_gpu_to_gpc2clk (clamp_cap rate)))
  else
    clamp_target { clk with cap_freq := u32 (rate_gpu_to_gpc2clk (clamp_cap rate)) }
      (u32 (rate_gpu_to_gpc2clk (clamp_cap rate)))

/-- The simulated controller after this run: initialization, power off, the
programming of `gk20a_init_clk_setup_hw` (720 MHz, on the unpowered device),
and a rate request for 335 MHz. -/
def stale_state_unpowered : gk20a SimRegs :=
  (gk20a_clk_export_set_rate sim_trim sim_io
    (clk_program_gpc_pll sim_trim sim_io (set_power sim_init false)).2 (some 335)).g

/-- The rounded output `lwv = (vco_f + (pl_to_div[pl] / 2)) / pl_to_div[pl]` of
lines 145-146, computed in `u32` as the code does, for the divider factor
`d = pl_to_div[pl]`. -/
def lwv_u32 (vco_f d : Nat) : Nat := u32 (vco_f + d / 2) / d

/-- A sequence of calls of the cap setters, `(true, rate)` for
`gk20a_clk_set_cap_thermal` and `(false, rate)` for `gk20a_clk_set_cap`; a
call is made only if the one before returned. -/
def cap_calls {σ : Type} (h : hw_trim) (io : RegIO σ) : gk20a σ → List (Bool × Nat) → gk20a σ
  | g, [] => g
  | g, c :: cs =>
    match (if c.1 = true then gk20a_clk_set_cap_thermal h io g c.2
           else gk20a_clk_set_cap h io g c.2) with
    | (Status.ret _, g1) => cap_calls h io g1 cs
    | (Status.abort _, g1) => g1

/-- The states of the controller reachable from the seed of
`gk20a_init_clk_setup_sw` (`M = 1`, `N = 60`, `PL = 0`, 720 MHz) by calls that
return 0: `set_pll_target` and `set_pll_freq` with any arguments, the
programming sequence, set rate, enable, disable, the cap setters with the
initialization of the caps, and the power transitions. -/
inductive seeded {σ : Type} (h : hw_trim) (io : RegIO σ) : gk20a σ → Prop
  | seed (g0 : gk20a σ) : seeded h io (gk20a_init_clk_setup_sw g0)
  | init_caps (g : gk20a σ) (hr : seeded h io g) : seeded h io (gk20a_clk_init_cap_freqs g)
  | set_target (g : gk20a σ) (freq old_freq : Nat) (hr : seeded h io g)
      (hs : (set_pll_target g freq old_freq).1 = Status.ret 0) :
      seeded h io (set_pll_target g freq old_freq).2
  | apply_freq (g : gk20a σ) (freq old_freq : Nat) (hr : seeded h io g)
      (hs : (set_pll_freq h io g freq old_freq).1 = Status.ret 0) :
      seeded h io (set_pll_freq h io g freq old_freq).2
  | program (g : gk20a σ) (hr : seeded h io g)
      (hs : (clk_program_gpc_pll h io g).1 = Status.ret 0) :
      seeded h io (clk_program_gpc_pll h io g).2
  | set_rate (g : gk20a σ) (rate : Nat) (hr : seeded h io g)
      (hs : (gk20a_clk_export_set_rate h io g (some rate)).status = Status.ret 0) :
      seeded h io (gk20a_clk_export_set_rate h io g (some rate)).g
  | enable (g : gk20a σ) (hr : seeded h io g)
      (hs : (gk20a_clk_export_enable h io g).1 = Status.ret 0) :
      seeded h io (gk20a_clk_export_enable h io g).2
  | disable (g : gk20a σ) (hr : seeded h io g) :
      seeded h io (gk20a_clk_export_disable h io g).2
  | set_cap (g : gk20a σ) (rate : Nat) (hr : seeded h io g)
      (hs : (gk20a_clk_set_cap h io g rate).1 = Status.ret 0) :
      seeded h io (gk20a_clk_set_cap h io g rate).2
  | set_cap_thermal (g : gk20a σ) (rate : Nat) (hr : seeded h io g)
      (hs : (gk20a_clk_set_cap_thermal h io g rate).1 = Status.ret 0) :
      seeded h io (gk20a_clk_set_cap_thermal h io g rate).2
  | power (g : gk20a σ) (powered : Bool) (hr : seeded h io g) : seeded h io (set_power g powered)

/-- The coefficients of a `struct pll` lie in the GPC bounds, with `PL` an index
of the table, the input clock is 12 MHz, and the frequency field is
`clk_in * N / (M * pl_to_div[PL])` with truncating division. -/
def pll_inv (q : pll) : Prop :=
  q.clk_in = 12 ∧ 1 ≤ q.M ∧ q.M ≤ 255 ∧ q.N ≤ 255 ∧ q.PL < 15 ∧
  q.freq = q.clk_in * q.N / (q.M * pl_to_div.getD q.PL 0)

/-- The record the search keeps for the candidate `(m, n, pl)` with the divider
factor `d`: its rounded delta `|(vco + d / 2) / d - target|`, with
`vco = ref * n / m`, and the triple; no `u32` wrap-around. -/
def cand (ref t pl d m n : Nat) : Best :=
  ⟨adist ((ref * n / m + d / 2) / d) t, m, n, pl⟩

/-- The reference's test of a multiplier `n` for the divider `m`: `n` within
`[min_N, max_N]` and `vco = ref * n / m` within `[minv, maxv]`. -/
def cand_ok (pp : pll_parms) (ref minv maxv m n : Nat) : Bool :=
  decide (pp.min_N ≤ n ∧ n ≤ pp.max_N ∧ minv ≤ ref * n / m ∧ ref * n / m ≤ maxv)

/-- The candidates of the reference for a divider index `pl` with factor `d`
and a divider `m`, in ascending order of `n`: every `n` from the floor to the
ceiling of `target * d * m / ref` that passes `cand_ok`. -/
def cands_n (pp : pll_parms) (ref t minv maxv pl d m : Nat) : List Best :=
  ((List.range' (t * d * m / ref)
      ((t * d * m + (ref - 1)) / ref + 1 - t * d * m / ref)).filter
    (cand_ok pp ref minv maxv m)).map (cand ref t pl d m)

/-- The candidates of the reference for `pl` and `m`: those of `cands_n` if
`u = ref / m` lies within `[min_u, max_u]`, none otherwise. -/
def cands_at (pp : pll_parms) (ref t minv maxv pl d m : Nat) : List Best :=
  if pp.min_u ≤ ref / m ∧ ref / m ≤ pp.max_u then cands_n pp ref t minv maxv pl d m else []

/-- The candidates of the reference for a divider index `pl`: every `m` from
`min_M` to `max_M`, ascending. -/
def cands_pl (pp : pll_parms) (ref t minv maxv pl : Nat) : List Best :=
  (List.range' pp.min_M (pp.max_M + 1 - pp.min_M)).flatMap
    (cands_at pp ref t minv maxv pl (pl_to_div.getD pl 0))

/-- The exhaustive reference of the search, in the words of the specification:
ALL candidates of the window in scan order, `pl` descending from the high
index to the low index, then `m` ascending, then `n` ascending; the VCO
frequency is held against `[min_vco, vco ceiling]`.  No loop is left early. -/
def reference_candidates (ref : Nat) (pp : pll_parms) (t : Nat) : List Best :=
  (List.range' (low_PL pp t) (high_PL pp t + 1 - low_PL pp t)).reverse.flatMap
    (cands_pl pp ref t pp.min_vco (vco_ceiling pp t))

/-- The first record of a list that attains the least delta of the list. -/
def first_min (cs : List Best) : Option Best :=
  cs.find? (fun c => cs.all (fun c1 => decide (c.best_delta ≤ c1.best_delta)))

/-- The result of the exhaustive reference: "the first triple, in scan order,
that attains the minimum rounded delta over all candidates of the window";
`none` if the window has no candidate. -/
def reference_search (ref : Nat) (pp : pll_parms) (t : Nat) : Option Best :=
  first_min (reference_candidates ref pp t)

/-- The bookkeeping of the best-fit search over a list of candidates, from the
running best `b`: a candidate with a smaller delta is recorded, and a recorded
candidate with delta 0 ends the scan by the jump to `found_match`. -/
def scan : Best → List Best → Flow
  | b, [] => Flow.next b
  | b, c :: cs =>
    if c.best_delta < b.best_delta then
      if c.best_delta = 0 then Flow.found c else scan c cs
    else scan b cs

/-- One step of an operation as the lock discipline sees it: taking or
releasing `clk_mutex`, an access to the PLL state `clk->gpc_pll`, to
`clk->cap_freq` or to `clk->cap_freq_thermal`, or an access to the hardware (an
entry of the trace). -/
inductive Access where
  | lock
  | unlock
  | pll_state
  | cap_freq
  | cap_freq_thermal
  | reg (e : Ev)
deriving DecidableEq, Repr

/-- The hardware accesses of a call that took the state `g` to `g1`, in order:
the entries it appended to the trace. -/
def regs_since {σ : Type} (g g1 : gk20a σ) : List Access :=
  (g1.trace.drop g.trace.length).map Access.reg

/-- What follows the last access of an operation that takes `clk_mutex`: the
call `mutex_unlock` if the operation returns, nothing if it ends in `BUG()` or
a fault. -/
def unlock_if : Status → List Access
  | Status.ret _ => [Access.unlock]
  | Status.abort _ => []

/-- The accesses of `clk_program_gpc_pll` (lines 195-264): its hardware
accesses in order; the read of the coefficients `clk->gpc_pll.M`, `N`, `PL`,
which the code makes between them, is logged before them, and the store of
`clk->gpc_pll.enabled` after them if the PLL locked.  The function takes no
lock. -/
def clk_program_gpc_pll_accesses {σ : Type} (h : hw_trim) (io : RegIO σ) (g : gk20a σ) :
    List Access :=
  Access.pll_state :: regs_since g (clk_program_gpc_pll h io g).2 ++
    (match (clk_program_gpc_pll h io g).1 with
     | Status.ret _ => [Access.pll_state]
     | Status.abort _ => [])

/-- The accesses of `clk_disable_gpcpll` (lines 266-278): the read and the
write of the configuration register, then the store of `clk->gpc_pll.enabled`. -/
def clk_disable_gpcpll_accesses {σ : Type} (h : hw_trim) (io : RegIO σ) (g : gk20a σ) :
    List Access :=
  regs_since g (clk_disable_gpcpll h io g).2 ++ [Access.pll_state]

/-- The accesses of `set_pll_target` (lines 389-414): it compares the request
with `clk->cap_freq` and `clk->cap_freq_thermal`, and `clk_config_pll` works
on `clk->gpc_pll` if the clamped request differs from `old_freq`. -/
def set_pll_target_accesses {σ : Type} (g : gk20a σ) (freq old_freq : Nat) : List Access :=
  [Access.cap_freq, Access.cap_freq_thermal] ++
    (if clamp_target g.clk freq ≠ old_freq then [Access.pll_state] else [])

/-- The accesses of `set_pll_freq` (lines 416-438): the read of
`clk->gpc_pll.enabled`, made if `freq == old_freq`, and the accesses of
`clk_program_gpc_pll` if it is called. -/
def set_pll_freq_accesses {σ : Type} (h : hw_trim) (io : RegIO σ) (g : gk20a σ)
    (freq old_freq : Nat) : List Access :=
  (if freq = old_freq then [Access.pll_state] else []) ++
    (if freq = old_freq ∧ g.clk.gpc_pll.enabled = true then []
     else if g.power_on = true then clk_program_gpc_pll_accesses h io g
     else [])

/-- The accesses of `gk20a_clk_export_set_rate` (lines 440-458), with its calls
of `mutex_lock` (line 448) and `mutex_unlock` (line 455): the read of the old
frequency, `set_pll_target`, the read of `enabled`, the read of the frequency
for `set_pll_freq` and that call if the PLL is enabled, and the read of the
frequency for `*rate`.  With a null pointer nothing is done. -/
def gk20a_clk_export_set_rate_accesses {σ : Type} (h : hw_trim) (io : RegIO σ) (g : gk20a σ)
    (rate : Option Nat) : List Access :=
  match rate with
  | none => []
  | some r =>
    let old_freq := g.clk.gpc_pll.freq
    let t := set_pll_target g (u32 (rate_gpu_to_gpc2clk r)) old_freq
    [Access.lock, Access.pll_state] ++
      set_pll_target_accesses g (u32 (rate_gpu_to_gpc2clk r)) old_freq ++
      (if t.1 = Status.ret 0 then
        [Access.pll_state] ++
        (if t.2.clk.gpc_pll.enabled = true then
          Access.pll_state :: set_pll_freq_accesses h io t.2 t.2.clk.gpc_pll.freq old_freq
         else []) ++
        (if (gk20a_clk_export_set_rate h io g (some r)).status = Status.ret 0 then
          [Access.pll_state]
         else [])
       else []) ++
      unlock_if (gk20a_clk_export_set_rate h io g (some r)).status

/-- The accesses of `gk20a_clk_export_enable` (lines 460-470), with its calls of
`mutex_lock` (line 466) and `mutex_unlock` (line 468). -/
def gk20a_clk_export_enable_accesses {σ : Type} (h : hw_trim) (io : RegIO σ) (g : gk20a σ) :
    List Access :=
  [Access.lock, Access.pll_state] ++
    set_pll_freq_accesses h io g g.clk.gpc_pll.freq g.clk.gpc_pll.freq ++
    unlock_if (gk20a_clk_export_enable h io g).1

/-- The accesses of `gk20a_clk_export_disable` (lines 472-481), with its calls
of `mutex_lock` (line 477) and `mutex_unlock` (line 480). -/
def gk20a_clk_export_disable_accesses {σ : Type} (h : hw_trim) (io : RegIO σ) (g : gk20a σ) :
    List Access :=
  [Access.lock] ++
    (if g.power_on = true then clk_disable_gpcpll_accesses h io g else []) ++
    [Access.unlock]

/-- The accesses of `gk20a_clk_get_rate` (lines 556-560): the read of
`clk->gpc_pll.freq`; the function takes no lock. -/
def gk20a_clk_get_rate_accesses {σ : Type} (_g : gk20a σ) : List Access :=
  [Access.pll_state]

/-- Modelled from the spec: the accesses of `gk20a_clk_set_rate`, whose request
comes back to the driver through `gk20a_clk_export_set_rate`; what the clock
framework itself does is not part of the sources at hand. -/
def gk20a_clk_set_rate_accesses {σ : Type} (h : hw_trim) (io : RegIO σ) (g : gk20a σ)
    (rate : Nat) : List Access :=
  gk20a_clk_export_set_rate_accesses h io g (some rate)

/-- The accesses of `gk20a_clk_set_cap` (lines 582-595): the store of
`clk->cap_freq` (line 591), the read of the frequency in `gk20a_clk_get_rate`
(line 592), and the rate request if the rate is above the cap.  The function
itself takes no lock. -/
def gk20a_clk_set_cap_accesses {σ : Type} (h : hw_trim) (io : RegIO σ) (g : gk20a σ)
    (rate : Nat) : List Access :=
  let g1 : gk20a σ :=
    { g with clk := { g.clk with cap_freq := u32 (rate_gpu_to_gpc2clk (clamp_cap rate)) } }
  [Access.cap_freq] ++ gk20a_clk_get_rate_accesses g1 ++
    (if gk20a_clk_get_rate g1 ≤ clamp_cap rate then []
     else gk20a_clk_set_rate_accesses h io g1 (clamp_cap rate))

/-- The accesses of `gk20a_clk_set_cap_thermal` (lines 603-616): the store of
`clk->cap_freq_thermal` (line 612), the read of the frequency in
`gk20a_clk_get_rate` (line 613), and the rate request if the rate is above the
cap.  The function itself takes no lock. -/
def gk20a_clk_set_cap_thermal_accesses {σ : Type} (h : hw_trim) (io : RegIO σ) (g : gk20a σ)
    (rate : Nat) : List Access :=
  let g1 : gk20a σ :=
    { g with clk := { g.clk with cap_freq_thermal := u32 (rate_gpu_to_gpc2clk (clamp_cap rate)) } }
  [Access.cap_freq_thermal] ++ gk20a_clk_get_rate_accesses g1 ++
    (if gk20a_clk_get_rate g1 ≤ clamp_cap rate then []
     else gk20a_clk_set_rate_accesses h io g1 (clamp_cap rate))

/-- Whether a log keeps the lock discipline, `held` telling whether `clk_mutex`
is held at its start: the mutex is taken only while it is free and released
only while it is held, and every access to the PLL state, to a cap or to the
hardware happens while it is held. -/
def guarded : Bool → List Access → Bool
  | _, [] => true
  | held, Access.lock :: es => !held && guarded true es
  | held, Access.unlock :: es => held && guarded false es
  | held, Access.pll_state :: es => held && guarded held es
  | held, Access.cap_freq :: es => held && guarded held es
  | held, Access.cap_freq_thermal :: es => held && guarded held es
  | held, Access.reg _ :: es => held && guarded held es

/-- The log is one critical section: `clk_mutex` is taken first, it is not
touched in between, and it is released last if the call returns (`s` is how
the call ended; a call that ends in `BUG()` or a fault releases nothing). -/
def critical_section (log : List Access) (s : Status) : Prop :=
  ∃ body, Access.lock ∉ body ∧ Access.unlock ∉ body ∧
    log = Access.lock :: body ++ unlock_if s

deriving instance DecidableEq for Except

/-! ## Lemmas about the checks -/

theorem force_eq {α : Type} (n : Nat) (f : Nat → α) : force n f = f n := by
  cases n <;> rfl

theorem all_below_true (P : Nat → Bool) :
    ∀ n, all_below P n = true → ∀ k, k < n → P k = true := by
  intro n
  induction n with
  | zero => intro _ k hk; omega
  | succ n ih =>
    intro hall k hk
    simp only [all_below, Bool.and_eq_true] at hall
    rcases Nat.lt_succ_iff_lt_or_eq.mp hk with hlt | heq
    · exact ih hall.2 k hlt
    · rw [heq]; exact hall.1

theorem pll_search_strict_eq (ref_clk_f : Nat) (pll_params : pll_parms) (target_clk_f : Nat)
    (best_fit : Bool) :
    pll_search_strict ref_clk_f pll_params target_clk_f best_fit =
      pll_search ref_clk_f pll_params target_clk_f best_fit := by
  unfold pll_search_strict pll_search
  simp only [force_eq]

theorem clamp_n_eq (n : Nat) : clamp_n n = max 84 (min n 166) := by
  unfold clamp_n
  by_cases h1 : n ≤ 84
  · have : Nat.ble n 84 = true := Nat.ble_eq.mpr h1
    simp only [this, cond_true]; omega
  · have e1 : Nat.ble n 84 = false := by
      cases hb : Nat.ble n 84
      · rfl
      · exact absurd (Nat.ble_eq.mp hb) h1
    by_cases h2 : 166 ≤ n
    · have : Nat.ble 166 n = true := Nat.ble_eq.mpr h2
      simp only [e1, this, cond_true, cond_false]; omega
    · have e2 : Nat.ble 166 n = false := by
        cases hb : Nat.ble 166 n
        · rfl
        · exact absurd (Nat.ble_eq.mp hb) h2
      simp only [e1, e2, cond_false]; omega

/-- The rounded output is monotone in the numerator. -/
theorem round_mono (d a b : Nat) (hab : a ≤ b) : (a + d / 2) / d ≤ (b + d / 2) / d :=
  Nat.div_le_div_right (Nat.add_le_add_right hab _)

/-- A numerator at most `t * d` rounds to at most `t`. -/
theorem round_le (d a t : Nat) (hd : 0 < d) (h : a ≤ t * d) : (a + d / 2) / d ≤ t := by
  have h2 : d / 2 < d := Nat.div_lt_self hd (by decide)
  have h3 : a + d / 2 < (t + 1) * d := by
    have : (t + 1) * d = t * d + d := by ring
    omega
  have := (Nat.div_lt_iff_lt_mul hd).mpr h3
  omega

/-- A numerator at least `t * d` rounds to at least `t`. -/
theorem le_round (d a t : Nat) (hd : 0 < d) (h : t * d ≤ a) : t ≤ (a + d / 2) / d :=
  (Nat.le_div_iff_mul_le hd).mpr (by omega)

/-- Among the multipliers `n` in `[84, 166]` the rounded delta for a divider
`d` is least at one of the two multipliers next to `t * d / 12`. -/
theorem delta_two_candidates (t d bd : Nat) (hd : 0 < d)
    (h1 : bd ≤ adist ((12 * max 84 (min (t * d / 12) 166) + d / 2) / d) t)
    (h2 : bd ≤ adist ((12 * max 84 (min (t * d / 12 + 1) 166) + d / 2) / d) t)
    (n : Nat) (hn1 : 84 ≤ n) (hn2 : n ≤ 166) :
    bd ≤ adist ((12 * n + d / 2) / d) t := by
  have hdiv : 12 * (t * d / 12) ≤ t * d := Nat.mul_div_le _ _
  have hdiv2 : t * d < 12 * (t * d / 12 + 1) := by
    have := Nat.lt_mul_div_succ (t * d) (by decide : 0 < 12)
    omega
  by_cases hc : n ≤ t * d / 12
  · -- below the target: the delta decreases with n
    have hc1 : n ≤ max 84 (min (t * d / 12) 166) := by omega
    have hc2 : max 84 (min (t * d / 12) 166) ≤ t * d / 12 := by omega
    have m1 := round_mono d (12 * n) (12 * max 84 (min (t * d / 12) 166)) (by omega)
    have m2 := round_le d (12 * max 84 (min (t * d / 12) 166)) t hd (by omega)
    unfold adist at h1 ⊢
    omega
  · -- above the target: the delta increases with n
    have hc1 : max 84 (min (t * d / 12 + 1) 166) ≤ n := by omega
    have hc2 : t * d / 12 + 1 ≤ max 84 (min (t * d / 12 + 1) 166) := by omega
    have m1 := round_mono d (12 * max 84 (min (t * d / 12 + 1) 166)) (12 * n) (by omega)
    have m2 := le_round d (12 * max 84 (min (t * d / 12 + 1) 166)) t hd (by omega)
    unfold adist at h2 ⊢
    omega

theorem pl_to_div_pos (pl : Nat) (h : pl < 15) :
    0 < pl_to_div.getD pl 0 ∧ pl_to_div.getD pl 0 ≤ 32 := by
  interval_cases pl <;> decide

theorem pl_to_div_get (pl : Nat) (h : pl < 15) :
    pl_to_div.get? pl = some (pl_to_div.getD pl 0) := by
  interval_cases pl <;> rfl

theorem pl_check_spec (t bd pl : Nat) (hpl : pl < 15) (h : pl_check t bd pl = true)
    (n : Nat) (hn1 : 84 ≤ n) (hn2 : n ≤ 166) : bd ≤ delta_of 12 t 1 n pl := by
  unfold pl_check at h
  simp only [force_eq, Bool.and_eq_true, Nat.ble_eq, clamp_n_eq] at h
  have hd := (pl_to_div_pos pl hpl).1
  have := delta_two_candidates t (pl_to_div.getD pl 0) bd hd h.1 h.2 n hn1 hn2
  unfold delta_of lwv_of
  rw [Nat.div_one]
  exact this

set_option maxRecDepth 1000000 in
/-- The best-fit search with the shipped parameters passes `solver_check` for
every target up to `max_freq`. -/
theorem solver_table : all_below solver_check 1249 = true := by decide!

/-- What `solver_table` says about the best-fit search on a target in
`[83, 1248]`. -/
theorem solver_spec (t : Nat) (h83 : 83 ≤ t) (ht : t < 1249) :
    ∃ b : Best, search_best (pll_search 12 gpc_pll_params t true) = some b ∧
      b.best_delta = delta_of 12 t b.best_M b.best_N b.best_PL ∧
      b.best_delta < U32 - 1 ∧ b.best_M = 1 ∧ 84 ≤ b.best_N ∧ b.best_N ≤ 166 ∧
      b.best_PL < 15 ∧ pll_freq_of 12 b.best_M b.best_N b.best_PL ≤ t + 6 ∧
      (204 ≤ t → ∀ pl, pl < 15 → ∀ n, 84 ≤ n → n ≤ 166 →
        b.best_delta ≤ delta_of 12 t 1 n pl) := by
  have h := all_below_true _ _ solver_table t ht
  unfold solver_check at h
  rw [pll_search_strict_eq] at h
  cases hs : search_best (pll_search 12 gpc_pll_params t true) with
  | none =>
    rw [hs] at h
    simp only [decide_eq_true_eq] at h
    omega
  | some b =>
    rw [hs] at h
    simp only [force_eq, best_props, Bool.and_eq_true, Bool.or_eq_true, decide_eq_true_eq] at h
    obtain ⟨_, ⟨⟨⟨⟨⟨⟨⟨h1, h2⟩, h3⟩, h4⟩, h5⟩, h6⟩, h7⟩, h8⟩⟩ := h
    refine ⟨b, rfl, h1, h2, h3, h4, h5, h6, h7, ?_⟩
    intro h204 pl hpl n hn1 hn2
    rcases h8 with h8 | h8
    · omega
    · exact pl_check_spec t b.best_delta pl hpl (all_below_true _ _ h8 pl hpl) n hn1 hn2

theorem u32_of_lt (x : Nat) (h : x < U32) : u32 x = x := Nat.mod_eq_of_lt h

theorem clk_config_pll_of_best (p : pll) (pp : pll_parms) (t : Nat) (bf : Bool) (b : Best)
    (h : search_best (pll_search p.clk_in pp (u32 t) bf) = some b) :
    clk_config_pll p pp t bf = found_match p b := by
  unfold clk_config_pll
  cases hs : pll_search p.clk_in pp (u32 t) bf with
  | next b1 => rw [hs] at h; simp only [search_best, Option.some.injEq] at h; rw [h]
  | found b1 => rw [hs] at h; simp only [search_best, Option.some.injEq] at h; rw [h]
  | fault f => rw [hs] at h; simp only [search_best] at h; exact absurd h (by simp)

theorem found_match_ok (p : pll) (b : Best) (hin : p.clk_in = 12) (hd : b.best_delta < U32 - 1)
    (hM : b.best_M = 1) (hN : b.best_N ≤ 166) (hPL : b.best_PL < 15) :
    found_match p b =
      Except.ok ({ p with M := b.best_M, N := b.best_N, PL := b.best_PL,
                          freq := pll_freq_of 12 b.best_M b.best_N b.best_PL },
                 pll_freq_of 12 b.best_M b.best_N b.best_PL) := by
  have hpos := pl_to_div_pos b.best_PL hPL
  have e1 : u32 (b.best_M * pl_to_div.getD b.best_PL 0) = b.best_M * pl_to_div.getD b.best_PL 0 := by
    apply u32_of_lt; rw [hM]; unfold U32; omega
  have e2 : u32 (p.clk_in * b.best_N) = 12 * b.best_N := by
    rw [hin]; apply u32_of_lt; unfold U32; omega
  have e3 : b.best_M * pl_to_div.getD b.best_PL 0 ≠ 0 := by rw [hM]; omega
  unfold found_match
  rw [if_neg (by omega), pl_to_div_get _ hPL]
  simp only [e1, e2, e3, if_false, pll_freq_of]

/-- The best-fit solver on a target in `[83, 1248]`, shipped parameters, 12 MHz
input clock: it succeeds, and its result is built from a best candidate with
the properties of `solver_spec`. -/
theorem clk_config_pll_shipped (p : pll) (t : Nat) (hin : p.clk_in = 12) (h83 : 83 ≤ t)
    (ht : t < 1249) :
    ∃ b : Best, clk_config_pll p gpc_pll_params t true =
        Except.ok ({ p with M := b.best_M, N := b.best_N, PL := b.best_PL,
                            freq := pll_freq_of 12 b.best_M b.best_N b.best_PL },
                   pll_freq_of 12 b.best_M b.best_N b.best_PL) ∧
      b.best_delta = delta_of 12 t b.best_M b.best_N b.best_PL ∧
      b.best_M = 1 ∧ 84 ≤ b.best_N ∧ b.best_N ≤ 166 ∧
      b.best_PL < 15 ∧ pll_freq_of 12 b.best_M b.best_N b.best_PL ≤ t + 6 ∧
      (204 ≤ t → ∀ pl, pl < 15 → ∀ n, 84 ≤ n → n ≤ 166 →
        b.best_delta ≤ delta_of 12 t 1 n pl) := by
  obtain ⟨b, hs, h1, h2, h3, h4, h5, h6, h7, h8⟩ := solver_spec t h83 ht
  have hu : u32 t = t := u32_of_lt t (by unfold U32; omega)
  refine ⟨b, ?_, h1, h3, h4, h5, h6, h7, h8⟩
  rw [clk_config_pll_of_best p gpc_pll_params t true b (by rw [hin, hu]; exact hs)]
  exact found_match_ok p b hin h2 h3 h5 h6

theorem vco_ceiling_shipped (t : Nat) (ht : t < 1249) : vco_ceiling gpc_pll_params t = 2000 := by
  have e : u32 (t + t / 50) = t + t / 50 := u32_of_lt _ (by unfold U32; omega)
  unfold vco_ceiling gpc_pll_params
  simp only [e]
  split_ifs <;> omega

/-! ## The solver on the legal frequency range -/

theorem n_loop_true_found (p : pll_parms) (ref t minv maxv pl d m n2 : Nat) :
    ∀ fuel n b b1, n_loop p ref t minv maxv true pl d m n2 fuel n b = Flow.found b1 →
      accepted_at ref t pl d b1 ∧ b1.best_delta = 0 := by
  intro fuel
  induction fuel with
  | zero => intro n b b1 h; simp [n_loop] at h
  | succ fuel ih =>
    intro n b b1 h
    simp only [n_loop] at h
    split_ifs at h with h1 h2 h3 h4 h5 h6
    all_goals first
      | exact ih _ _ _ h
      | exact Flow.noConfusion h
      | skip
    · simp only [Flow.found.injEq] at h
      subst h
      rcases h6 with h6 | h6
      · exact ⟨⟨rfl, rfl, Or.inl h6⟩, h6⟩
      · exact absurd h6.1 (by simp)

theorem fast_rel_refl (P : Best → Prop) (x : Flow) : fast_rel P x x := Or.inl rfl

theorem n_loop_false (p : pll_parms) (ref t minv maxv pl d m n2 : Nat) :
    ∀ fuel n b,
      fast_rel (accepted_at ref t pl d)
        (n_loop p ref t minv maxv false pl d m n2 fuel n b)
        (n_loop p ref t minv maxv true pl d m n2 fuel n b) := by
  intro fuel
  induction fuel with
  | zero => intro n b; exact fast_rel_refl _ _
  | succ fuel ih =>
    intro n b
    simp only [n_loop, true_and, Bool.true_eq_false, false_and, or_false]
    by_cases h1 : n2 < n
    · simp only [h1, if_true]; exact fast_rel_refl _ _
    by_cases h2 : n < p.min_N
    · simp only [h1, h2, if_true, if_false]; exact ih _ _
    by_cases h3 : p.max_N < n
    · simp only [h1, h2, h3, if_true, if_false]; exact fast_rel_refl _ _
    by_cases h4 : minv ≤ u32 (ref * n) / m ∧ u32 (ref * n) / m ≤ maxv
    · by_cases h5 : abs_diff (u32 (u32 (ref * n) / m + d / 2) / d) t < b.best_delta
      · by_cases h6 : abs_diff (u32 (u32 (ref * n) / m + d / 2) / d) t = 0
        · simp only [h1, h2, h3, h4, h5, eq_true h6, if_true, if_false, and_self, true_or]
          exact fast_rel_refl _ _
        · by_cases h7 : 218 < u32 (ref * n) / m / abs_diff (u32 (u32 (ref * n) / m + d / 2) / d) t
          · simp only [h1, h2, h3, h4, h5, h6, h7, if_true, if_false, and_self, or_true]
            exact Or.inr ⟨_, rfl, rfl, rfl, Or.inr h7⟩
          · simp only [h1, h2, h3, h4, h5, h6, h7, if_true, if_false, and_self, or_self]
            exact ih _ _
      · simp only [h1, h2, h3, h4, h5, if_true, if_false, and_self]; exact ih _ _
    · simp only [h1, h2, h3, h4, if_false]; exact ih _ _

theorem m_loop_true_found (p : pll_parms) (ref t minv maxv pl d tv : Nat) :
    ∀ fuel m b b1, m_loop p ref t minv maxv true pl d tv fuel m b = Flow.found b1 →
      accepted_at ref t pl d b1 ∧ b1.best_delta = 0 := by
  intro fuel
  induction fuel with
  | zero => intro m b b1 h; simp [m_loop] at h
  | succ fuel ih =>
    intro m b b1 h
    simp only [m_loop] at h
    split_ifs at h with h1 h2 h3 h4 h5 h6
    all_goals first
      | exact ih _ _ _ h
      | exact Flow.noConfusion h
      | skip
    · cases hn : n_loop p ref t minv maxv true pl d m
          (u32 (u32 (tv * m) + (ref - 1)) / ref) (p.max_N + 4) (u32 (tv * m) / ref) b with
      | next b2 => rw [hn] at h; exact ih _ _ _ h
      | found b2 =>
        rw [hn] at h
        simp only [Flow.found.injEq] at h
        subst h
        exact n_loop_true_found p ref t minv maxv pl d m _ _ _ _ _ hn
      | fault f => rw [hn] at h; exact Flow.noConfusion h

theorem m_loop_false (p : pll_parms) (ref t minv maxv pl d tv : Nat) :
    ∀ fuel m b,
      fast_rel (accepted_at ref t pl d)
        (m_loop p ref t minv maxv false pl d tv fuel m b)
        (m_loop p ref t minv maxv true pl d tv fuel m b) := by
  intro fuel
  induction fuel with
  | zero => intro m b; exact fast_rel_refl _ _
  | succ fuel ih =>
    intro m b
    simp only [m_loop]
    by_cases h1 : p.max_M < m
    · simp only [h1, if_true]; exact fast_rel_refl _ _
    by_cases h2 : m = 0
    · simp only [h1, eq_true h2, if_true, if_false]; exact fast_rel_refl _ _
    by_cases h3 : ref / m < p.min_u
    · simp only [h1, h2, h3, if_true, if_false]; exact fast_rel_refl _ _
    by_cases h4 : p.max_u < ref / m
    · simp only [h1, h2, h3, h4, if_true, if_false]; exact ih _ _
    by_cases h5 : ref = 0
    · simp only [h1, h2, h3, h4, eq_true h5, if_true, if_false]; exact fast_rel_refl _ _
    by_cases h6 : p.max_N < u32 (tv * m) / ref
    · simp only [h1, h2, h3, h4, h5, h6, if_true, if_false]; exact fast_rel_refl _ _
    simp only [h1, h2, h3, h4, h5, h6, if_false]
    rcases n_loop_false p ref t minv maxv pl d m (u32 (u32 (tv * m) + (ref - 1)) / ref)
        (p.max_N + 4) (u32 (tv * m) / ref) b with he | ⟨b1, hf, ha⟩
    · rw [he]
      cases hn : n_loop p ref t minv maxv true pl d m
          (u32 (u32 (tv * m) + (ref - 1)) / ref) (p.max_N + 4) (u32 (tv * m) / ref) b with
      | next b2 => exact ih _ _
      | found b2 => exact fast_rel_refl _ _
      | fault f => exact fast_rel_refl _ _
    · rw [hf]
      exact Or.inr ⟨b1, rfl, ha⟩

theorem pl_loop_true_found (p : pll_parms) (ref t minv maxv : Nat) (low : Int) :
    ∀ fuel pl b b1, pl_loop p ref t minv maxv true low fuel pl b = Flow.found b1 →
      accepted ref t b1 ∧ b1.best_delta = 0 := by
  intro fuel
  induction fuel with
  | zero => intro pl b b1 h; simp [pl_loop] at h
  | succ fuel ih =>
    intro pl b b1 h
    simp only [pl_loop] at h
    split_ifs at h with h1 h2
    cases hd : pl_to_div.get? pl.toNat with
    | none => rw [hd] at h; exact Flow.noConfusion h
    | some d =>
      rw [hd] at h
      simp only at h
      cases hm : m_loop p ref t minv maxv true pl.toNat d (u32 (t * d))
          (p.max_M + 2) p.min_M b with
      | next b2 => rw [hm] at h; exact ih _ _ _ h
      | found b2 =>
        rw [hm] at h
        simp only [Flow.found.injEq] at h
        subst h
        have := m_loop_true_found p ref t minv maxv pl.toNat d _ _ _ _ _ hm
        exact ⟨⟨d, by rw [this.1.1]; exact hd, by rw [this.1.1]; exact this.1⟩, this.2⟩
      | fault f => rw [hm] at h; exact Flow.noConfusion h

theorem pl_loop_false (p : pll_parms) (ref t minv maxv : Nat) (low : Int) :
    ∀ fuel pl b,
      fast_rel (accepted ref t)
        (pl_loop p ref t minv maxv false low fuel pl b)
        (pl_loop p ref t minv maxv true low fuel pl b) := by
  intro fuel
  induction fuel with
  | zero => intro pl b; exact fast_rel_refl _ _
  | succ fuel ih =>
    intro pl b
    simp only [pl_loop]
    by_cases h1 : pl < low
    · simp only [h1, if_true]; exact fast_rel_refl _ _
    by_cases h2 : pl < 0
    · simp only [h1, h2, if_true, if_false]; exact fast_rel_refl _ _
    simp only [h1, h2, if_false]
    cases hd : pl_to_div.get? pl.toNat with
    | none => exact fast_rel_refl _ _
    | some d =>
      simp only
      rcases m_loop_false p ref t minv maxv pl.toNat d (u32 (t * d))
          (p.max_M + 2) p.min_M b with he | ⟨b1, hf, ha⟩
      · rw [he]
        cases hm : m_loop p ref t minv maxv true pl.toNat d (u32 (t * d))
            (p.max_M + 2) p.min_M b with
        | next b2 => exact ih _ _
        | found b2 => exact fast_rel_refl _ _
        | fault f => exact fast_rel_refl _ _
      · rw [hf]
        exact Or.inr ⟨b1, rfl, d, by rw [ha.1]; exact hd, by rw [ha.1]; exact ha⟩

theorem pll_search_true_found (ref : Nat) (pp : pll_parms) (t : Nat) (b : Best)
    (h : pll_search ref pp t true = Flow.found b) : accepted ref t b ∧ b.best_delta = 0 := by
  unfold pll_search at h
  split_ifs at h
  exact pl_loop_true_found pp ref t _ _ _ _ _ _ _ h

theorem pll_search_false (ref : Nat) (pp : pll_parms) (t : Nat) :
    fast_rel (accepted ref t) (pll_search ref pp t false) (pll_search ref pp t true) := by
  unfold pll_search
  split_ifs
  · exact fast_rel_refl _ _
  · exact pl_loop_false pp ref t _ _ _ _ _ _

/-! ## Claims C2 - C4 -/

/-- C2 (as stated, refuted): for the target 1248 MHz the best-fit solver stores
`PL = 0`, which is below `min_PL = 1`: the stored `PL` is an index into
`pl_to_div`, while `min_PL` and `max_PL` bound the divider factor. -/
theorem clk_config_pll_PL_below_min_PL :
    clk_config_pll init_pll gpc_pll_params 1248 true =
        Except.ok ({ init_pll with M := 1, N := 104, PL := 0, freq := 1248 }, 1248) ∧
      ¬ gpc_pll_params.min_PL ≤ 0 := by
  decide!

/-- C2 (amended): for every target in `[min_freq, max_freq]` the best-fit
solver (shipped parameters, 12 MHz input clock) succeeds and stores `M` within
`[min_M, max_M]`, `N` within `[min_N, max_N]` and an index `PL` of the table
`pl_to_div` whose divider factor `pl_to_div[PL]` lies within `[min_PL, max_PL]`. -/
theorem clk_config_pll_within_bounds (p : pll) (target_freq : Nat)
    (hin : p.clk_in = 12)
    (hlo : gpc_pll_params.min_freq ≤ target_freq)
    (hhi : target_freq ≤ gpc_pll_params.max_freq) :
    ∃ q f, clk_config_pll p gpc_pll_params target_freq true = Except.ok (q, f) ∧
      gpc_pll_params.min_M ≤ q.M ∧ q.M ≤ gpc_pll_params.max_M ∧
      gpc_pll_params.min_N ≤ q.N ∧ q.N ≤ gpc_pll_params.max_N ∧
      q.PL < pl_to_div.length ∧
      gpc_pll_params.min_PL ≤ pl_to_div.getD q.PL 0 ∧
      pl_to_div.getD q.PL 0 ≤ gpc_pll_params.max_PL := by
  have hlo2 : 204 ≤ target_freq := hlo
  have hhi2 : target_freq ≤ 1248 := hhi
  obtain ⟨b, hok, _, h3, h4, h5, h6, _, _⟩ :=
    clk_config_pll_shipped p target_freq hin (by omega) (by omega)
  have hd := pl_to_div_pos b.best_PL h6
  refine ⟨_, _, hok, ?_, ?_, ?_, ?_, h6, hd.1, hd.2⟩
  · show 1 ≤ b.best_M
    omega
  · show b.best_M ≤ 255
    omega
  · show 8 ≤ b.best_N
    omega
  · show b.best_N ≤ 255
    omega

/-- Witness for C2 (amended): the theorem at the target 1248 MHz. -/
theorem clk_config_pll_within_bounds_witness :
    init_pll.clk_in = 12 ∧ gpc_pll_params.min_freq ≤ 1248 ∧ 1248 ≤ gpc_pll_params.max_freq ∧
    ∃ q f, clk_config_pll init_pll gpc_pll_params 1248 true = Except.ok (q, f) ∧
      gpc_pll_params.min_M ≤ q.M ∧ q.M ≤ gpc_pll_params.max_M ∧
      gpc_pll_params.min_N ≤ q.N ∧ q.N ≤ gpc_pll_params.max_N ∧
      q.PL < pl_to_div.length ∧
      gpc_pll_params.min_PL ≤ pl_to_div.getD q.PL 0 ∧
      pl_to_div.getD q.PL 0 ≤ gpc_pll_params.max_PL :=
  ⟨rfl, by decide, by decide,
    clk_config_pll_within_bounds init_pll 1248 rfl (by decide) (by decide)⟩

/-- C3 (as stated, refuted): for the target 208 MHz the search meets the
candidate `(1, 104, 5)` with delta 0 (the best-fit run ends there), but the run
without best fit returns `(1, 138, 6)`, whose delta is 1: it is scanned
earlier and `vco_f / delta = 1656 > 218`. -/
theorem clk_config_pll_fast_path_not_exact :
    pll_search 12 gpc_pll_params 208 true = Flow.found ⟨0, 1, 104, 5⟩ ∧
      delta_of 12 208 1 104 5 = 0 ∧
      clk_config_pll init_pll gpc_pll_params 208 false =
        Except.ok ({ init_pll with M := 1, N := 138, PL := 6, freq := 207 }, 207) ∧
      delta_of 12 208 1 138 6 = 1 := by
  decide!

/-- C3 (amended): for every input for which the search meets a candidate with
delta 0 (the best-fit run jumps to `found_match`, which it does only at such a
candidate), the run with `best_fit = false` also ends by a jump to
`found_match`, and `clk_config_pll` stores the candidate `b1` of that jump: a
triple with a divider index of the table, for which `best_delta` is the delta
the search computed, and with delta 0 or `vco_f / delta > 218`. -/
theorem clk_config_pll_fast_path (p : pll) (pll_params : pll_parms) (target_freq : Nat)
    (b : Best)
    (hexact : pll_search p.clk_in pll_params (u32 target_freq) true = Flow.found b) :
    b.best_delta = 0 ∧
    ∃ b1 d, pll_search p.clk_in pll_params (u32 target_freq) false = Flow.found b1 ∧
      clk_config_pll p pll_params target_freq false = found_match p b1 ∧
      pl_to_div.get? b1.best_PL = some d ∧
      b1.best_delta =
        abs_diff (u32 (u32 (p.clk_in * b1.best_N) / b1.best_M + d / 2) / d) (u32 target_freq) ∧
      (b1.best_delta = 0 ∨ 218 < u32 (p.clk_in * b1.best_N) / b1.best_M / b1.best_delta) := by
  have ht := pll_search_true_found _ _ _ _ hexact
  refine ⟨ht.2, ?_⟩
  rcases pll_search_false p.clk_in pll_params (u32 target_freq) with he | ⟨b1, hf, d, hd, ha⟩
  · rw [hexact] at he
    obtain ⟨d, hd, ha⟩ := ht.1
    refine ⟨b, d, he, ?_, hd, ha.2.1, ha.2.2⟩
    unfold clk_config_pll
    rw [he]
  · refine ⟨b1, d, hf, ?_, hd, ha.2.1, ha.2.2⟩
    unfold clk_config_pll
    rw [hf]

/-- Witness for C3 (amended): the theorem at the target 208 MHz. -/
theorem clk_config_pll_fast_path_witness :
    pll_search init_pll.clk_in gpc_pll_params (u32 208) true = Flow.found ⟨0, 1, 104, 5⟩ ∧
    ((⟨0, 1, 104, 5⟩ : Best).best_delta = 0 ∧
    ∃ b1 d, pll_search init_pll.clk_in gpc_pll_params (u32 208) false = Flow.found b1 ∧
      clk_config_pll init_pll gpc_pll_params 208 false = found_match init_pll b1 ∧
      pl_to_div.get? b1.best_PL = some d ∧
      b1.best_delta =
        abs_diff (u32 (u32 (init_pll.clk_in * b1.best_N) / b1.best_M + d / 2) / d) (u32 208) ∧
      (b1.best_delta = 0 ∨ 218 < u32 (init_pll.clk_in * b1.best_N) / b1.best_M / b1.best_delta)) :=
  ⟨by decide!, clk_config_pll_fast_path init_pll gpc_pll_params 208 ⟨0, 1, 104, 5⟩ (by decide!)⟩

/-- C4 (as stated, refuted): for the target 720 MHz the best-fit solver stores
`M = 1, N = 120, PL = 1`, not `M = 1, N = 60, PL = 0`: the scan starts at the
largest divider index of the window and stops at the first exact candidate. -/
theorem clk_config_pll_720_not_default :
    clk_config_pll init_pll gpc_pll_params 720 true ≠
      Except.ok ({ init_pll with M := 1, N := 60, PL := 0, freq := 720 }, 720) := by
  decide!

/-- C4 (amended): with reference clock 12, the divider table
`[1,2,3,4,5,6,8,10,12,16,12,16,20,24,32]` and the shipped bounds,
`clk_config_pll` for the target 720 with `best_fit = true` yields
`M = 1, N = 120, PL = 1` and the achieved frequency `12 * 120 / (1 * 2) = 720`. -/
theorem clk_config_pll_720 (p : pll) (hin : p.clk_in = 12) :
    pl_to_div = [1, 2, 3, 4, 5, 6, 8, 10, 12, 16, 12, 16, 20, 24, 32] ∧
    clk_config_pll p gpc_pll_params 720 true =
      Except.ok ({ p with M := 1, N := 120, PL := 1, freq := 720 }, 720) ∧
    pll_freq_of p.clk_in 1 120 1 = 720 := by
  have hs : search_best (pll_search 12 gpc_pll_params 720 true) = some ⟨0, 1, 120, 1⟩ := by
    decide!
  refine ⟨rfl, ?_, by rw [hin]; decide⟩
  rw [clk_config_pll_of_best p gpc_pll_params 720 true ⟨0, 1, 120, 1⟩ (by rw [hin]; exact hs)]
  rw [found_match_ok p ⟨0, 1, 120, 1⟩ hin (by decide) rfl (by decide) (by decide)]
  rfl

/-- Witness for C4 (amended): the theorem at the state left by initialization. -/
theorem clk_config_pll_720_witness :
    init_pll.clk_in = 12 ∧
    (pl_to_div = [1, 2, 3, 4, 5, 6, 8, 10, 12, 16, 12, 16, 20, 24, 32] ∧
    clk_config_pll init_pll gpc_pll_params 720 true =
      Except.ok ({ init_pll with M := 1, N := 120, PL := 1, freq := 720 }, 720) ∧
    pll_freq_of init_pll.clk_in 1 120 1 = 720) :=
  ⟨rfl, clk_config_pll_720 init_pll rfl⟩

/-! ## Frame lemmas for the register accesses -/

@[simp] theorem gk20a_readl_clk {σ : Type} (io : RegIO σ) (g : gk20a σ) (r : Nat) :
    (gk20a_readl io g r).2.clk = g.clk := rfl

@[simp] theorem gk20a_readl_power {σ : Type} (io : RegIO σ) (g : gk20a σ) (r : Nat) :
    (gk20a_readl io g r).2.power_on = g.power_on := rfl

@[simp] theorem gk20a_readl_trace {σ : Type} (io : RegIO σ) (g : gk20a σ) (r : Nat) :
    (gk20a_readl io g r).2.trace = g.trace ++ [Ev.readl r (gk20a_readl io g r).1] := rfl

@[simp] theorem gk20a_writel_clk {σ : Type} (io : RegIO σ) (g : gk20a σ) (r v : Nat) :
    (gk20a_writel io g r v).clk = g.clk := rfl

@[simp] theorem gk20a_writel_power {σ : Type} (io : RegIO σ) (g : gk20a σ) (r v : Nat) :
    (gk20a_writel io g r v).power_on = g.power_on := rfl

@[simp] theorem gk20a_writel_trace {σ : Type} (io : RegIO σ) (g : gk20a σ) (r v : Nat) :
    (gk20a_writel io g r v).trace = g.trace ++ [Ev.writel r v] := rfl

@[simp] theorem udelay_clk {σ : Type} (io : RegIO σ) (g : gk20a σ) (n : Nat) :
    (udelay io g n).clk = g.clk := rfl

@[simp] theorem udelay_power {σ : Type} (io : RegIO σ) (g : gk20a σ) (n : Nat) :
    (udelay io g n).power_on = g.power_on := rfl

@[simp] theorem udelay_trace {σ : Type} (io : RegIO σ) (g : gk20a σ) (n : Nat) :
    (udelay io g n).trace = g.trace ++ [Ev.udelay n] := rfl

theorem coeff_writes_append (h : hw_trim) (a b : List Ev) :
    coeff_writes h (a ++ b) = coeff_writes h a ++ coeff_writes h b := by
  induction a with
  | nil => rfl
  | cons e es ih =>
    cases e with
    | readl r v => simpa [coeff_writes] using ih
    | udelay n => simpa [coeff_writes] using ih
    | writel r v =>
      by_cases hr : r = h.trim_sys_gpcpll_coeff_r
      · simp [coeff_writes, hr, ih]
      · simp [coeff_writes, hr, ih]

theorem wait_pll_lock_frame {σ : Type} (h : hw_trim) (io : RegIO σ) :
    ∀ k (g : gk20a σ), (wait_pll_lock h io k g).2.clk = g.clk ∧
      (wait_pll_lock h io k g).2.power_on = g.power_on ∧
      coeff_writes h (wait_pll_lock h io k g).2.trace = coeff_writes h g.trace := by
  intro k
  induction k with
  | zero => intro g; exact ⟨rfl, rfl, rfl⟩
  | succ k ih =>
    intro g
    simp only [wait_pll_lock]
    split_ifs
    · simp [coeff_writes_append, coeff_writes]
    · obtain ⟨h1, h2, h3⟩ := ih (udelay io (gk20a_readl io g h.trim_sys_gpcpll_cfg_r).2 100)
      rw [h1, h2, h3]
      simp [coeff_writes_append, coeff_writes]

theorem program_steps_frame {σ : Type} (h : hw_trim) (io : RegIO σ) (g : gk20a σ) :
    (program_steps h io g).clk = g.clk ∧ (program_steps h io g).power_on = g.power_on := by
  unfold program_steps
  simp only
  split_ifs <;> simp

theorem program_steps_coeff {σ : Type} (h : hw_trim) (io : RegIO σ) (g : gk20a σ)
    (hd : coeff_reg_apart h) :
    coeff_writes h (program_steps h io g).trace =
      coeff_writes h g.trace ++ [coeff_of h g.clk.gpc_pll] := by
  obtain ⟨h1, h2⟩ := hd
  unfold program_steps
  simp only
  split_ifs <;> simp [coeff_writes_append, coeff_writes, h1, h2]

/-- What `clk_program_gpc_pll` leaves behind: the power state and, but for the
flag `enabled` set on success, the clock state are unchanged; one value, the
coefficients of the state, is written to the coefficient register. -/
theorem clk_program_gpc_pll_frame {σ : Type} (h : hw_trim) (io : RegIO σ) (g : gk20a σ) :
    (clk_program_gpc_pll h io g).2.power_on = g.power_on ∧
    ((clk_program_gpc_pll h io g).1 = Status.ret 0 ∧
        (clk_program_gpc_pll h io g).2.clk =
          { g.clk with gpc_pll := { g.clk.gpc_pll with enabled := true } } ∨
      (clk_program_gpc_pll h io g).1 = Status.abort Fault.bug_lock_timeout ∧
        (clk_program_gpc_pll h io g).2.clk = g.clk) ∧
    (coeff_reg_apart h →
      coeff_writes h (clk_program_gpc_pll h io g).2.trace =
        coeff_writes h g.trace ++ [coeff_of h g.clk.gpc_pll]) := by
  have hw := wait_pll_lock_frame h io (u32 (g.clk.pll_delay / 100 + 1)) (program_steps h io g)
  have hp := program_steps_frame h io g
  unfold clk_program_gpc_pll
  simp only
  split_ifs with hl
  · refine ⟨?_, Or.inl ⟨rfl, ?_⟩, ?_⟩
    · simp [hw.2.1, hp.2]
    · simp [hw.1, hp.1]
    · intro hd
      simp [coeff_writes_append, coeff_writes, hw.2.2, program_steps_coeff h io g hd, hd.1]
  · refine ⟨?_, Or.inr ⟨rfl, ?_⟩, ?_⟩
    · simp [hw.2.1, hp.2]
    · simp [hw.1, hp.1]
    · intro hd
      simp [hw.2.2, program_steps_coeff h io g hd]

/-! ## Frame lemmas for the solver and the controller -/

theorem found_match_frame (p : pll) (b : Best) (q : pll) (f : Nat)
    (h : found_match p b = Except.ok (q, f)) :
    q.enabled = p.enabled ∧ q.clk_in = p.clk_in ∧ q.id = p.id ∧ f = q.freq ∧
      q.M = b.best_M ∧ q.N = b.best_N ∧ q.PL = b.best_PL := by
  unfold found_match at h
  split_ifs at h
  cases hd : pl_to_div.get? b.best_PL with
  | none => rw [hd] at h; exact Except.noConfusion h
  | some d =>
    rw [hd] at h
    simp only at h
    split_ifs at h
    simp only [Except.ok.injEq, Prod.mk.injEq] at h
    obtain ⟨h1, h2⟩ := h
    subst h1
    exact ⟨rfl, rfl, rfl, h2.symm, rfl, rfl, rfl⟩

theorem clk_config_pll_frame (p : pll) (pp : pll_parms) (t : Nat) (bf : Bool) (q : pll) (f : Nat)
    (h : clk_config_pll p pp t bf = Except.ok (q, f)) :
    q.enabled = p.enabled ∧ q.clk_in = p.clk_in ∧ q.id = p.id ∧ f = q.freq := by
  unfold clk_config_pll at h
  cases hs : pll_search p.clk_in pp (u32 t) bf with
  | next b =>
    rw [hs] at h
    have := found_match_frame p b q f h
    exact ⟨this.1, this.2.1, this.2.2.1, this.2.2.2.1⟩
  | found b =>
    rw [hs] at h
    have := found_match_frame p b q f h
    exact ⟨this.1, this.2.1, this.2.2.1, this.2.2.2.1⟩
  | fault e => rw [hs] at h; exact Except.noConfusion h

/-- With the shipped parameters and a 12 MHz input clock the best-fit solver
faults on every target below 83 MHz. -/
theorem clk_config_pll_low_target (p : pll) (t : Nat) (hin : p.clk_in = 12) (ht : t < 83) :
    ∃ e, clk_config_pll p gpc_pll_params t true = Except.error e := by
  have h := all_below_true _ _ solver_table t (by omega)
  unfold solver_check at h
  rw [pll_search_strict_eq] at h
  have hu : u32 t = t := u32_of_lt t (by unfold U32; omega)
  unfold clk_config_pll
  rw [hin, hu]
  cases hs : pll_search 12 gpc_pll_params t true with
  | fault e => exact ⟨e, rfl⟩
  | next b =>
    rw [hs] at h
    simp only [search_best, Bool.and_eq_true, decide_eq_true_eq] at h
    omega
  | found b =>
    rw [hs] at h
    simp only [search_best, Bool.and_eq_true, decide_eq_true_eq] at h
    omega

/-- What `set_pll_target` leaves alone: hardware, trace, power state, caps,
lock wait budget, input clock and the flag `enabled`. -/
theorem set_pll_target_frame {σ : Type} (g : gk20a σ) (freq old_freq : Nat) :
    (set_pll_target g freq old_freq).2.trace = g.trace ∧
    (set_pll_target g freq old_freq).2.regs = g.regs ∧
    (set_pll_target g freq old_freq).2.power_on = g.power_on ∧
    (set_pll_target g freq old_freq).2.clk.cap_freq = g.clk.cap_freq ∧
    (set_pll_target g freq old_freq).2.clk.cap_freq_thermal = g.clk.cap_freq_thermal ∧
    (set_pll_target g freq old_freq).2.clk.pll_delay = g.clk.pll_delay ∧
    (set_pll_target g freq old_freq).2.clk.gpc_pll.clk_in = g.clk.gpc_pll.clk_in ∧
    (set_pll_target g freq old_freq).2.clk.gpc_pll.enabled = g.clk.gpc_pll.enabled := by
  unfold set_pll_target
  split_ifs with hne
  · cases hc : clk_config_pll g.clk.gpc_pll gpc_pll_params (clamp_target g.clk freq) true with
    | error e => exact ⟨rfl, rfl, rfl, rfl, rfl, rfl, rfl, rfl⟩
    | ok r =>
      have := clk_config_pll_frame _ _ _ _ r.1 r.2 hc
      exact ⟨rfl, rfl, rfl, rfl, rfl, rfl, this.2.1, this.1⟩
  · exact ⟨rfl, rfl, rfl, rfl, rfl, rfl, rfl, rfl⟩

/-- What `set_pll_freq` leaves alone: the power state, the caps and the
frequency and coefficients of the PLL state. -/
theorem set_pll_freq_frame {σ : Type} (h : hw_trim) (io : RegIO σ) (g : gk20a σ)
    (freq old_freq : Nat) :
    (set_pll_freq h io g freq old_freq).2.power_on = g.power_on ∧
    (set_pll_freq h io g freq old_freq).2.clk.cap_freq = g.clk.cap_freq ∧
    (set_pll_freq h io g freq old_freq).2.clk.cap_freq_thermal = g.clk.cap_freq_thermal ∧
    (set_pll_freq h io g freq old_freq).2.clk.gpc_pll.freq = g.clk.gpc_pll.freq ∧
    (set_pll_freq h io g freq old_freq).2.clk.gpc_pll.M = g.clk.gpc_pll.M ∧
    (set_pll_freq h io g freq old_freq).2.clk.gpc_pll.N = g.clk.gpc_pll.N ∧
    (set_pll_freq h io g freq old_freq).2.clk.gpc_pll.PL = g.clk.gpc_pll.PL := by
  unfold set_pll_freq
  split_ifs
  · exact ⟨rfl, rfl, rfl, rfl, rfl, rfl, rfl⟩
  · obtain ⟨h1, h2, _⟩ := clk_program_gpc_pll_frame h io g
    rcases h2 with ⟨_, h2⟩ | ⟨_, h2⟩ <;> rw [h2] <;> exact ⟨h1, rfl, rfl, rfl, rfl, rfl, rfl⟩
  · exact ⟨rfl, rfl, rfl, rfl, rfl, rfl, rfl⟩

/-- The call `set_pll_freq` returns 0, or it ends in the `BUG()` of the lock
wait, which takes a powered device. -/
theorem set_pll_freq_status {σ : Type} (h : hw_trim) (io : RegIO σ) (g : gk20a σ)
    (freq old_freq : Nat) :
    (set_pll_freq h io g freq old_freq).1 = Status.ret 0 ∨
      (set_pll_freq h io g freq old_freq).1 = Status.abort Fault.bug_lock_timeout ∧
        g.power_on = true := by
  unfold set_pll_freq
  split_ifs with h1 h2
  · exact Or.inl rfl
  · obtain ⟨_, hprog, _⟩ := clk_program_gpc_pll_frame h io g
    rcases hprog with ⟨hs, _⟩ | ⟨hs, _⟩
    · exact Or.inl hs
    · exact Or.inr ⟨hs, h2⟩
  · exact Or.inl rfl

/-- The state after `gk20a_clk_export_set_rate` in terms of `set_pll_target`:
the caps and the power state are those before the call, the frequency is the
one `set_pll_target` left. -/
theorem gk20a_clk_export_set_rate_frame {σ : Type} (h : hw_trim) (io : RegIO σ) (g : gk20a σ)
    (r : Nat) :
    (gk20a_clk_export_set_rate h io g (some r)).g.power_on = g.power_on ∧
    (gk20a_clk_export_set_rate h io g (some r)).g.clk.cap_freq = g.clk.cap_freq ∧
    (gk20a_clk_export_set_rate h io g (some r)).g.clk.cap_freq_thermal = g.clk.cap_freq_thermal ∧
    (gk20a_clk_export_set_rate h io g (some r)).g.clk.gpc_pll.freq =
      (set_pll_target g (u32 (rate_gpu_to_gpc2clk r)) g.clk.gpc_pll.freq).2.clk.gpc_pll.freq := by
  have ht := set_pll_target_frame g (u32 (rate_gpu_to_gpc2clk r)) g.clk.gpc_pll.freq
  have hf := set_pll_freq_frame h io
    (set_pll_target g (u32 (rate_gpu_to_gpc2clk r)) g.clk.gpc_pll.freq).2
    (set_pll_target g (u32 (rate_gpu_to_gpc2clk r)) g.clk.gpc_pll.freq).2.clk.gpc_pll.freq
    g.clk.gpc_pll.freq
  unfold gk20a_clk_export_set_rate
  simp only
  generalize set_pll_target g (u32 (rate_gpu_to_gpc2clk r)) g.clk.gpc_pll.freq = T at ht hf ⊢
  obtain ⟨_, _, t3, t4, t5, _, _, _⟩ := ht
  generalize set_pll_freq h io T.2 T.2.clk.gpc_pll.freq g.clk.gpc_pll.freq = A at hf ⊢
  obtain ⟨f1, f2, f3, f4, _, _, _⟩ := hf
  split_ifs
  · exact ⟨f1.trans t3, f2.trans t4, f3.trans t5, f4⟩
  · exact ⟨f1.trans t3, f2.trans t4, f3.trans t5, f4⟩
  · exact ⟨t3, t4, t5, rfl⟩
  · exact ⟨t3, t4, t5, rfl⟩

theorem clamp_target_eq (clk : clk_gk20a) (freq : Nat) :
    clamp_target clk freq =
      min (min (max gpc_pll_params.min_freq (min freq gpc_pll_params.max_freq)) clk.cap_freq)
        clk.cap_freq_thermal := by
  unfold clamp_target gpc_pll_params
  simp only
  split_ifs <;> omega

theorem clamp_cap_eq (rate : Nat) :
    clamp_cap rate = max 102 (min rate 624) ∧
      u32 (rate_gpu_to_gpc2clk (clamp_cap rate)) = 2 * clamp_cap rate := by
  have e1 : rate_gpc2clk_to_gpu gpc_pll_params.max_freq = 624 := rfl
  have e2 : rate_gpc2clk_to_gpu gpc_pll_params.min_freq = 102 := rfl
  have h1 : clamp_cap rate = max 102 (min rate 624) := by
    unfold clamp_cap
    rw [e1, e2]
    split_ifs <;> omega
  refine ⟨h1, ?_⟩
  unfold rate_gpu_to_gpc2clk
  rw [u32_of_lt _ (by unfold U32; omega)]
  omega

theorem clk_config_pll_1248 (p : pll) (hin : p.clk_in = 12) :
    clk_config_pll p gpc_pll_params 1248 true =
      Except.ok ({ p with M := 1, N := 104, PL := 0, freq := 1248 }, 1248) := by
  have hs : search_best (pll_search 12 gpc_pll_params 1248 true) = some ⟨0, 1, 104, 0⟩ := by
    decide!
  rw [clk_config_pll_of_best p gpc_pll_params 1248 true ⟨0, 1, 104, 0⟩ (by rw [hin]; exact hs)]
  rw [found_match_ok p ⟨0, 1, 104, 0⟩ hin (by decide) rfl (by decide) (by decide)]
  rfl

/-! ## Claims C5 - C8: targets and caps -/

/-- The function `set_pll_target` called with the current frequency as
`old_freq`: it returns at once when the clamped target is the current
frequency, and runs the solver for the clamped target otherwise. -/
theorem set_pll_target_eq {σ : Type} (g : gk20a σ) (freq : Nat) :
    set_pll_target g freq g.clk.gpc_pll.freq =
      (if clamp_target g.clk freq = g.clk.gpc_pll.freq then (Status.ret 0, g)
       else
        match clk_config_pll g.clk.gpc_pll gpc_pll_params (clamp_target g.clk freq) true with
        | Except.ok r => (Status.ret 0, { g with clk := { g.clk with gpc_pll := r.1 } })
        | Except.error f => (Status.abort f, g)) := by
  unfold set_pll_target
  by_cases hc : clamp_target g.clk freq = g.clk.gpc_pll.freq
  · rw [if_neg (not_not.mpr hc), if_pos hc]
  · rw [if_pos hc, if_neg hc]

/-- C6: `set_pll_target`, called with the current frequency of the PLL state as
`old_freq` (as `gk20a_clk_export_set_rate` does), hands the best-fit solver
exactly `min (clamp (requested, min_freq, max_freq), cap_freq, cap_freq_thermal)`
and stores the solver's result; when that value equals the current frequency
the state is returned as it is; in both cases hardware and trace are
untouched and `enabled` is unchanged. -/
theorem set_pll_target_clamps {σ : Type} (g : gk20a σ) (freq : Nat) :
    clamp_target g.clk freq =
        min (min (max gpc_pll_params.min_freq (min freq gpc_pll_params.max_freq))
          g.clk.cap_freq) g.clk.cap_freq_thermal ∧
    set_pll_target g freq g.clk.gpc_pll.freq =
      (if clamp_target g.clk freq = g.clk.gpc_pll.freq then (Status.ret 0, g)
       else
        match clk_config_pll g.clk.gpc_pll gpc_pll_params (clamp_target g.clk freq) true with
        | Except.ok r => (Status.ret 0, { g with clk := { g.clk with gpc_pll := r.1 } })
        | Except.error f => (Status.abort f, g)) ∧
    (set_pll_target g freq g.clk.gpc_pll.freq).2.trace = g.trace ∧
    (set_pll_target g freq g.clk.gpc_pll.freq).2.regs = g.regs ∧
    (set_pll_target g freq g.clk.gpc_pll.freq).2.clk.gpc_pll.enabled =
      g.clk.gpc_pll.enabled := by
  have hf := set_pll_target_frame g freq g.clk.gpc_pll.freq
  refine ⟨clamp_target_eq g.clk freq, ?_, hf.1, hf.2.1, hf.2.2.2.2.2.2.2⟩
  unfold set_pll_target
  by_cases hc : clamp_target g.clk freq = g.clk.gpc_pll.freq
  · rw [if_neg (not_not.mpr hc), if_pos hc]
  · rw [if_pos hc, if_neg hc]

/-- With both caps at `max_freq`, a request above `max_freq` makes
`set_pll_target` succeed and leave the frequency `max_freq` in the PLL state. -/
theorem set_pll_target_above_max {σ : Type} (g : gk20a σ) (freq : Nat)
    (hin : g.clk.gpc_pll.clk_in = 12)
    (hc : g.clk.cap_freq = gpc_pll_params.max_freq)
    (ht : g.clk.cap_freq_thermal = gpc_pll_params.max_freq)
    (hreq : gpc_pll_params.max_freq < freq) :
    (set_pll_target g freq g.clk.gpc_pll.freq).1 = Status.ret 0 ∧
    (set_pll_target g freq g.clk.gpc_pll.freq).2.clk.gpc_pll.freq = gpc_pll_params.max_freq := by
  have hT : clamp_target g.clk freq = 1248 := by
    rw [clamp_target_eq, hc, ht]
    have : (1248 : Nat) < freq := hreq
    simp only [gpc_pll_params]
    omega
  unfold set_pll_target
  rw [hT]
  split_ifs with hne
  · rw [clk_config_pll_1248 g.clk.gpc_pll hin]
    exact ⟨rfl, rfl⟩
  · exact ⟨rfl, (not_not.mp hne).symm⟩

/-- C7: with both caps at their initial value `max_freq`, every request above
`max_freq` (1248) makes `set_pll_target` succeed and leave the frequency
`max_freq` in the PLL state; `gk20a_clk_export_set_rate` then leaves that
frequency too and, whenever it returns, returns 0 and reports `max_freq` in
external units, not the request.  It fails to return only through the `BUG()`
of a lock wait that ran out, which needs the PLL enabled and the device
powered. -/
theorem gk20a_clk_export_set_rate_above_max {σ : Type} (h : hw_trim) (io : RegIO σ)
    (g : gk20a σ) (rate : Nat)
    (hin : g.clk.gpc_pll.clk_in = 12)
    (hc : g.clk.cap_freq = gpc_pll_params.max_freq)
    (ht : g.clk.cap_freq_thermal = gpc_pll_params.max_freq)
    (hreq : gpc_pll_params.max_freq < u32 (rate_gpu_to_gpc2clk rate)) :
    (set_pll_target g (u32 (rate_gpu_to_gpc2clk rate)) g.clk.gpc_pll.freq).1 = Status.ret 0 ∧
    (set_pll_target g (u32 (rate_gpu_to_gpc2clk rate)) g.clk.gpc_pll.freq).2.clk.gpc_pll.freq =
      gpc_pll_params.max_freq ∧
    (gk20a_clk_export_set_rate h io g (some rate)).g.clk.gpc_pll.freq =
      gpc_pll_params.max_freq ∧
    ((gk20a_clk_export_set_rate h io g (some rate)).status = Status.ret 0 ∧
        (gk20a_clk_export_set_rate h io g (some rate)).rate =
          some (rate_gpc2clk_to_gpu gpc_pll_params.max_freq) ∨
      (gk20a_clk_export_set_rate h io g (some rate)).status =
          Status.abort Fault.bug_lock_timeout ∧
        g.clk.gpc_pll.enabled = true ∧ g.power_on = true) := by
  have hT := set_pll_target_above_max g (u32 (rate_gpu_to_gpc2clk rate)) hin hc ht hreq
  have hF := set_pll_target_frame g (u32 (rate_gpu_to_gpc2clk rate)) g.clk.gpc_pll.freq
  have hR := gk20a_clk_export_set_rate_frame h io g rate
  refine ⟨hT.1, hT.2, hR.2.2.2.trans hT.2, ?_⟩
  unfold gk20a_clk_export_set_rate
  simp only
  generalize set_pll_target g (u32 (rate_gpu_to_gpc2clk rate)) g.clk.gpc_pll.freq = T
    at hT hF ⊢
  obtain ⟨hT1, hT2⟩ := hT
  obtain ⟨_, _, hp, _, _, _, _, he⟩ := hF
  have hS := set_pll_freq_status h io T.2 T.2.clk.gpc_pll.freq g.clk.gpc_pll.freq
  have hQ := set_pll_freq_frame h io T.2 T.2.clk.gpc_pll.freq g.clk.gpc_pll.freq
  generalize set_pll_freq h io T.2 T.2.clk.gpc_pll.freq g.clk.gpc_pll.freq = A at hS hQ ⊢
  rw [if_pos hT1]
  by_cases hen : T.2.clk.gpc_pll.enabled = true
  · rw [if_pos hen]
    rcases hS with hs | ⟨hs, hpow⟩
    · rw [if_pos hs]
      exact Or.inl ⟨hs, by simp only [hQ.2.2.2.1, hT2]⟩
    · rw [if_neg (by rw [hs]; simp)]
      exact Or.inr ⟨hs, he ▸ hen, hp ▸ hpow⟩
  · rw [if_neg hen, if_pos hT1]
    exact Or.inl ⟨hT1, by simp only [hT2]⟩

set_option maxRecDepth 100000 in
/-- Witness for C7: the theorem at the simulated state (PLL enabled at 720 MHz,
device powered) and the request 1000 MHz in external units; there the call
returns and reports 624 MHz. -/
theorem gk20a_clk_export_set_rate_above_max_witness :
    sim_state.clk.gpc_pll.clk_in = 12 ∧
    sim_state.clk.cap_freq = gpc_pll_params.max_freq ∧
    sim_state.clk.cap_freq_thermal = gpc_pll_params.max_freq ∧
    gpc_pll_params.max_freq < u32 (rate_gpu_to_gpc2clk 1000) ∧
    (gk20a_clk_export_set_rate sim_trim sim_io sim_state (some 1000)).rate = some 624 ∧
    ((set_pll_target sim_state (u32 (rate_gpu_to_gpc2clk 1000))
        sim_state.clk.gpc_pll.freq).1 = Status.ret 0 ∧
    (set_pll_target sim_state (u32 (rate_gpu_to_gpc2clk 1000))
        sim_state.clk.gpc_pll.freq).2.clk.gpc_pll.freq = gpc_pll_params.max_freq ∧
    (gk20a_clk_export_set_rate sim_trim sim_io sim_state (some 1000)).g.clk.gpc_pll.freq =
      gpc_pll_params.max_freq ∧
    ((gk20a_clk_export_set_rate sim_trim sim_io sim_state (some 1000)).status = Status.ret 0 ∧
        (gk20a_clk_export_set_rate sim_trim sim_io sim_state (some 1000)).rate =
          some (rate_gpc2clk_to_gpu gpc_pll_params.max_freq) ∨
      (gk20a_clk_export_set_rate sim_trim sim_io sim_state (some 1000)).status =
          Status.abort Fault.bug_lock_timeout ∧
        sim_state.clk.gpc_pll.enabled = true ∧ sim_state.power_on = true)) :=
  ⟨rfl, rfl, rfl, by decide, by decide!,
    gk20a_clk_export_set_rate_above_max sim_trim sim_io sim_state 1000 rfl rfl rfl (by decide)⟩

/-- C8: `gk20a_clk_set_cap` stores the cap clamped to `[min_freq, max_freq]`, in
internal units, into `cap_freq` and leaves `cap_freq_thermal` as it is;
`gk20a_clk_set_cap_thermal` stores it into `cap_freq_thermal` and leaves
`cap_freq` as it is.  When the current rate is at most the clamped cap the call
returns 0 and changes nothing else; otherwise it is the request
`gk20a_clk_set_rate` for the clamped cap, made in the state with the new cap. -/
theorem gk20a_clk_set_cap_spec {σ : Type} (h : hw_trim) (io : RegIO σ) (g : gk20a σ)
    (rate : Nat) :
    rate_gpu_to_gpc2clk (clamp_cap rate) =
        max gpc_pll_params.min_freq (min (rate_gpu_to_gpc2clk rate) gpc_pll_params.max_freq) ∧
    gk20a_clk_set_cap h io g rate =
      (if gk20a_clk_get_rate g ≤ clamp_cap rate then
        (Status.ret 0,
          { g with clk := { g.clk with cap_freq := rate_gpu_to_gpc2clk (clamp_cap rate) } })
       else
        gk20a_clk_set_rate h io
          { g with clk := { g.clk with cap_freq := rate_gpu_to_gpc2clk (clamp_cap rate) } }
          (clamp_cap rate)) ∧
    (gk20a_clk_set_cap h io g rate).2.clk.cap_freq = rate_gpu_to_gpc2clk (clamp_cap rate) ∧
    (gk20a_clk_set_cap h io g rate).2.clk.cap_freq_thermal = g.clk.cap_freq_thermal ∧
    gk20a_clk_set_cap_thermal h io g rate =
      (if gk20a_clk_get_rate g ≤ clamp_cap rate then
        (Status.ret 0,
          { g with clk := { g.clk with
              cap_freq_thermal := rate_gpu_to_gpc2clk (clamp_cap rate) } })
       else
        gk20a_clk_set_rate h io
          { g with clk := { g.clk with
              cap_freq_thermal := rate_gpu_to_gpc2clk (clamp_cap rate) } }
          (clamp_cap rate)) ∧
    (gk20a_clk_set_cap_thermal h io g rate).2.clk.cap_freq_thermal =
      rate_gpu_to_gpc2clk (clamp_cap rate) ∧
    (gk20a_clk_set_cap_thermal h io g rate).2.clk.cap_freq = g.clk.cap_freq := by
  obtain ⟨hc1, hc2⟩ := clamp_cap_eq rate
  have hu : u32 (rate_gpu_to_gpc2clk (clamp_cap rate)) = rate_gpu_to_gpc2clk (clamp_cap rate) := by
    rw [hc2]; unfold rate_gpu_to_gpc2clk; omega
  have e1 : gk20a_clk_set_cap h io g rate =
      (if gk20a_clk_get_rate g ≤ clamp_cap rate then
        (Status.ret 0,
          { g with clk := { g.clk with cap_freq := rate_gpu_to_gpc2clk (clamp_cap rate) } })
       else
        gk20a_clk_set_rate h io
          { g with clk := { g.clk with cap_freq := rate_gpu_to_gpc2clk (clamp_cap rate) } }
          (clamp_cap rate)) := by
    unfold gk20a_clk_set_cap
    simp only [hu]
    rfl
  have e2 : gk20a_clk_set_cap_thermal h io g rate =
      (if gk20a_clk_get_rate g ≤ clamp_cap rate then
        (Status.ret 0,
          { g with clk := { g.clk with
              cap_freq_thermal := rate_gpu_to_gpc2clk (clamp_cap rate) } })
       else
        gk20a_clk_set_rate h io
          { g with clk := { g.clk with
              cap_freq_thermal := rate_gpu_to_gpc2clk (clamp_cap rate) } }
          (clamp_cap rate)) := by
    unfold gk20a_clk_set_cap_thermal
    simp only [hu]
    rfl
  refine ⟨?_, e1, ?_, ?_, e2, ?_, ?_⟩
  · rw [hc1]; unfold rate_gpu_to_gpc2clk gpc_pll_params; simp only; omega
  · rw [e1]
    split_ifs
    · rfl
    · exact (gk20a_clk_export_set_rate_frame h io _ (clamp_cap rate)).2.1
  · rw [e1]
    split_ifs
    · rfl
    · exact (gk20a_clk_export_set_rate_frame h io _ (clamp_cap rate)).2.2.1
  · rw [e2]
    split_ifs
    · rfl
    · exact (gk20a_clk_export_set_rate_frame h io _ (clamp_cap rate)).2.2.1
  · rw [e2]
    split_ifs
    · rfl
    · exact (gk20a_clk_export_set_rate_frame h io _ (clamp_cap rate)).2.1

/-- A call of `gk20a_clk_export_set_rate` that returns 0 had `set_pll_target`
return 0. -/
theorem gk20a_clk_export_set_rate_target_ok {σ : Type} (h : hw_trim) (io : RegIO σ)
    (g : gk20a σ) (r : Nat)
    (hok : (gk20a_clk_export_set_rate h io g (some r)).status = Status.ret 0) :
    (set_pll_target g (u32 (rate_gpu_to_gpc2clk r)) g.clk.gpc_pll.freq).1 = Status.ret 0 := by
  unfold gk20a_clk_export_set_rate at hok
  simp only at hok
  generalize set_pll_target g (u32 (rate_gpu_to_gpc2clk r)) g.clk.gpc_pll.freq = T at hok ⊢
  by_cases hT : T.1 = Status.ret 0
  · exact hT
  · rw [if_neg hT] at hok
    exact absurd hok hT

/-- A rate request for `c`, at most 624 MHz and below the current rate, made
while one of the caps is at most `2 * c`: if it returns 0, the rate afterwards
is at most `c + 3`. -/
theorem gk20a_clk_set_rate_capped {σ : Type} (h : hw_trim) (io : RegIO σ) (g : gk20a σ)
    (c : Nat) (hin : g.clk.gpc_pll.clk_in = 12) (hc : c ≤ 624)
    (hcap : g.clk.cap_freq ≤ 2 * c ∨ g.clk.cap_freq_thermal ≤ 2 * c)
    (hlt : c < gk20a_clk_get_rate g)
    (hok : (gk20a_clk_set_rate h io g c).1 = Status.ret 0) :
    gk20a_clk_get_rate (gk20a_clk_set_rate h io g c).2 ≤ c + 3 := by
  have hF := (gk20a_clk_export_set_rate_frame h io g c).2.2.2
  have hT := gk20a_clk_export_set_rate_target_ok h io g c hok
  have hu : u32 (rate_gpu_to_gpc2clk c) = 2 * c := by
    unfold rate_gpu_to_gpc2clk
    rw [u32_of_lt _ (by unfold U32; omega)]
    omega
  have hlt2 : 2 * c + 2 ≤ g.clk.gpc_pll.freq := by
    unfold gk20a_clk_get_rate rate_gpc2clk_to_gpu at hlt
    omega
  have hT2 : clamp_target g.clk (2 * c) ≤ 2 * c := by
    rw [clamp_target_eq]
    simp only [gpc_pll_params]
    omega
  show rate_gpc2clk_to_gpu (gk20a_clk_export_set_rate h io g (some c)).g.clk.gpc_pll.freq ≤ c + 3
  rw [hF]
  rw [hu] at hT ⊢
  unfold set_pll_target at hT ⊢
  rw [if_pos (by omega)] at hT ⊢
  by_cases h83 : 83 ≤ clamp_target g.clk (2 * c)
  · obtain ⟨b, hb, _, _, _, _, _, h7, _⟩ :=
      clk_config_pll_shipped g.clk.gpc_pll (clamp_target g.clk (2 * c)) hin h83 (by omega)
    rw [hb]
    show rate_gpc2clk_to_gpu (pll_freq_of 12 b.best_M b.best_N b.best_PL) ≤ c + 3
    unfold rate_gpc2clk_to_gpu
    omega
  · obtain ⟨e, he⟩ :=
      clk_config_pll_low_target g.clk.gpc_pll (clamp_target g.clk (2 * c)) hin (by omega)
    rw [he] at hT
    exact absurd hT (by simp)

/-- A rate request leaves both caps as they are. -/
theorem gk20a_clk_set_rate_caps {σ : Type} (h : hw_trim) (io : RegIO σ) (g : gk20a σ)
    (rate : Nat) :
    (gk20a_clk_set_rate h io g rate).2.clk.cap_freq = g.clk.cap_freq ∧
    (gk20a_clk_set_rate h io g rate).2.clk.cap_freq_thermal = g.clk.cap_freq_thermal := by
  obtain ⟨_, h2, h3, _⟩ := gk20a_clk_export_set_rate_frame h io g rate
  unfold gk20a_clk_set_rate
  exact ⟨h2, h3⟩

/-- A rate request for `c`, at most 624 MHz and below the current rate, made
while one of the caps is at most `2 * c`: the target `set_pll_target` hands to
the solver is at most `2 * c`, and if the request returns 0 the solver ran for
that target and the frequency of the state is the frequency it returned. -/
theorem gk20a_clk_set_rate_solver {σ : Type} (h : hw_trim) (io : RegIO σ) (g : gk20a σ)
    (c : Nat) (hc : c ≤ 624)
    (hcap : g.clk.cap_freq ≤ 2 * c ∨ g.clk.cap_freq_thermal ≤ 2 * c) :
    clamp_target g.clk (u32 (rate_gpu_to_gpc2clk c)) ≤ 2 * c ∧
    (c < gk20a_clk_get_rate g → (gk20a_clk_set_rate h io g c).1 = Status.ret 0 →
      ∃ q, clk_config_pll g.clk.gpc_pll gpc_pll_params
          (clamp_target g.clk (u32 (rate_gpu_to_gpc2clk c))) true =
        Except.ok (q, (gk20a_clk_set_rate h io g c).2.clk.gpc_pll.freq)) := by
  have hu : u32 (rate_gpu_to_gpc2clk c) = 2 * c := by
    unfold rate_gpu_to_gpc2clk
    rw [u32_of_lt _ (by unfold U32; omega)]
    omega
  have hT2 : clamp_target g.clk (2 * c) ≤ 2 * c := by
    rw [clamp_target_eq]
    simp only [gpc_pll_params]
    omega
  rw [hu]
  refine ⟨hT2, ?_⟩
  intro hlt hok
  have hF := (gk20a_clk_export_set_rate_frame h io g c).2.2.2
  have hT := gk20a_clk_export_set_rate_target_ok h io g c hok
  have hlt2 : 2 * c + 2 ≤ g.clk.gpc_pll.freq := by
    unfold gk20a_clk_get_rate rate_gpc2clk_to_gpu at hlt
    omega
  show ∃ q, clk_config_pll g.clk.gpc_pll gpc_pll_params (clamp_target g.clk (2 * c)) true =
    Except.ok (q, (gk20a_clk_export_set_rate h io g (some c)).g.clk.gpc_pll.freq)
  rw [hF]
  rw [hu] at hT ⊢
  unfold set_pll_target at hT ⊢
  rw [if_pos (by omega)] at hT ⊢
  cases hcfg : clk_config_pll g.clk.gpc_pll gpc_pll_params (clamp_target g.clk (2 * c)) true with
  | error e =>
    rw [hcfg] at hT
    exact absurd hT (by simp)
  | ok r =>
    have hfr := (clk_config_pll_frame _ _ _ _ r.1 r.2 hcfg).2.2.2
    refine ⟨r.1, ?_⟩
    show Except.ok r = Except.ok (r.1, r.1.freq)
    rw [← hfr]

/-- A cap setter after its store: in the state `g1` that holds the clamped cap
`c` in one of its cap fields, the setter returns 0 at once if the rate is at
most `c` and requests the rate `c` otherwise.  If the solver does not exceed
its target, the rate afterwards is at most `c`. -/
theorem cap_setter_rate {σ : Type} (h : hw_trim) (io : RegIO σ) (g1 : gk20a σ)
    (c : Nat) (hc : c ≤ 624)
    (hcap : g1.clk.cap_freq ≤ 2 * c ∨ g1.clk.cap_freq_thermal ≤ 2 * c)
    (hok : (if gk20a_clk_get_rate g1 ≤ c then (Status.ret 0, g1)
      else gk20a_clk_set_rate h io g1 c).1 = Status.ret 0) :
    (gk20a_clk_get_rate g1 ≤ c →
      (if gk20a_clk_get_rate g1 ≤ c then (Status.ret 0, g1)
        else gk20a_clk_set_rate h io g1 c).2 = g1) ∧
    (c < gk20a_clk_get_rate g1 →
      ∃ q, clk_config_pll g1.clk.gpc_pll gpc_pll_params
          (clamp_target g1.clk (u32 (rate_gpu_to_gpc2clk c))) true =
        Except.ok (q, (if gk20a_clk_get_rate g1 ≤ c then (Status.ret 0, g1)
          else gk20a_clk_set_rate h io g1 c).2.clk.gpc_pll.freq)) ∧
    ((∀ q f, clk_config_pll g1.clk.gpc_pll gpc_pll_params
          (clamp_target g1.clk (u32 (rate_gpu_to_gpc2clk c))) true = Except.ok (q, f) →
        f ≤ clamp_target g1.clk (u32 (rate_gpu_to_gpc2clk c))) →
      gk20a_clk_get_rate (if gk20a_clk_get_rate g1 ≤ c then (Status.ret 0, g1)
        else gk20a_clk_set_rate h io g1 c).2 ≤ c) := by
  obtain ⟨hT, hS⟩ := gk20a_clk_set_rate_solver h io g1 c hc hcap
  by_cases hle : gk20a_clk_get_rate g1 ≤ c
  · rw [if_pos hle]
    exact ⟨fun _ => rfl, fun hlt => absurd hle (by omega), fun _ => hle⟩
  · rw [if_neg hle] at hok ⊢
    obtain ⟨q, hq⟩ := hS (by omega) hok
    refine ⟨fun hle1 => absurd hle1 hle, fun _ => ⟨q, hq⟩, ?_⟩
    intro hfit
    have := hfit q _ hq
    unfold gk20a_clk_get_rate rate_gpc2clk_to_gpu
    omega

set_option maxRecDepth 100000 in
/-- C5 (as stated, refuted): in the simulated state (PLL enabled at 720 MHz,
rate 360, device powered) `gk20a_clk_set_cap` with the cap 50 succeeds and
leaves the rate 102, the cap being clamped to `min_freq`.  With the cap 335 it
succeeds and leaves the rate 336: the solver picks the nearest frequency 672
for the target 670.  `gk20a_clk_set_cap_thermal` does the same. -/
theorem gk20a_clk_set_cap_rate_above_cap :
    sim_state.power_on = true ∧ sim_state.clk.gpc_pll.enabled = true ∧
    gk20a_clk_get_rate sim_state = 360 ∧
    (gk20a_clk_set_cap sim_trim sim_io sim_state 50).1 = Status.ret 0 ∧
    gk20a_clk_get_rate (gk20a_clk_set_cap sim_trim sim_io sim_state 50).2 = 102 ∧
    (gk20a_clk_set_cap sim_trim sim_io sim_state 335).1 = Status.ret 0 ∧
    gk20a_clk_get_rate (gk20a_clk_set_cap sim_trim sim_io sim_state 335).2 = 336 ∧
    (gk20a_clk_set_cap_thermal sim_trim sim_io sim_state 50).1 = Status.ret 0 ∧
    gk20a_clk_get_rate (gk20a_clk_set_cap_thermal sim_trim sim_io sim_state 50).2 = 102 ∧
    (gk20a_clk_set_cap_thermal sim_trim sim_io sim_state 335).1 = Status.ret 0 ∧
    gk20a_clk_get_rate (gk20a_clk_set_cap_thermal sim_trim sim_io sim_state 335).2 = 336 := by
  decide!

/-- C5 (amended): for every cap `c` (external units), after a call of
`gk20a_clk_set_cap` or `gk20a_clk_set_cap_thermal` that returns 0 (the
resulting `set_pll_target` and programming succeeded): the cap stored is `c`
clamped to `[min_freq, max_freq]`, 102 to 624 in external units; the target
handed to the solver, `cap_target`, is at most that cap; when the rate was at
most the clamped cap the PLL state is left as it is, and when it was above,
the frequency of the state is the one the best-fit solver returned for that
target; and the rate reported by `gk20a_clk_get_rate` is at most the clamped
cap whenever the frequency the solver returns for that target does not exceed
the target. -/
theorem gk20a_clk_set_cap_rate_bound {σ : Type} (h : hw_trim) (io : RegIO σ) (g : gk20a σ)
    (rate : Nat) :
    clamp_cap rate = max 102 (min rate 624) ∧
    cap_target g.clk false rate ≤ 2 * clamp_cap rate ∧
    cap_target g.clk true rate ≤ 2 * clamp_cap rate ∧
    ((gk20a_clk_set_cap h io g rate).1 = Status.ret 0 →
      (gk20a_clk_set_cap h io g rate).2.clk.cap_freq = 2 * clamp_cap rate ∧
      (gk20a_clk_get_rate g ≤ clamp_cap rate →
        (gk20a_clk_set_cap h io g rate).2.clk.gpc_pll = g.clk.gpc_pll) ∧
      (clamp_cap rate < gk20a_clk_get_rate g →
        ∃ q, clk_config_pll g.clk.gpc_pll gpc_pll_params (cap_target g.clk false rate) true =
          Except.ok (q, (gk20a_clk_set_cap h io g rate).2.clk.gpc_pll.freq)) ∧
      ((∀ q f, clk_config_pll g.clk.gpc_pll gpc_pll_params (cap_target g.clk false rate) true =
            Except.ok (q, f) → f ≤ cap_target g.clk false rate) →
        gk20a_clk_get_rate (gk20a_clk_set_cap h io g rate).2 ≤ clamp_cap rate)) ∧
    ((gk20a_clk_set_cap_thermal h io g rate).1 = Status.ret 0 →
      (gk20a_clk_set_cap_thermal h io g rate).2.clk.cap_freq_thermal = 2 * clamp_cap rate ∧
      (gk20a_clk_get_rate g ≤ clamp_cap rate →
        (gk20a_clk_set_cap_thermal h io g rate).2.clk.gpc_pll = g.clk.gpc_pll) ∧
      (clamp_cap rate < gk20a_clk_get_rate g →
        ∃ q, clk_config_pll g.clk.gpc_pll gpc_pll_params (cap_target g.clk true rate) true =
          Except.ok (q, (gk20a_clk_set_cap_thermal h io g rate).2.clk.gpc_pll.freq)) ∧
      ((∀ q f, clk_config_pll g.clk.gpc_pll gpc_pll_params (cap_target g.clk true rate) true =
            Except.ok (q, f) → f ≤ cap_target g.clk true rate) →
        gk20a_clk_get_rate (gk20a_clk_set_cap_thermal h io g rate).2 ≤ clamp_cap rate)) := by
  obtain ⟨hc1, hc2⟩ := clamp_cap_eq rate
  have hc : clamp_cap rate ≤ 624 := by omega
  have k1 := gk20a_clk_set_rate_solver h io
    { g with clk := { g.clk with cap_freq := u32 (rate_gpu_to_gpc2clk (clamp_cap rate)) } }
    (clamp_cap rate) hc (Or.inl (by simp only [hc2]; omega))
  have k2 := gk20a_clk_set_rate_solver h io
    { g with clk := { g.clk with
        cap_freq_thermal := u32 (rate_gpu_to_gpc2clk (clamp_cap rate)) } }
    (clamp_cap rate) hc (Or.inr (by simp only [hc2]; omega))
  have t1 : cap_target g.clk false rate =
      clamp_target { g.clk with cap_freq := u32 (rate_gpu_to_gpc2clk (clamp_cap rate)) }
        (u32 (rate_gpu_to_gpc2clk (clamp_cap rate))) := by
    simp [cap_target]
  have t2 : cap_target g.clk true rate =
      clamp_target { g.clk with cap_freq_thermal := u32 (rate_gpu_to_gpc2clk (clamp_cap rate)) }
        (u32 (rate_gpu_to_gpc2clk (clamp_cap rate))) := by
    simp [cap_target]
  refine ⟨hc1, by rw [t1]; exact k1.1, by rw [t2]; exact k2.1, ?_, ?_⟩
  · intro hok
    have key := cap_setter_rate h io
      { g with clk := { g.clk with cap_freq := u32 (rate_gpu_to_gpc2clk (clamp_cap rate)) } }
      (clamp_cap rate) hc (Or.inl (by simp only [hc2]; omega)) hok
    have hcaps := (gk20a_clk_set_rate_caps h io
      { g with clk := { g.clk with cap_freq := u32 (rate_gpu_to_gpc2clk (clamp_cap rate)) } }
      (clamp_cap rate)).1
    rw [t1]
    unfold gk20a_clk_set_cap
    simp only
    generalize gk20a_clk_set_rate h io
      { g with clk := { g.clk with cap_freq := u32 (rate_gpu_to_gpc2clk (clamp_cap rate)) } }
      (clamp_cap rate) = S at key hcaps ⊢
    obtain ⟨a1, a2, a3⟩ := key
    refine ⟨?_, ?_, a2, a3⟩
    · split_ifs
      · exact hc2
      · rw [hcaps]; exact hc2
    · intro hle
      have := a1 hle
      rw [this]
  · intro hok
    have key := cap_setter_rate h io
      { g with clk := { g.clk with
          cap_freq_thermal := u32 (rate_gpu_to_gpc2clk (clamp_cap rate)) } }
      (clamp_cap rate) hc (Or.inr (by simp only [hc2]; omega)) hok
    have hcaps := (gk20a_clk_set_rate_caps h io
      { g with clk := { g.clk with
          cap_freq_thermal := u32 (rate_gpu_to_gpc2clk (clamp_cap rate)) } }
      (clamp_cap rate)).2
    rw [t2]
    unfold gk20a_clk_set_cap_thermal
    simp only
    generalize gk20a_clk_set_rate h io
      { g with clk := { g.clk with
          cap_freq_thermal := u32 (rate_gpu_to_gpc2clk (clamp_cap rate)) } }
      (clamp_cap rate) = S at key hcaps ⊢
    obtain ⟨a1, a2, a3⟩ := key
    refine ⟨?_, ?_, a2, a3⟩
    · split_ifs
      · exact hc2
      · rw [hcaps]; exact hc2
    · intro hle
      have := a1 hle
      rw [this]

set_option maxRecDepth 100000 in
/-- Witness for C5 (amended): the theorem at the simulated state (rate 360) and
the cap 336: the call returns 0, the solver is asked for 672 MHz and returns
672 MHz, and the rate afterwards is 336. -/
theorem gk20a_clk_set_cap_rate_bound_witness :
    (gk20a_clk_set_cap sim_trim sim_io sim_state 336).1 = Status.ret 0 ∧
    cap_target sim_state.clk false 336 = 672 ∧
    clk_config_pll sim_state.clk.gpc_pll gpc_pll_params 672 true =
      Except.ok ({ sim_state.clk.gpc_pll with M := 1, N := 112, PL := 1, freq := 672 }, 672) ∧
    gk20a_clk_get_rate (gk20a_clk_set_cap sim_trim sim_io sim_state 336).2 = 336 ∧
    gk20a_clk_get_rate (gk20a_clk_set_cap sim_trim sim_io sim_state 336).2 ≤ clamp_cap 336 :=
  ⟨by decide!, by decide!, by decide!, by decide!,
    ((gk20a_clk_set_cap_rate_bound sim_trim sim_io sim_state 336).2.2.2.1 (by decide!)).2.2.2
      (by
        intro q f hq
        have e : cap_target sim_state.clk false 336 = 672 := by decide!
        have e2 : clk_config_pll sim_state.clk.gpc_pll gpc_pll_params 672 true =
            Except.ok ({ sim_state.clk.gpc_pll with M := 1, N := 112, PL := 1, freq := 672 },
              672) := by decide!
        rw [e, e2] at hq
        rw [e]
        simp only [Except.ok.injEq, Prod.mk.injEq] at hq
        omega)⟩

/-! ## Claims C9 - C10: enabling -/

theorem enable_of_enabled {σ : Type} (h : hw_trim) (io : RegIO σ) (g : gk20a σ)
    (hen : g.clk.gpc_pll.enabled = true) :
    gk20a_clk_export_enable h io g = (Status.ret 0, g) := by
  unfold gk20a_clk_export_enable set_pll_freq
  rw [if_pos ⟨rfl, hen⟩]

theorem enable_of_unpowered {σ : Type} (h : hw_trim) (io : RegIO σ) (g : gk20a σ)
    (hen : g.clk.gpc_pll.enabled = false) (hpow : g.power_on = false) :
    gk20a_clk_export_enable h io g = (Status.ret 0, g) := by
  unfold gk20a_clk_export_enable set_pll_freq
  rw [if_neg (by simp [hen]), if_neg (by simp [hpow])]

theorem enable_of_disabled_powered {σ : Type} (h : hw_trim) (io : RegIO σ) (g : gk20a σ)
    (hen : g.clk.gpc_pll.enabled = false) (hpow : g.power_on = true) :
    gk20a_clk_export_enable h io g = clk_program_gpc_pll h io g := by
  unfold gk20a_clk_export_enable set_pll_freq
  rw [if_neg (by simp [hen]), if_pos hpow]

/-- A call of `set_pll_freq` that returned leaves a state in which the next
`gk20a_clk_export_enable` returns 0 without touching anything. -/
theorem set_pll_freq_then_enable {σ : Type} (h : hw_trim) (io : RegIO σ) (g : gk20a σ)
    (freq old_freq : Nat) (c : Int)
    (hret : (set_pll_freq h io g freq old_freq).1 = Status.ret c) :
    gk20a_clk_export_enable h io (set_pll_freq h io g freq old_freq).2 =
      (Status.ret 0, (set_pll_freq h io g freq old_freq).2) := by
  unfold set_pll_freq at hret ⊢
  by_cases hsame : freq = old_freq ∧ g.clk.gpc_pll.enabled = true
  · rw [if_pos hsame]
    exact enable_of_enabled h io g hsame.2
  · rw [if_neg hsame] at hret ⊢
    cases hpow : g.power_on with
    | false =>
      rw [if_neg (by simp [hpow])]
      cases hen : g.clk.gpc_pll.enabled with
      | true => exact enable_of_enabled h io g hen
      | false => exact enable_of_unpowered h io g hen hpow
    | true =>
      rw [if_pos hpow] at hret
      rw [if_pos rfl]
      obtain ⟨_, hprog, _⟩ := clk_program_gpc_pll_frame h io g
      rcases hprog with ⟨_, hclk⟩ | ⟨hs, _⟩
      · exact enable_of_enabled h io _ (by rw [hclk])
      · rw [hs] at hret
        exact Status.noConfusion hret

/-- C9: a call of `set_pll_freq` (from `gk20a_clk_export_set_rate` or from
`gk20a_clk_export_enable`) either touches nothing or runs
`clk_program_gpc_pll` once; after a call that returned, a following
`gk20a_clk_export_enable`, with no `set_pll_target` in between, returns 0 with
no register access and the state unchanged; so two calls of
`gk20a_clk_export_enable` in a row do exactly what the first call does.  (A
call that ends in the `BUG()` of the lock wait does not return.) -/
theorem set_pll_freq_idempotent {σ : Type} (h : hw_trim) (io : RegIO σ) (g : gk20a σ)
    (freq old_freq : Nat) :
    (set_pll_freq h io g freq old_freq = (Status.ret 0, g) ∨
      set_pll_freq h io g freq old_freq = clk_program_gpc_pll h io g) ∧
    (∀ c, (set_pll_freq h io g freq old_freq).1 = Status.ret c →
      gk20a_clk_export_enable h io (set_pll_freq h io g freq old_freq).2 =
        (Status.ret 0, (set_pll_freq h io g freq old_freq).2)) ∧
    enable_twice h io g = gk20a_clk_export_enable h io g := by
  refine ⟨?_, fun c hc => set_pll_freq_then_enable h io g freq old_freq c hc, ?_⟩
  · unfold set_pll_freq
    split_ifs
    · exact Or.inl rfl
    · exact Or.inr rfl
    · exact Or.inl rfl
  · have hagain : ∀ c, (gk20a_clk_export_enable h io g).1 = Status.ret c →
        gk20a_clk_export_enable h io (gk20a_clk_export_enable h io g).2 =
          (Status.ret 0, (gk20a_clk_export_enable h io g).2) :=
      fun c hc => set_pll_freq_then_enable h io g g.clk.gpc_pll.freq g.clk.gpc_pll.freq c hc
    unfold enable_twice
    cases hs : (gk20a_clk_export_enable h io g).1 with
    | ret c =>
      simp only
      rw [hagain c hs]
      have hc : c = 0 := by
        have := set_pll_freq_status h io g g.clk.gpc_pll.freq g.clk.gpc_pll.freq
        unfold gk20a_clk_export_enable at hs
        rw [hs] at this
        rcases this with h1 | ⟨h1, _⟩
        · simpa using h1
        · exact Status.noConfusion h1
      rw [← hc, ← hs]
    | abort f =>
      simp only
      rw [← hs]

set_option maxRecDepth 100000 in
/-- Witness for C9: the theorem at the simulated state with the PLL not yet
enabled, where the first call programs the PLL with 12 register accesses and
returns. -/
theorem set_pll_freq_idempotent_witness :
    (set_pll_freq sim_trim sim_io
        { sim_state with clk := { sim_state.clk with gpc_pll := init_pll } } 720 720).1 =
      Status.ret 0 ∧
    (set_pll_freq sim_trim sim_io
        { sim_state with clk := { sim_state.clk with gpc_pll := init_pll } } 720 720).2.trace.length =
      12 ∧
    gk20a_clk_export_enable sim_trim sim_io (set_pll_freq sim_trim sim_io
        { sim_state with clk := { sim_state.clk with gpc_pll := init_pll } } 720 720).2 =
      (Status.ret 0, (set_pll_freq sim_trim sim_io
        { sim_state with clk := { sim_state.clk with gpc_pll := init_pll } } 720 720).2) ∧
    enable_twice sim_trim sim_io
        { sim_state with clk := { sim_state.clk with gpc_pll := init_pll } } =
      gk20a_clk_export_enable sim_trim sim_io
        { sim_state with clk := { sim_state.clk with gpc_pll := init_pll } } :=
  ⟨by decide!, by decide!,
    (set_pll_freq_idempotent sim_trim sim_io
      { sim_state with clk := { sim_state.clk with gpc_pll := init_pll } } 720 720).2.1 0
      (by decide!),
    (set_pll_freq_idempotent sim_trim sim_io
      { sim_state with clk := { sim_state.clk with gpc_pll := init_pll } } 720 720).2.2⟩

set_option maxRecDepth 100000 in
/-- C10 (as stated, refuted): in the simulated state with the PLL enabled at
720 MHz and the power off, a rate request for 335 (target 670) returns 0 and
stores the coefficients `M = 1, N = 112, PL = 1`; once power has returned the
next `gk20a_clk_export_enable` returns 0 without any register access, because
the PLL counts as enabled, and the coefficient register still holds the
coefficients of 720 MHz. -/
theorem gk20a_clk_export_enable_skips_pending :
    (gk20a_clk_export_set_rate sim_trim sim_io (set_power sim_state false) (some 335)).status =
      Status.ret 0 ∧
    (gk20a_clk_export_set_rate sim_trim sim_io (set_power sim_state false) (some 335)).g.clk.gpc_pll =
      { init_pll with M := 1, N := 112, PL := 1, freq := 672, enabled := true } ∧
    gk20a_clk_export_enable sim_trim sim_io
        (set_power (gk20a_clk_export_set_rate sim_trim sim_io (set_power sim_state false)
          (some 335)).g true) =
      (Status.ret 0,
        set_power (gk20a_clk_export_set_rate sim_trim sim_io (set_power sim_state false)
          (some 335)).g true) ∧
    (gk20a_clk_export_set_rate sim_trim sim_io (set_power sim_state false) (some 335)).g.trace = [] ∧
    (gk20a_clk_export_set_rate sim_trim sim_io (set_power sim_state false) (some 335)).g.regs.coeff =
      coeff_of sim_trim init_pll ∧
    coeff_of sim_trim init_pll ≠
      coeff_of sim_trim { init_pll with M := 1, N := 112, PL := 1, freq := 672, enabled := true } := by
  decide!

/-- C10 (amended): for every controller state in which the PLL is not enabled
and the device is powered off, a rate request (`set_pll_target` followed by the
skipped `set_pll_freq`) leaves the state `g1` that `set_pll_target` left, with
the coefficients the solver computed for the clamped target: `enabled`,
hardware and trace are unchanged, and `set_pll_freq` and
`gk20a_clk_export_enable` made while the power is off return 0 and touch
nothing.  Once power has returned, the next `gk20a_clk_export_enable` runs
`clk_program_gpc_pll`, and the one value it writes to the coefficient register
is built from the `M`, `N`, `PL` of `g1`. -/
theorem gk20a_clk_export_enable_programs_pending {σ : Type} (h : hw_trim) (io : RegIO σ)
    (g g1 : gk20a σ) (rate : Nat)
    (hd : coeff_reg_apart h)
    (hoff : g.power_on = false) (hen : g.clk.gpc_pll.enabled = false)
    (hres : (gk20a_clk_export_set_rate h io g (some rate)).g = g1) :
    g1 = (set_pll_target g (u32 (rate_gpu_to_gpc2clk rate)) g.clk.gpc_pll.freq).2 ∧
    (∀ q f, clamp_target g.clk (u32 (rate_gpu_to_gpc2clk rate)) ≠ g.clk.gpc_pll.freq →
      clk_config_pll g.clk.gpc_pll gpc_pll_params
        (clamp_target g.clk (u32 (rate_gpu_to_gpc2clk rate))) true = Except.ok (q, f) →
      g1.clk.gpc_pll = q) ∧
    g1.clk.gpc_pll.enabled = g.clk.gpc_pll.enabled ∧
    g1.power_on = false ∧ g1.trace = g.trace ∧ g1.regs = g.regs ∧
    set_pll_freq h io g1 g1.clk.gpc_pll.freq g.clk.gpc_pll.freq = (Status.ret 0, g1) ∧
    gk20a_clk_export_enable h io g1 = (Status.ret 0, g1) ∧
    gk20a_clk_export_enable h io (set_power g1 true) =
      clk_program_gpc_pll h io (set_power g1 true) ∧
    coeff_writes h (gk20a_clk_export_enable h io (set_power g1 true)).2.trace =
      coeff_writes h g.trace ++ [coeff_of h g1.clk.gpc_pll] := by
  have hF := set_pll_target_frame g (u32 (rate_gpu_to_gpc2clk rate)) g.clk.gpc_pll.freq
  have hC := set_pll_target_eq g (u32 (rate_gpu_to_gpc2clk rate))
  have e1 : g1 = (set_pll_target g (u32 (rate_gpu_to_gpc2clk rate)) g.clk.gpc_pll.freq).2 := by
    rw [← hres]
    unfold gk20a_clk_export_set_rate
    simp only
    generalize set_pll_target g (u32 (rate_gpu_to_gpc2clk rate)) g.clk.gpc_pll.freq = T at hF ⊢
    have hTen : ¬ T.2.clk.gpc_pll.enabled = true := by
      rw [hF.2.2.2.2.2.2.2, hen]; simp
    rw [if_neg hTen]
    split_ifs <;> rfl
  obtain ⟨f1, f2, f3, _, _, _, _, f8⟩ := hF
  rw [← e1] at f1 f2 f3 f8
  have hen1 : g1.clk.gpc_pll.enabled = false := by rw [f8, hen]
  have hoff1 : g1.power_on = false := by rw [f3, hoff]
  have hprog := enable_of_disabled_powered h io (set_power g1 true) hen1 rfl
  refine ⟨e1, ?_, f8, hoff1, f1, f2, ?_, enable_of_unpowered h io g1 hen1 hoff1, hprog, ?_⟩
  · intro q f hne hq
    rw [e1, hC, if_neg hne, hq]
  · unfold set_pll_freq
    rw [if_neg (by simp [hen1]), if_neg (by simp [hoff1])]
  · rw [hprog, (clk_program_gpc_pll_frame h io (set_power g1 true)).2.2 hd]
    show coeff_writes h g1.trace ++ [coeff_of h g1.clk.gpc_pll] = _
    rw [f1]

set_option maxRecDepth 100000 in
/-- Witness for C10 (amended): the theorem at the simulated state with the PLL
not enabled and the power off, and the rate request 335. -/
theorem gk20a_clk_export_enable_programs_pending_witness :
    coeff_reg_apart sim_trim ∧
    (gk20a_clk_export_enable sim_trim sim_io (set_power
      { sim_state with
        clk := { sim_state.clk with gpc_pll := { init_pll with M := 1, N := 112, PL := 1, freq := 672 } } }
      true)).1 = Status.ret 0 ∧
    coeff_writes sim_trim (gk20a_clk_export_enable sim_trim sim_io (set_power
      { sim_state with
        clk := { sim_state.clk with gpc_pll := { init_pll with M := 1, N := 112, PL := 1, freq := 672 } } }
      true)).2.trace = [94209] ∧
    ({ sim_state with
        clk := { sim_state.clk with gpc_pll := { init_pll with M := 1, N := 112, PL := 1, freq := 672 } }
        power_on := false } =
      (set_pll_target { sim_state with clk := { sim_state.clk with gpc_pll := init_pll }, power_on := false }
        (u32 (rate_gpu_to_gpc2clk 335)) init_pll.freq).2) :=
  ⟨⟨by decide, by decide⟩, by decide!, by decide!,
    (gk20a_clk_export_enable_programs_pending sim_trim sim_io
      { sim_state with clk := { sim_state.clk with gpc_pll := init_pll }, power_on := false }
      { sim_state with
        clk := { sim_state.clk with gpc_pll := { init_pll with M := 1, N := 112, PL := 1, freq := 672 } }
        power_on := false }
      335 ⟨by decide, by decide⟩ rfl rfl (by decide!)).1⟩

/-! ## Claims C11 - C12: the unpowered device -/

/-- On an unpowered device `set_pll_freq` returns 0 and leaves the state as it
is. -/
theorem set_pll_freq_of_unpowered {σ : Type} (h : hw_trim) (io : RegIO σ) (g : gk20a σ)
    (freq old_freq : Nat) (hoff : g.power_on = false) :
    set_pll_freq h io g freq old_freq = (Status.ret 0, g) := by
  unfold set_pll_freq
  split_ifs with h1 h2
  · rfl
  · rw [hoff] at h2; exact absurd h2 (by simp)
  · rfl

/-- C11: for every controller state with `power_on = false`, `set_pll_freq`
(with any arguments) and `gk20a_clk_export_enable` return 0 and hand back the
state as it is: no register access is logged, the hardware state, `M`, `N`,
`PL`, `freq`, `enabled` and both caps are unchanged, so the pending target
stays recorded. -/
theorem set_pll_freq_unpowered {σ : Type} (h : hw_trim) (io : RegIO σ) (g : gk20a σ)
    (freq old_freq : Nat) (hoff : g.power_on = false) :
    set_pll_freq h io g freq old_freq = (Status.ret 0, g) ∧
    gk20a_clk_export_enable h io g = (Status.ret 0, g) ∧
    (set_pll_freq h io g freq old_freq).2.trace = g.trace ∧
    (set_pll_freq h io g freq old_freq).2.regs = g.regs ∧
    (set_pll_freq h io g freq old_freq).2.clk.gpc_pll = g.clk.gpc_pll ∧
    (set_pll_freq h io g freq old_freq).2.clk.cap_freq = g.clk.cap_freq ∧
    (set_pll_freq h io g freq old_freq).2.clk.cap_freq_thermal = g.clk.cap_freq_thermal := by
  have e : ∀ f o, set_pll_freq h io g f o = (Status.ret 0, g) := by
    intro f o
    unfold set_pll_freq
    split_ifs with h1 h2
    · rfl
    · rw [hoff] at h2; exact absurd h2 (by simp)
    · rfl
  refine ⟨e _ _, e _ _, ?_, ?_, ?_, ?_, ?_⟩ <;> rw [e]

/-- Witness for C11: the theorem at the simulated state with the power off. -/
theorem set_pll_freq_unpowered_witness :
    (set_power sim_state false).power_on = false ∧
    set_pll_freq sim_trim sim_io (set_power sim_state false) 672 720 =
      (Status.ret 0, set_power sim_state false) :=
  ⟨rfl, (set_pll_freq_unpowered sim_trim sim_io (set_power sim_state false) 672 720 rfl).1⟩

/-- C12 (as stated, refuted): on the simulated device with the power off,
`gk20a_clk_export_enable` returns 0, the value of success, with the PLL not
enabled and nothing programmed. -/
theorem gk20a_clk_export_enable_unpowered_returns_zero :
    (set_power { sim_state with clk := { sim_state.clk with gpc_pll := init_pll } } false).power_on =
      false ∧
    gk20a_clk_export_enable sim_trim sim_io
        (set_power { sim_state with clk := { sim_state.clk with gpc_pll := init_pll } } false) =
      (Status.ret 0,
        set_power { sim_state with clk := { sim_state.clk with gpc_pll := init_pll } } false) := by
  decide!

/-- C12 (amended): `gk20a_clk_export_enable` is `set_pll_freq` with the pending
frequency as both arguments.  When the device is powered it returns 0 at once
if the PLL is enabled and runs `clk_program_gpc_pll` otherwise; when the device
is not powered it returns 0, the value of success, and leaves the state as it
is. -/
theorem gk20a_clk_export_enable_contract {σ : Type} (h : hw_trim) (io : RegIO σ)
    (g : gk20a σ) :
    gk20a_clk_export_enable h io g =
      set_pll_freq h io g g.clk.gpc_pll.freq g.clk.gpc_pll.freq ∧
    (g.power_on = true →
      gk20a_clk_export_enable h io g =
        if g.clk.gpc_pll.enabled = true then (Status.ret 0, g)
        else clk_program_gpc_pll h io g) ∧
    (g.power_on = false → gk20a_clk_export_enable h io g = (Status.ret 0, g)) := by
  refine ⟨rfl, ?_, fun hoff => set_pll_freq_of_unpowered h io g _ _ hoff⟩
  intro hp
  cases hen : g.clk.gpc_pll.enabled with
  | true => rw [if_pos rfl]; exact enable_of_enabled h io g hen
  | false => rw [if_neg (by simp)]; exact enable_of_disabled_powered h io g hen hp

/-- Witness for C12 (amended): the theorem at the simulated state, powered and
with the power off. -/
theorem gk20a_clk_export_enable_contract_witness :
    sim_state.power_on = true ∧ (set_power sim_state false).power_on = false ∧
    gk20a_clk_export_enable sim_trim sim_io sim_state =
      (if sim_state.clk.gpc_pll.enabled = true then (Status.ret 0, sim_state)
       else clk_program_gpc_pll sim_trim sim_io sim_state) ∧
    gk20a_clk_export_enable sim_trim sim_io (set_power sim_state false) =
      (Status.ret 0, set_power sim_state false) :=
  ⟨rfl, rfl, (gk20a_clk_export_enable_contract sim_trim sim_io sim_state).2.1 rfl,
    (gk20a_clk_export_enable_contract sim_trim sim_io (set_power sim_state false)).2.2 rfl⟩

/-! ## Claims C17 - C19: the achieved frequency and the divider table -/

/-- The frequency `found_match` stores is the `u32` value of
`ref_clk_f * N / (M * pl_to_div[PL])`. -/
theorem found_match_freq (p : pll) (b : Best) (q : pll) (f : Nat)
    (h : found_match p b = Except.ok (q, f)) :
    ∃ d, pl_to_div.get? b.best_PL = some d ∧ u32 (b.best_M * d) ≠ 0 ∧
      q.freq = u32 (p.clk_in * b.best_N) / u32 (b.best_M * d) := by
  unfold found_match at h
  split_ifs at h
  cases hd : pl_to_div.get? b.best_PL with
  | none => rw [hd] at h; exact Except.noConfusion h
  | some d =>
    rw [hd] at h
    simp only at h
    split_ifs at h with hz
    simp only [Except.ok.injEq, Prod.mk.injEq] at h
    obtain ⟨h1, _⟩ := h
    subst h1
    exact ⟨d, rfl, hz, rfl⟩

/-- C17: whenever `clk_config_pll` succeeds, the triple it stores in
`(M, N, PL)` is the best candidate of the search, and both the stored `freq` and
the value written back through `*target_freq` are
`clk_in * N / (M * pl_to_div[PL])` as the code computes it, in `u32` arithmetic
with truncating division; where neither product wraps around, this is the
natural number `clk_in * N / (M * pl_to_div[PL])`. -/
theorem clk_config_pll_achieved (p : pll) (pll_params : pll_parms) (target_freq : Nat)
    (best_fit : Bool) (q : pll) (f : Nat)
    (hok : clk_config_pll p pll_params target_freq best_fit = Except.ok (q, f)) :
    (∃ b, search_best (pll_search p.clk_in pll_params (u32 target_freq) best_fit) = some b ∧
      q.M = b.best_M ∧ q.N = b.best_N ∧ q.PL = b.best_PL) ∧
    f = q.freq ∧
    ∃ d, pl_to_div.get? q.PL = some d ∧
      q.freq = u32 (p.clk_in * q.N) / u32 (q.M * d) ∧
      (p.clk_in * q.N < U32 → q.M * d < U32 →
        q.freq = pll_freq_of p.clk_in q.M q.N q.PL) := by
  have key : ∀ b, search_best (pll_search p.clk_in pll_params (u32 target_freq) best_fit) = some b →
      found_match p b = Except.ok (q, f) →
      (∃ b, search_best (pll_search p.clk_in pll_params (u32 target_freq) best_fit) = some b ∧
        q.M = b.best_M ∧ q.N = b.best_N ∧ q.PL = b.best_PL) ∧
      f = q.freq ∧
      ∃ d, pl_to_div.get? q.PL = some d ∧
        q.freq = u32 (p.clk_in * q.N) / u32 (q.M * d) ∧
        (p.clk_in * q.N < U32 → q.M * d < U32 →
          q.freq = pll_freq_of p.clk_in q.M q.N q.PL) := by
    intro b hb hf
    obtain ⟨_, _, _, h4, h5, h6, h7⟩ := found_match_frame p b q f hf
    obtain ⟨d, hd, _, hq⟩ := found_match_freq p b q f hf
    refine ⟨⟨b, hb, h5, h6, h7⟩, h4, d, by rw [h7]; exact hd, by rw [h5, h6]; exact hq, ?_⟩
    intro hn hm
    have hgd : pl_to_div.getD q.PL 0 = d := by
      rw [h7, List.getD_eq_getElem?_getD]
      rw [List.get?_eq_getElem?] at hd
      rw [hd]; rfl
    rw [hq, ← h5, ← h6, u32_of_lt _ hn, u32_of_lt _ hm]
    unfold pll_freq_of
    rw [hgd]
  unfold clk_config_pll at hok
  cases hs : pll_search p.clk_in pll_params (u32 target_freq) best_fit with
  | next b => rw [hs] at hok key; exact key b rfl hok
  | found b => rw [hs] at hok key; exact key b rfl hok
  | fault e => rw [hs] at hok; exact Except.noConfusion hok

/-- Witness for C17: the theorem at the best-fit run for 720 MHz. -/
theorem clk_config_pll_achieved_witness :
    clk_config_pll init_pll gpc_pll_params 720 true =
      Except.ok ({ init_pll with M := 1, N := 120, PL := 1, freq := 720 }, 720) ∧
    (720 : Nat) = ({ init_pll with M := 1, N := 120, PL := 1, freq := 720 } : pll).freq :=
  ⟨by decide!,
    (clk_config_pll_achieved init_pll gpc_pll_params 720 true
      { init_pll with M := 1, N := 120, PL := 1, freq := 720 } 720 (by decide!)).2.1⟩

/-- C18 (as stated, refuted): the table is not non-decreasing by index: the
entry at index 9 is 16, the entry at index 10 is 12. -/
theorem pl_to_div_not_monotonic :
    pl_to_div.get? 9 = some 16 ∧ pl_to_div.get? 10 = some 12 ∧ (9 : Nat) ≤ 10 ∧
      ¬ pl_to_div.getD 9 0 ≤ pl_to_div.getD 10 0 := by
  decide

/-- C18 (amended): the table `pl_to_div` has 15 entries, all positive (between
1 and 32); it is non-decreasing by index on the indices 0 to 9 and on the
indices 10 to 14, but not across them. -/
theorem pl_to_div_shape :
    pl_to_div.length = 15 ∧
    (∀ i, i < 15 → 0 < pl_to_div.getD i 0 ∧ pl_to_div.getD i 0 ≤ 32) ∧
    (∀ j, j < 10 → ∀ i, i < j + 1 → pl_to_div.getD i 0 ≤ pl_to_div.getD j 0) ∧
    (∀ j, j < 15 → ∀ i, i < j + 1 → 10 ≤ i → pl_to_div.getD i 0 ≤ pl_to_div.getD j 0) := by
  decide

set_option maxRecDepth 100000 in
/-- C19 (as stated, refuted): for the factor threshold 25, inside `[1, 32]`, the
index loop of `clk_config_pll` scans the indices 0 to 13, finds no factor of at
least 25 and leaves the threshold itself, while the smallest index with such a
factor is 14 (factor 32); the same holds for every threshold from 25 to 32.
The solver computes the threshold 25 for `high_PL` at the target 80 MHz. -/
theorem find_PL_skips_last_index :
    ((1 : Nat) ≤ 25 ∧ (25 : Nat) ≤ 32) ∧
    find_PL 25 14 0 = 25 ∧ smallest_index_ge 25 = some 14 ∧
    some (find_PL 25 14 0) ≠ smallest_index_ge 25 ∧
    (∀ t, t < 33 → 25 ≤ t → find_PL t 14 0 = t ∧ smallest_index_ge t = some 14) ∧
    high_factor gpc_pll_params 80 = 25 ∧ high_PL gpc_pll_params 80 = 25 := by
  decide!

/-- The index loop on the thresholds 1 to 24. -/
theorem find_PL_below_25 (t : Nat) (h1 : 1 ≤ t) (h2 : t ≤ 24) :
    some (find_PL t 14 0) = smallest_index_ge t ∧
    t ≤ pl_to_div.getD (find_PL t 14 0) 0 ∧
    (∀ i, i < find_PL t 14 0 → pl_to_div.getD i 0 < t) := by
  interval_cases t <;> decide

/-- The factor thresholds of the GPC bounds on the legal frequency range. -/
theorem factors_shipped (f : Nat) (h1 : 204 ≤ f) (h2 : f ≤ 1248) :
    1 ≤ low_factor gpc_pll_params f ∧ low_factor gpc_pll_params f ≤ 4 ∧
    1 ≤ high_factor gpc_pll_params f ∧ high_factor gpc_pll_params f ≤ 10 := by
  have e : u32 (f + f / 50) = f + f / 50 := u32_of_lt _ (by unfold U32; omega)
  have hc := vco_ceiling_shipped f (by omega)
  have e2 : u32 (2000 + (f + f / 50) - 1) = 2000 + (f + f / 50) - 1 :=
    u32_of_lt _ (by unfold U32; omega)
  have hh : (2000 + (f + f / 50) - 1) / (f + f / 50) < 11 :=
    (Nat.div_lt_iff_lt_mul (by omega)).mpr (by omega)
  have hl : 1000 / (f + f / 50) < 5 := (Nat.div_lt_iff_lt_mul (by omega)).mpr (by omega)
  refine ⟨?_, ?_, ?_, ?_⟩
  · unfold low_factor; simp only [e]; simp only [gpc_pll_params]; omega
  · unfold low_factor; simp only [e]; simp only [gpc_pll_params]; omega
  · unfold high_factor; simp only [e, hc, e2]; simp only [gpc_pll_params]; omega
  · unfold high_factor; simp only [e, hc, e2]; simp only [gpc_pll_params]; omega

/-- C19 (amended): for every factor threshold `t` from 1 to 24 the index loop of
`clk_config_pll`, which is the same for `low_PL` and `high_PL`, yields the
smallest index of the divider table whose factor is at least `t`: the factor at
that index is at least `t` and every factor before it is smaller.  This covers
every threshold the solver computes for a target in `[204, 1248]`, the range
`set_pll_target` clamps to: with the GPC bounds the threshold of `low_PL` is
between 1 and 4 and that of `high_PL` between 1 and 10, so both loop bounds
are smallest indices. -/
theorem find_PL_smallest_index (t : Nat) (h1 : 1 ≤ t) (h2 : t ≤ 24) :
    some (find_PL t 14 0) = smallest_index_ge t ∧
    t ≤ pl_to_div.getD (find_PL t 14 0) 0 ∧
    (∀ i, i < find_PL t 14 0 → pl_to_div.getD i 0 < t) ∧
    (∀ f, 204 ≤ f → f ≤ 1248 →
      (1 ≤ low_factor gpc_pll_params f ∧ low_factor gpc_pll_params f ≤ 4) ∧
      (1 ≤ high_factor gpc_pll_params f ∧ high_factor gpc_pll_params f ≤ 10) ∧
      low_PL gpc_pll_params f = find_PL (low_factor gpc_pll_params f) 14 0 ∧
      high_PL gpc_pll_params f = find_PL (high_factor gpc_pll_params f) 14 0 ∧
      some (low_PL gpc_pll_params f) = smallest_index_ge (low_factor gpc_pll_params f) ∧
      some (high_PL gpc_pll_params f) = smallest_index_ge (high_factor gpc_pll_params f)) := by
  obtain ⟨a1, a2, a3⟩ := find_PL_below_25 t h1 h2
  refine ⟨a1, a2, a3, ?_⟩
  intro f hf1 hf2
  obtain ⟨l1, l2, u1, u2⟩ := factors_shipped f hf1 hf2
  refine ⟨⟨l1, l2⟩, ⟨u1, u2⟩, rfl, rfl, ?_, ?_⟩
  · exact (find_PL_below_25 _ l1 (by omega)).1
  · exact (find_PL_below_25 _ u1 (by omega)).1

set_option maxRecDepth 100000 in
/-- Witness for C19 (amended): the theorem at the threshold 10, the largest one
of the legal frequency range (`high_PL` for the target 204 MHz): the loop
yields the index 7, whose factor is 10. -/
theorem find_PL_smallest_index_witness :
    ((1 : Nat) ≤ 10 ∧ (10 : Nat) ≤ 24) ∧
    high_factor gpc_pll_params 204 = 10 ∧ find_PL 10 14 0 = 7 ∧
    pl_to_div.get? 7 = some 10 ∧
    some (find_PL 10 14 0) = smallest_index_ge 10 :=
  ⟨⟨by decide, by decide⟩, by decide!, by decide, by decide,
    (find_PL_smallest_index 10 (by decide) (by decide)).1⟩

/-! ## The accesses of the programming sequence -/

theorem U32_eq : U32 = 2 ^ 32 := by unfold U32; norm_num

theorem testBit_u32 (x i : Nat) : (u32 x).testBit i = (decide (i < 32) && x.testBit i) := by
  unfold u32; rw [U32_eq, Nat.testBit_mod_two_pow]

/-- The bits of `set_field val mask field`: within 32 bits, those of `val`
outside the mask, or-ed with those of `field`. -/
theorem testBit_set_field (v m f i : Nat) :
    (set_field v m f).testBit i =
      (decide (i < 32) && ((v.testBit i && !m.testBit i) || f.testBit i)) := by
  unfold set_field
  rw [Nat.testBit_lor, Nat.testBit_land, Nat.testBit_xor, testBit_u32, testBit_u32, testBit_u32,
    U32_eq, Nat.testBit_two_pow_sub_one]
  cases decide (i < 32) <;> cases v.testBit i <;> cases m.testBit i <;> cases f.testBit i <;> rfl

/-- Under the mask, `set_field val mask field` has the bits of `field`. -/
theorem set_field_field (v m f : Nat) : set_field v m f &&& u32 m = u32 f &&& u32 m := by
  apply Nat.eq_of_testBit_eq
  intro i
  rw [Nat.testBit_land, Nat.testBit_land, testBit_set_field, testBit_u32, testBit_u32]
  cases decide (i < 32) <;> cases v.testBit i <;> cases m.testBit i <;> cases f.testBit i <;> rfl

theorem program_steps_trace {σ : Type} (h : hw_trim) (io : RegIO σ) (g : gk20a σ) :
    ∃ d1 c2 c3 c5 c6, (program_steps h io g).trace =
      g.trace ++ steps_trace h g.clk.gpc_pll d1 c2 c3 c5 c6 := by
  have key : (program_steps h io g).trace =
      g.trace ++ steps_trace h g.clk.gpc_pll
        ((reads_of ((program_steps h io g).trace.drop g.trace.length)).getD 0 0)
        ((reads_of ((program_steps h io g).trace.drop g.trace.length)).getD 1 0)
        ((reads_of ((program_steps h io g).trace.drop g.trace.length)).getD 2 0)
        ((reads_of ((program_steps h io g).trace.drop g.trace.length)).getD 3 0)
        ((reads_of ((program_steps h io g).trace.drop g.trace.length)).getD 4 0) := by
    unfold program_steps
    simp only
    split_ifs <;> simp [steps_trace, reads_of, *]
  exact ⟨_, _, _, _, _, key⟩

theorem writes_of_append (a b : List Ev) : writes_of (a ++ b) = writes_of a ++ writes_of b := by
  induction a with
  | nil => rfl
  | cons e es ih => cases e <;> simp [writes_of, ih]

theorem writes_of_poll_trace (h : hw_trim) (vs : List Nat) : writes_of (poll_trace h vs) = [] := by
  induction vs with
  | nil => rfl
  | cons v vs ih =>
    unfold poll_trace
    split_ifs
    · rfl
    · simpa [writes_of] using ih

theorem writes_of_steps_trace (h : hw_trim) (p : pll) (d1 c2 c3 c5 c6 : Nat) :
    writes_of (steps_trace h p d1 c2 c3 c5 c6) = program_writes h p d1 c2 c3 c5 c6 := by
  unfold steps_trace program_writes
  split_ifs <;> simp [writes_of]

/-- The lock wait with `k` iterations left: the values `vs` it reads from the
configuration register are at most `k`, only the last can show the lock bit,
and the wait ends locked exactly if one does; unlocked, it has read `k`
values. -/
theorem wait_pll_lock_trace {σ : Type} (h : hw_trim) (io : RegIO σ) :
    ∀ k (g : gk20a σ), ∃ vs : List Nat,
      (wait_pll_lock h io k g).2.trace = g.trace ++ poll_trace h vs ∧
      vs.length ≤ k ∧
      (∀ i v, i + 1 < vs.length → vs.get? i = some v →
        v &&& h.trim_sys_gpcpll_cfg_pll_lock_true_f = 0) ∧
      ((wait_pll_lock h io k g).1 = true →
        ∃ v, vs.getLast? = some v ∧ v &&& h.trim_sys_gpcpll_cfg_pll_lock_true_f ≠ 0) ∧
      ((wait_pll_lock h io k g).1 = false →
        vs.length = k ∧ ∀ v ∈ vs, v &&& h.trim_sys_gpcpll_cfg_pll_lock_true_f = 0) := by
  intro k
  induction k with
  | zero =>
    intro g
    refine ⟨[], by simp [wait_pll_lock, poll_trace], by simp, ?_, ?_, ?_⟩
    · intro i v hi; simp at hi
    · intro hw; simp [wait_pll_lock] at hw
    · intro _; simp
  | succ k ih =>
    intro g
    by_cases hl : (gk20a_readl io g h.trim_sys_gpcpll_cfg_r).1 &&&
        h.trim_sys_gpcpll_cfg_pll_lock_true_f ≠ 0
    · refine ⟨[(gk20a_readl io g h.trim_sys_gpcpll_cfg_r).1], ?_, by simp, ?_, ?_, ?_⟩
      · simp only [wait_pll_lock, if_pos hl, poll_trace]
        rfl
      · intro i v hi; simp at hi
      · intro _; exact ⟨_, rfl, hl⟩
      · intro hw; simp only [wait_pll_lock, if_pos hl] at hw; exact absurd hw (by simp)
    · obtain ⟨vs, h1, h2, h3, h4, h5⟩ :=
        ih (udelay io (gk20a_readl io g h.trim_sys_gpcpll_cfg_r).2 100)
      have hl0 : (gk20a_readl io g h.trim_sys_gpcpll_cfg_r).1 &&&
          h.trim_sys_gpcpll_cfg_pll_lock_true_f = 0 := not_not.mp hl
      refine ⟨(gk20a_readl io g h.trim_sys_gpcpll_cfg_r).1 :: vs, ?_, by simp; omega, ?_, ?_, ?_⟩
      · simp only [wait_pll_lock, if_neg hl, poll_trace]
        rw [h1]
        simp
      · intro i v hi hv
        cases i with
        | zero =>
          simp at hv
          rw [← hv]; exact hl0
        | succ i =>
          simp at hv hi
          exact h3 i v (by omega) (by simpa using hv)
      · intro hw
        simp only [wait_pll_lock, if_neg hl] at hw
        obtain ⟨v, hv, hv2⟩ := h4 hw
        refine ⟨v, ?_, hv2⟩
        cases vs with
        | nil => simp at hv
        | cons a as => simpa [List.getLast?_cons_cons] using hv
      · intro hw
        simp only [wait_pll_lock, if_neg hl] at hw
        obtain ⟨h6, h7⟩ := h5 hw
        refine ⟨by simp; omega, ?_⟩
        intro v hv
        simp at hv
        rcases hv with hv | hv
        · rw [hv]; exact hl0
        · exact h7 v hv

/-- The accesses of `clk_program_gpc_pll`: the steps before the lock wait, the
lock wait and, if the lock was seen, the switch of the mux back to the VCO.
The call returns 0 exactly if the last value read by the lock wait shows the
lock bit; otherwise it ends in `BUG()` after reading the whole budget. -/
theorem clk_program_gpc_pll_trace {σ : Type} (h : hw_trim) (io : RegIO σ) (g : gk20a σ) :
    ∃ d1 c2 c3 c5 c6 vs,
      vs.length ≤ u32 (g.clk.pll_delay / 100 + 1) ∧
      (∀ i v, i + 1 < vs.length → vs.get? i = some v →
        v &&& h.trim_sys_gpcpll_cfg_pll_lock_true_f = 0) ∧
      (((clk_program_gpc_pll h io g).1 = Status.ret 0 ∧
          (∃ v, vs.getLast? = some v ∧ v &&& h.trim_sys_gpcpll_cfg_pll_lock_true_f ≠ 0) ∧
          ∃ d7, (clk_program_gpc_pll h io g).2.trace =
            g.trace ++ (steps_trace h g.clk.gpc_pll d1 c2 c3 c5 c6 ++ poll_trace h vs ++
              vco_trace h d7)) ∨
        ((clk_program_gpc_pll h io g).1 = Status.abort Fault.bug_lock_timeout ∧
          vs.length = u32 (g.clk.pll_delay / 100 + 1) ∧
          (∀ v ∈ vs, v &&& h.trim_sys_gpcpll_cfg_pll_lock_true_f = 0) ∧
          (clk_program_gpc_pll h io g).2.trace =
            g.trace ++ (steps_trace h g.clk.gpc_pll d1 c2 c3 c5 c6 ++ poll_trace h vs))) := by
  obtain ⟨d1, c2, c3, c5, c6, hs⟩ := program_steps_trace h io g
  obtain ⟨vs, w1, w2, w3, w4, w5⟩ :=
    wait_pll_lock_trace h io (u32 (g.clk.pll_delay / 100 + 1)) (program_steps h io g)
  refine ⟨d1, c2, c3, c5, c6, vs, w2, w3, ?_⟩
  unfold clk_program_gpc_pll
  simp only
  cases hw : (wait_pll_lock h io (u32 (g.clk.pll_delay / 100 + 1)) (program_steps h io g)).1 with
  | true =>
    left
    rw [if_pos rfl]
    refine ⟨rfl, w4 hw, (gk20a_readl io (wait_pll_lock h io (u32 (g.clk.pll_delay / 100 + 1))
      (program_steps h io g)).2 h.trim_sys_sel_vco_r).1, ?_⟩
    simp only [gk20a_writel_trace, gk20a_readl_trace, w1, hs, vco_trace]
    simp only [List.append_assoc]
    rfl
  | false =>
    right
    rw [if_neg (by simp)]
    obtain ⟨h6, h7⟩ := w5 hw
    refine ⟨rfl, h6, h7, ?_⟩
    rw [w1, hs, List.append_assoc]

/-! ## Claims C13 - C15: the programming protocol, the lock wait, disabling -/

/-- C13: if the lock wait of `clk_program_gpc_pll` sees the lock bit, the
accesses of the call are those of `steps_trace`, of the polls and of the mux
switch, so its register writes are, in this order: output mux to bypass; only
if IDDQ was read set, PLL out of IDDQ; enable field of the configuration
register set to "no"; one write of the coefficient register with `M`, `N` and
`PL`; enable field set to "yes"; only if lock detection was read off, lock
detection on; output mux to the VCO.  The write before the coefficient write
leaves the enable field at "no", and the only mux write before it puts the
bypass value in the mux field. -/
theorem clk_program_gpc_pll_write_order {σ : Type} (h : hw_trim) (io : RegIO σ) (g : gk20a σ)
    (hlock : (wait_pll_lock h io (u32 (g.clk.pll_delay / 100 + 1))
      (program_steps h io g)).1 = true) :
    ∃ d1 c2 c3 c5 c6 d7 vs,
      (clk_program_gpc_pll h io g).1 = Status.ret 0 ∧
      (clk_program_gpc_pll h io g).2.trace =
        g.trace ++ (steps_trace h g.clk.gpc_pll d1 c2 c3 c5 c6 ++ poll_trace h vs ++
          vco_trace h d7) ∧
      writes_of ((clk_program_gpc_pll h io g).2.trace.drop g.trace.length) =
        program_writes h g.clk.gpc_pll d1 c2 c3 c5 c6 ++
          [(h.trim_sys_sel_vco_r,
            set_field d7 h.trim_sys_sel_vco_gpc2clk_out_m h.trim_sys_sel_vco_gpc2clk_out_vco_f)] ∧
      set_field c3 h.trim_sys_gpcpll_cfg_enable_m h.trim_sys_gpcpll_cfg_enable_no_f &&&
          u32 h.trim_sys_gpcpll_cfg_enable_m =
        u32 h.trim_sys_gpcpll_cfg_enable_no_f &&& u32 h.trim_sys_gpcpll_cfg_enable_m ∧
      set_field d1 h.trim_sys_sel_vco_gpc2clk_out_m h.trim_sys_sel_vco_gpc2clk_out_bypass_f &&&
          u32 h.trim_sys_sel_vco_gpc2clk_out_m =
        u32 h.trim_sys_sel_vco_gpc2clk_out_bypass_f &&& u32 h.trim_sys_sel_vco_gpc2clk_out_m := by
  have hret : (clk_program_gpc_pll h io g).1 = Status.ret 0 := by
    unfold clk_program_gpc_pll
    simp only
    rw [if_pos hlock]
  obtain ⟨d1, c2, c3, c5, c6, vs, _, _, hcase⟩ := clk_program_gpc_pll_trace h io g
  rcases hcase with ⟨_, _, d7, ht⟩ | ⟨hab, _⟩
  · refine ⟨d1, c2, c3, c5, c6, d7, vs, hret, ht, ?_, set_field_field _ _ _, set_field_field _ _ _⟩
    rw [ht, List.drop_left, writes_of_append, writes_of_append, writes_of_poll_trace,
      writes_of_steps_trace]
    simp [vco_trace, writes_of]
  · rw [hret] at hab
    exact Status.noConfusion hab

set_option maxRecDepth 100000 in
/-- Witness for C13: the theorem at the simulated state, where the lock is
seen at the first poll. -/
theorem clk_program_gpc_pll_write_order_witness :
    (wait_pll_lock sim_trim sim_io (u32 (sim_state.clk.pll_delay / 100 + 1))
      (program_steps sim_trim sim_io sim_state)).1 = true ∧
    writes_of (clk_program_gpc_pll sim_trim sim_io sim_state).2.trace =
      [(0x137100, 0), (0x137000, 131072), (0x137004, 15361), (0x137000, 1), (0x137100, 1)] ∧
    ∃ d1 c2 c3 c5 c6 d7 vs,
      (clk_program_gpc_pll sim_trim sim_io sim_state).1 = Status.ret 0 ∧
      (clk_program_gpc_pll sim_trim sim_io sim_state).2.trace =
        sim_state.trace ++ (steps_trace sim_trim sim_state.clk.gpc_pll d1 c2 c3 c5 c6 ++
          poll_trace sim_trim vs ++ vco_trace sim_trim d7) :=
  ⟨by decide, by decide,
    (clk_program_gpc_pll_write_order sim_trim sim_io sim_state (by decide)).imp
      fun _ hd1 => hd1.imp fun _ hc2 => hc2.imp fun _ hc3 => hc3.imp fun _ hc5 => hc5.imp
        fun _ hc6 => hc6.imp fun _ hd7 => hd7.imp fun _ hvs => ⟨hvs.1, hvs.2.1⟩⟩

/-- C14: with a `u32` value in `pll_delay`, the lock wait of
`clk_program_gpc_pll` reads the configuration register at least once and at
most `pll_delay / 100 + 1` times, and no read before the last shows the lock
bit.  The call returns 0 exactly if one of the values read shows the lock bit;
then it has written the VCO value to the output mux and set `enabled`.
Otherwise it ends in `BUG()` after `pll_delay / 100 + 1` reads: the clock state,
`enabled` included, is as before, the last access is the last poll, and the
writes are those before the lock wait, of which the only mux write is the one
to bypass. -/
theorem clk_program_gpc_pll_lock_wait {σ : Type} (h : hw_trim) (io : RegIO σ) (g : gk20a σ)
    (hdelay : g.clk.pll_delay < U32) :
    ∃ d1 c2 c3 c5 c6 vs,
      1 ≤ vs.length ∧ vs.length ≤ g.clk.pll_delay / 100 + 1 ∧
      (∀ i v, i + 1 < vs.length → vs.get? i = some v →
        v &&& h.trim_sys_gpcpll_cfg_pll_lock_true_f = 0) ∧
      ((clk_program_gpc_pll h io g).1 = Status.ret 0 ↔
        ∃ v ∈ vs, v &&& h.trim_sys_gpcpll_cfg_pll_lock_true_f ≠ 0) ∧
      ((∃ v ∈ vs, v &&& h.trim_sys_gpcpll_cfg_pll_lock_true_f ≠ 0) →
        (clk_program_gpc_pll h io g).2.clk =
          { g.clk with gpc_pll := { g.clk.gpc_pll with enabled := true } } ∧
        ∃ d7, (clk_program_gpc_pll h io g).2.trace =
          g.trace ++ (steps_trace h g.clk.gpc_pll d1 c2 c3 c5 c6 ++ poll_trace h vs ++
            vco_trace h d7)) ∧
      ((∀ v ∈ vs, v &&& h.trim_sys_gpcpll_cfg_pll_lock_true_f = 0) →
        (clk_program_gpc_pll h io g).1 = Status.abort Fault.bug_lock_timeout ∧
        vs.length = g.clk.pll_delay / 100 + 1 ∧
        (clk_program_gpc_pll h io g).2.clk = g.clk ∧
        (clk_program_gpc_pll h io g).2.trace =
          g.trace ++ (steps_trace h g.clk.gpc_pll d1 c2 c3 c5 c6 ++ poll_trace h vs) ∧
        writes_of ((clk_program_gpc_pll h io g).2.trace.drop g.trace.length) =
          program_writes h g.clk.gpc_pll d1 c2 c3 c5 c6) := by
  have hb : u32 (g.clk.pll_delay / 100 + 1) = g.clk.pll_delay / 100 + 1 := by
    apply u32_of_lt
    unfold U32 at hdelay ⊢
    omega
  obtain ⟨d1, c2, c3, c5, c6, vs, hlen, hpre, hcase⟩ := clk_program_gpc_pll_trace h io g
  rw [hb] at hlen hcase
  have hfr := (clk_program_gpc_pll_frame h io g).2.1
  refine ⟨d1, c2, c3, c5, c6, vs, ?_⟩
  rcases hcase with ⟨hret, ⟨v, hv, hvl⟩, d7, ht⟩ | ⟨hab, hl, hno, ht⟩
  · have hmem : v ∈ vs := List.mem_of_getLast?_eq_some hv
    have hclk : (clk_program_gpc_pll h io g).2.clk =
        { g.clk with gpc_pll := { g.clk.gpc_pll with enabled := true } } := by
      rcases hfr with ⟨_, hc⟩ | ⟨hab, _⟩
      · exact hc
      · rw [hret] at hab; exact Status.noConfusion hab
    refine ⟨?_, hlen, hpre, ?_, ?_, ?_⟩
    · exact List.length_pos_of_mem hmem
    · exact ⟨fun _ => ⟨v, hmem, hvl⟩, fun _ => hret⟩
    · intro _
      exact ⟨hclk, d7, ht⟩
    · intro hall
      exact absurd (hall v hmem) hvl
  · have hclk : (clk_program_gpc_pll h io g).2.clk = g.clk := by
      rcases hfr with ⟨hret, _⟩ | ⟨_, hc⟩
      · rw [hab] at hret; exact Status.noConfusion hret
      · exact hc
    refine ⟨by omega, hlen, hpre, ?_, ?_, ?_⟩
    · constructor
      · intro hret
        rw [hab] at hret
        exact Status.noConfusion hret
      · rintro ⟨v, hv, hvl⟩
        exact absurd (hno v hv) hvl
    · rintro ⟨v, hv, hvl⟩
      exact absurd (hno v hv) hvl
    · intro _
      refine ⟨hab, hl, hclk, ht, ?_⟩
      rw [ht, List.drop_left, writes_of_append, writes_of_poll_trace, writes_of_steps_trace]
      simp

set_option maxRecDepth 100000 in
/-- Witness for C14: the theorem at the simulated state, where the call
returns 0 with `enabled` set. -/
theorem clk_program_gpc_pll_lock_wait_witness :
    sim_state.clk.pll_delay < U32 ∧
    (clk_program_gpc_pll sim_trim sim_io sim_state).1 = Status.ret 0 ∧
    ∃ d1 c2 c3 c5 c6 vs,
      1 ≤ vs.length ∧ vs.length ≤ sim_state.clk.pll_delay / 100 + 1 ∧
      ((clk_program_gpc_pll sim_trim sim_io sim_state).1 = Status.ret 0 ↔
        ∃ v ∈ vs, v &&& sim_trim.trim_sys_gpcpll_cfg_pll_lock_true_f ≠ 0) ∧
      ((∃ v ∈ vs, v &&& sim_trim.trim_sys_gpcpll_cfg_pll_lock_true_f ≠ 0) →
        (clk_program_gpc_pll sim_trim sim_io sim_state).2.clk =
          { sim_state.clk with gpc_pll := { sim_state.clk.gpc_pll with enabled := true } } ∧
        ∃ d7, (clk_program_gpc_pll sim_trim sim_io sim_state).2.trace =
          sim_state.trace ++ (steps_trace sim_trim sim_state.clk.gpc_pll d1 c2 c3 c5 c6 ++
            poll_trace sim_trim vs ++ vco_trace sim_trim d7)) :=
  ⟨by decide, by decide,
    (clk_program_gpc_pll_lock_wait sim_trim sim_io sim_state (by decide)).imp
      fun _ hd1 => hd1.imp fun _ hc2 => hc2.imp fun _ hc3 => hc3.imp fun _ hc5 => hc5.imp
        fun _ hc6 => hc6.imp fun _ hvs => ⟨hvs.1, hvs.2.1, hvs.2.2.2.1, hvs.2.2.2.2.1⟩⟩

/-- A run of `clk_program_gpc_pll` on a simulated PLL that never locks, with a
lock wait budget of `250 / 100 + 1 = 3` polls: the call ends in `BUG()`, `enabled`
stays set as it was, and the last mux write is the one to bypass. -/
theorem clk_program_gpc_pll_timeout_run :
    (clk_program_gpc_pll sim_trim sim_io_no_lock
      { sim_state with clk := { sim_state.clk with pll_delay := 250 } }).1 =
      Status.abort Fault.bug_lock_timeout ∧
    (clk_program_gpc_pll sim_trim sim_io_no_lock
      { sim_state with clk := { sim_state.clk with pll_delay := 250 } }).2.clk =
      { sim_state.clk with pll_delay := 250 } ∧
    writes_of (clk_program_gpc_pll sim_trim sim_io_no_lock
      { sim_state with clk := { sim_state.clk with pll_delay := 250 } }).2.trace =
      [(0x137100, 0), (0x137000, 0), (0x137004, 15361), (0x137000, 1)] ∧
    reads_of (clk_program_gpc_pll sim_trim sim_io_no_lock
      { sim_state with clk := { sim_state.clk with pll_delay := 250 } }).2.trace =
      [1, 1, 1, 0, 1, 1, 1, 1] := by
  decide

/-- C15: on a powered device, `gk20a_clk_export_disable` returns after one
read and one write, both of the PLL configuration register: the value written
has the enable field at "no" (all its bits clear when "no" is 0, as assumed)
and every bit outside the enable mask as read; the flag `enabled` is cleared
and the rest of the clock state (`M`, `N`, `PL`, `freq`, the caps) and the
power state are kept.  On an unpowered device the call returns with the state,
registers and access log included, as it was. -/
theorem gk20a_clk_export_disable_clears_enable {σ : Type} (h : hw_trim) (io : RegIO σ)
    (g : gk20a σ) (hno : h.trim_sys_gpcpll_cfg_enable_no_f = 0) :
    (g.power_on = true →
      (gk20a_clk_export_disable h io g).1 = Status.ret 0 ∧
      (gk20a_clk_export_disable h io g).2.trace =
        g.trace ++ [Ev.readl h.trim_sys_gpcpll_cfg_r (gk20a_readl io g h.trim_sys_gpcpll_cfg_r).1,
          Ev.writel h.trim_sys_gpcpll_cfg_r
            (set_field (gk20a_readl io g h.trim_sys_gpcpll_cfg_r).1
              h.trim_sys_gpcpll_cfg_enable_m h.trim_sys_gpcpll_cfg_enable_no_f)] ∧
      writes_of ((gk20a_clk_export_disable h io g).2.trace.drop g.trace.length) =
        [(h.trim_sys_gpcpll_cfg_r,
          set_field (gk20a_readl io g h.trim_sys_gpcpll_cfg_r).1
            h.trim_sys_gpcpll_cfg_enable_m h.trim_sys_gpcpll_cfg_enable_no_f)] ∧
      (gk20a_clk_export_disable h io g).2.regs =
        io.writel (io.readl g.regs h.trim_sys_gpcpll_cfg_r).2 h.trim_sys_gpcpll_cfg_r
          (set_field (gk20a_readl io g h.trim_sys_gpcpll_cfg_r).1
            h.trim_sys_gpcpll_cfg_enable_m h.trim_sys_gpcpll_cfg_enable_no_f) ∧
      set_field (gk20a_readl io g h.trim_sys_gpcpll_cfg_r).1
          h.trim_sys_gpcpll_cfg_enable_m h.trim_sys_gpcpll_cfg_enable_no_f &&&
        u32 h.trim_sys_gpcpll_cfg_enable_m = 0 ∧
      (∀ i, h.trim_sys_gpcpll_cfg_enable_m.testBit i = false →
        (set_field (gk20a_readl io g h.trim_sys_gpcpll_cfg_r).1
          h.trim_sys_gpcpll_cfg_enable_m h.trim_sys_gpcpll_cfg_enable_no_f).testBit i =
        (gk20a_readl io g h.trim_sys_gpcpll_cfg_r).1.testBit i) ∧
      (gk20a_clk_export_disable h io g).2.clk =
        { g.clk with gpc_pll := { g.clk.gpc_pll with enabled := false } } ∧
      (gk20a_clk_export_disable h io g).2.power_on = g.power_on) ∧
    (g.power_on = false → gk20a_clk_export_disable h io g = (Status.ret 0, g)) := by
  constructor
  · intro hp
    have e : gk20a_clk_export_disable h io g = (Status.ret 0, (clk_disable_gpcpll h io g).2) := by
      unfold gk20a_clk_export_disable
      rw [if_pos hp]
    have ht : (clk_disable_gpcpll h io g).2.trace =
        g.trace ++ [Ev.readl h.trim_sys_gpcpll_cfg_r (gk20a_readl io g h.trim_sys_gpcpll_cfg_r).1,
          Ev.writel h.trim_sys_gpcpll_cfg_r
            (set_field (gk20a_readl io g h.trim_sys_gpcpll_cfg_r).1
              h.trim_sys_gpcpll_cfg_enable_m h.trim_sys_gpcpll_cfg_enable_no_f)] := by
      simp [clk_disable_gpcpll, gk20a_writel, gk20a_readl]
    rw [e]
    refine ⟨rfl, ht, ?_, ?_, ?_, ?_, ?_, ?_⟩
    · simp only [ht, List.drop_left]
      rfl
    · simp [clk_disable_gpcpll, gk20a_writel, gk20a_readl]
    · rw [set_field_field, hno]
      simp [u32]
    · intro i hi
      rw [testBit_set_field, hno, hi]
      simp only [gk20a_readl, testBit_u32]
      cases decide (i < 32) <;> simp
    · simp [clk_disable_gpcpll, gk20a_writel, gk20a_readl]
    · simp [clk_disable_gpcpll, gk20a_writel, gk20a_readl]
  · intro hp
    unfold gk20a_clk_export_disable
    rw [if_neg (by simp [hp])]

/-- Witness for C15: the theorem at the simulated state, powered. -/
theorem gk20a_clk_export_disable_clears_enable_witness :
    sim_trim.trim_sys_gpcpll_cfg_enable_no_f = 0 ∧ sim_state.power_on = true ∧
    (gk20a_clk_export_disable sim_trim sim_io sim_state).2.trace =
      [Ev.readl 0x137000 131073, Ev.writel 0x137000 131072] ∧
    (gk20a_clk_export_disable sim_trim sim_io sim_state).2.clk =
      { sim_state.clk with gpc_pll := { sim_state.clk.gpc_pll with enabled := false } } :=
  ⟨rfl, rfl, by decide,
    ((gk20a_clk_export_disable_clears_enable sim_trim sim_io sim_state rfl).1 rfl).2.2.2.2.2.2.1⟩

/-! ## What the search records -/

theorem abs_diff_le (a b : Nat) : abs_diff a b ≤ 2147483648 := by
  unfold abs_diff U32
  simp only
  split_ifs with h1 <;> omega

theorem n_loop_flow (J R : Best → Prop) (hRJ : ∀ b, R b → J b)
    (p : pll_parms) (ref t minv maxv : Nat) (bf : Bool) (pl d m n2 : Nat)
    (hrec : ∀ n, p.min_N ≤ n → n ≤ p.max_N → minv ≤ u32 (ref * n) / m →
      u32 (ref * n) / m ≤ maxv →
      R ⟨abs_diff (u32 (u32 (ref * n) / m + d / 2) / d) t, m, n, pl⟩) :
    ∀ fuel n b, J b → flow_ok J R (n_loop p ref t minv maxv bf pl d m n2 fuel n b) := by
  intro fuel
  induction fuel with
  | zero => intro n b _; simp [n_loop, flow_ok]
  | succ fuel ih =>
    intro n b hb
    simp only [n_loop]
    split_ifs with h1 h2 h3 h4 h5 h6
    · exact hb
    · exact ih _ _ hb
    · exact hb
    · exact hrec n (not_lt.mp h2) (not_lt.mp h3) h4.1 h4.2
    · exact ih _ _ (hRJ _ (hrec n (not_lt.mp h2) (not_lt.mp h3) h4.1 h4.2))
    · exact ih _ _ hb
    · exact ih _ _ hb

theorem m_loop_flow (J R : Best → Prop) (hRJ : ∀ b, R b → J b)
    (p : pll_parms) (ref t minv maxv : Nat) (bf : Bool) (pl d tv : Nat) (hM : p.max_M < U32)
    (hrec : ∀ m n, p.min_M ≤ m → m ≤ p.max_M → m ≠ 0 → p.min_u ≤ ref / m → ref / m ≤ p.max_u →
      p.min_N ≤ n → n ≤ p.max_N → minv ≤ u32 (ref * n) / m → u32 (ref * n) / m ≤ maxv →
      R ⟨abs_diff (u32 (u32 (ref * n) / m + d / 2) / d) t, m, n, pl⟩) :
    ∀ fuel m b, (p.min_M ≤ m ∨ m = 0) → J b →
      flow_ok J R (m_loop p ref t minv maxv bf pl d tv fuel m b) := by
  intro fuel
  induction fuel with
  | zero => intro m b _ _; simp [m_loop, flow_ok]
  | succ fuel ih =>
    intro m b hm hb
    have hstep : ¬ p.max_M < m → m ≠ 0 → (p.min_M ≤ u32 (m + 1) ∨ u32 (m + 1) = 0) := by
      intro h1 h2
      unfold u32 U32
      unfold U32 at hM
      omega
    simp only [m_loop]
    split_ifs with h1 h2 h3 h4 h5 h6
    · exact hb
    · exact Or.inl rfl
    · exact hb
    · exact ih _ _ (hstep h1 h2) hb
    · exact Or.inl rfl
    · exact hb
    · have hn := n_loop_flow J R hRJ p ref t minv maxv bf pl d m
        (u32 (u32 (tv * m) + (ref - 1)) / ref)
        (fun n a1 a2 a3 a4 => hrec m n (by omega) (not_lt.mp h1) h2 (not_lt.mp h3)
          (not_lt.mp h4) a1 a2 a3 a4)
        (p.max_N + 4) (u32 (tv * m) / ref) b hb
      cases hc : n_loop p ref t minv maxv bf pl d m
          (u32 (u32 (tv * m) + (ref - 1)) / ref) (p.max_N + 4) (u32 (tv * m) / ref) b with
      | next b2 => rw [hc] at hn; exact ih _ _ (hstep h1 h2) hn
      | found b2 => rw [hc] at hn; exact hn
      | fault f => rw [hc] at hn; exact hn

theorem pl_loop_flow (J R : Best → Prop) (hRJ : ∀ b, R b → J b)
    (p : pll_parms) (ref t minv maxv : Nat) (bf : Bool) (low high : Int) (hM : p.max_M < U32)
    (hrec : ∀ (pl : Nat) d m n, low ≤ (pl : Int) → (pl : Int) ≤ high →
      pl_to_div.get? pl = some d →
      p.min_M ≤ m → m ≤ p.max_M → m ≠ 0 → p.min_u ≤ ref / m → ref / m ≤ p.max_u →
      p.min_N ≤ n → n ≤ p.max_N → minv ≤ u32 (ref * n) / m → u32 (ref * n) / m ≤ maxv →
      R ⟨abs_diff (u32 (u32 (ref * n) / m + d / 2) / d) t, m, n, pl⟩) :
    ∀ fuel pl b, pl ≤ high → J b →
      flow_ok J R (pl_loop p ref t minv maxv bf low fuel pl b) := by
  intro fuel
  induction fuel with
  | zero => intro pl b _ _; simp [pl_loop, flow_ok]
  | succ fuel ih =>
    intro pl b hpl hb
    simp only [pl_loop]
    split_ifs with h1 h2
    · exact hb
    · exact Or.inr (Or.inl rfl)
    · cases hd : pl_to_div.get? pl.toNat with
      | none => exact Or.inr (Or.inl rfl)
      | some d =>
        simp only
        have hcast : (pl.toNat : Int) = pl := Int.toNat_of_nonneg (by omega)
        have hm := m_loop_flow J R hRJ p ref t minv maxv bf pl.toNat d (u32 (t * d)) hM
          (fun m n => hrec pl.toNat d m n (by omega) (by omega) hd)
          (p.max_M + 2) p.min_M b (Or.inl (le_refl _)) hb
        cases hc : m_loop p ref t minv maxv bf pl.toNat d (u32 (t * d))
            (p.max_M + 2) p.min_M b with
        | next b2 => rw [hc] at hm; exact ih _ _ (by omega) hm
        | found b2 => rw [hc] at hm; exact hm
        | fault f => rw [hc] at hm; exact hm

/-- The candidate with which the search reaches `found_match` is the initial
one, if the loops ran to their end and recorded nothing, or a triple that
passed the constraints of `searched`. -/
theorem pll_search_flow (ref : Nat) (pp : pll_parms) (t : Nat) (bf : Bool)
    (hM : pp.max_M < U32) :
    flow_ok
      (fun b => b = ⟨U32 - 1, pp.max_M, pp.min_N, pp.min_PL⟩ ∨ searched ref pp t b)
      (searched ref pp t) (pll_search ref pp t bf) := by
  unfold pll_search
  split_ifs
  · exact Or.inl rfl
  · apply pl_loop_flow _ _ (fun b hb => Or.inr hb) pp ref t _ _ bf _
      (to_int (high_PL pp t)) hM
    · intro pl d m n a1 a2 a3 a4 a5 a6 a7 a8 a9 a10 a11 a12
      exact ⟨a4, a5, a6, a7, a8, a9, a10, a1, a2, a11, a12, d, a3, rfl⟩
    · exact le_refl _
    · exact Or.inl rfl

theorem searched_delta (ref : Nat) (pp : pll_parms) (t : Nat) (b : Best)
    (h : searched ref pp t b) : b.best_delta ≤ 2147483648 := by
  obtain ⟨_, _, _, _, _, _, _, _, _, _, _, d, _, hd⟩ := h
  rw [hd]
  exact abs_diff_le _ _

theorem n2_le (X ref : Nat) (h : ref ≠ 0) : u32 (X + (ref - 1)) / ref ≤ X / ref + 1 := by
  have h1 : u32 (X + (ref - 1)) ≤ X + ref := by
    unfold u32
    exact le_trans (Nat.mod_le _ _) (by omega)
  calc u32 (X + (ref - 1)) / ref ≤ (X + ref) / ref := Nat.div_le_div_right h1
    _ = X / ref + 1 := Nat.add_div_right X (Nat.pos_of_ne_zero h)

theorem n_loop_fuel (p : pll_parms) (ref t minv maxv : Nat) (bf : Bool) (pl d m n2 : Nat)
    (hN : p.max_N + 2 < U32) (hn2 : n2 ≤ p.max_N + 1) :
    ∀ fuel n b, 1 ≤ fuel → n2 + 2 ≤ fuel + n →
      n_loop p ref t minv maxv bf pl d m n2 fuel n b ≠ Flow.fault Fault.out_of_fuel := by
  intro fuel
  induction fuel with
  | zero => intro n b h; omega
  | succ fuel ih =>
    intro n b hf hm
    simp only [n_loop]
    split_ifs with h1 h2 h3 h4 h5 h6
    all_goals first
      | exact fun h => Flow.noConfusion h
      | (have e : u32 (n + 1) = n + 1 := u32_of_lt _ (by unfold U32 at hN ⊢; omega)
         rw [e]
         exact ih _ _ (by omega) (by omega))

theorem m_loop_fuel (p : pll_parms) (ref t minv maxv : Nat) (bf : Bool) (pl d tv : Nat)
    (hM : p.max_M + 1 < U32) (hN : p.max_N + 2 < U32) :
    ∀ fuel m b, 1 ≤ fuel → p.max_M + 2 ≤ fuel + m →
      m_loop p ref t minv maxv bf pl d tv fuel m b ≠ Flow.fault Fault.out_of_fuel := by
  intro fuel
  induction fuel with
  | zero => intro m b h; omega
  | succ fuel ih =>
    intro m b hf hm
    have e : ¬ p.max_M < m → u32 (m + 1) = m + 1 := fun h1 =>
      u32_of_lt _ (by unfold U32 at hM ⊢; omega)
    simp only [m_loop]
    split_ifs with h1 h2 h3 h4 h5 h6
    · exact fun h => Flow.noConfusion h
    · decide
    · exact fun h => Flow.noConfusion h
    · rw [e h1]; exact ih _ _ (by omega) (by omega)
    · decide
    · exact fun h => Flow.noConfusion h
    · have hle := n2_le (u32 (tv * m)) ref h5
      have hn := n_loop_fuel p ref t minv maxv bf pl d m
        (u32 (u32 (tv * m) + (ref - 1)) / ref) hN (by omega)
        (p.max_N + 4) (u32 (tv * m) / ref) b (by omega) (by omega)
      cases hc : n_loop p ref t minv maxv bf pl d m
          (u32 (u32 (tv * m) + (ref - 1)) / ref) (p.max_N + 4) (u32 (tv * m) / ref) b with
      | next b2 => simp only; rw [e h1]; exact ih _ _ (by omega) (by omega)
      | found b2 => exact fun h => Flow.noConfusion h
      | fault f => rw [hc] at hn; exact hn

theorem pl_loop_fuel (p : pll_parms) (ref t minv maxv : Nat) (bf : Bool) (low : Int)
    (hM : p.max_M + 1 < U32) (hN : p.max_N + 2 < U32) :
    ∀ (fuel : Nat) (pl : Int) (b : Best), 1 ≤ fuel → (pl ≤ 14 → pl + 2 ≤ (fuel : Int)) →
      pl_loop p ref t minv maxv bf low fuel pl b ≠ Flow.fault Fault.out_of_fuel := by
  intro fuel
  induction fuel with
  | zero => intro pl b h; omega
  | succ fuel ih =>
    intro pl b hf hm
    simp only [pl_loop]
    split_ifs with h1 h2
    · exact fun h => Flow.noConfusion h
    · decide
    · cases hd : pl_to_div.get? pl.toNat with
      | none => simp
      | some d =>
        simp only
        have hcast : (pl.toNat : Int) = pl := Int.toNat_of_nonneg (by omega)
        have hlt : pl.toNat < 15 := by
          by_contra hge
          have hnone : pl_to_div.get? pl.toNat = none :=
            List.get?_eq_none.mpr (by simp only [pl_to_div, List.length]; omega)
          rw [hnone] at hd
          exact Option.noConfusion hd
        have hm2 := m_loop_fuel p ref t minv maxv bf pl.toNat d (u32 (t * d)) hM hN
          (p.max_M + 2) p.min_M b (by omega) (by omega)
        cases hc : m_loop p ref t minv maxv bf pl.toNat d (u32 (t * d))
            (p.max_M + 2) p.min_M b with
        | next b2 =>
          simp only
          apply ih
          · omega
          · intro _
            push_cast at hm
            omega
        | found b2 => exact fun h => Flow.noConfusion h
        | fault f => rw [hc] at hm2; exact hm2

/-- With `max_M` and `max_N` below the end of the `u32` range, the loops of the
search come to an end within the fuel the model gives them. -/
theorem pll_search_terminates (ref : Nat) (pp : pll_parms) (t : Nat) (bf : Bool)
    (hM : pp.max_M + 1 < U32) (hN : pp.max_N + 2 < U32) :
    pll_search ref pp t bf ≠ Flow.fault Fault.out_of_fuel := by
  unfold pll_search
  split_ifs
  · decide
  · exact pl_loop_fuel pp ref t _ _ bf _ hM hN 17 _ _ (by omega) (by intro _; omega)

theorem found_match_bug (p : pll) (b : Best) :
    found_match p b = Except.error Fault.bug_on_best_delta ↔ b.best_delta = U32 - 1 := by
  unfold found_match
  split_ifs with h
  · simp [h]
  · cases hd : pl_to_div.get? b.best_PL with
    | none => simp [h]
    | some d =>
      simp only
      split_ifs <;> simp [h]

/-! ## Claim C16: the search that records nothing -/

/-- C16 (as stated, refuted): with the bounds of the GPC PLL and a VCO range of
`[1001, 1001]` no triple satisfies the range constraints of the bounds (`u`
forces `M = 1`, and `12 * N` is never 1001), yet `clk_config_pll` returns for
the target 1000 with the triple `(1, 84, 0)`, whose VCO frequency 1008 lies
under the raised ceiling `1000 + 1000 / 50`. -/
theorem clk_config_pll_succeeds_outside_vco_range :
    (∀ M N PL,
      ¬ range_constraints 12 { gpc_pll_params with min_vco := 1001, max_vco := 1001 } M N PL) ∧
    clk_config_pll init_pll { gpc_pll_params with min_vco := 1001, max_vco := 1001 } 1000 true =
      Except.ok ({ init_pll with M := 1, N := 84, PL := 0, freq := 1008 }, 1008) := by
  constructor
  · rintro M N PL ⟨h1, h2, h3, h4, h5, h6, h7, h8, h9, h10⟩
    simp only [gpc_pll_params] at h1 h2 h3 h4 h5 h6 h7 h8 h9 h10
    have hM : M = 1 := by
      by_contra hne
      have h2' : 2 ≤ M := by omega
      have := Nat.div_le_div_left (a := 12) h2' (by decide)
      omega
    subst hM
    omega
  · decide!

/-- C16 (amended): for bounds with a `u32` value of `max_M`, any reference
clock and any target, `clk_config_pll` ends in `BUG_ON(best_delta == ~0)` exactly
if the search runs to its end with the initial candidate, that is, without
recording one (a division by zero or a read outside `pl_to_div` ends the call
before, as another fault).  The candidate that reaches `found_match` is the
initial one or a triple that passed the constraints of `searched`: `M`, `u`,
`N` in range, `PL` an index of the search window, the VCO frequency within
`[min_vco, max_vco_f]` with the raised ceiling.  So a call that returns
returns such a triple; if there is none the call fails, with the `BUG_ON` unless
the search faults; the loops end within their fuel for `max_M`, `max_N` below
the end of the `u32` range; and `set_pll_target` keeps the state (`M`, `N`, `PL`,
`freq` included) as it is when the solver fails. -/
theorem clk_config_pll_unsatisfiable (p : pll) (pp : pll_parms) (t : Nat) (bf : Bool)
    (hM : pp.max_M < U32) :
    (clk_config_pll p pp t bf = Except.error Fault.bug_on_best_delta ↔
      pll_search p.clk_in pp (u32 t) bf =
        Flow.next ⟨U32 - 1, pp.max_M, pp.min_N, pp.min_PL⟩) ∧
    (∀ b, search_best (pll_search p.clk_in pp (u32 t) bf) = some b →
      b = ⟨U32 - 1, pp.max_M, pp.min_N, pp.min_PL⟩ ∨ searched p.clk_in pp (u32 t) b) ∧
    (∀ q f, clk_config_pll p pp t bf = Except.ok (q, f) →
      ∃ b, searched p.clk_in pp (u32 t) b ∧
        q.M = b.best_M ∧ q.N = b.best_N ∧ q.PL = b.best_PL) ∧
    ((∀ b, ¬ searched p.clk_in pp (u32 t) b) →
      (∃ e, clk_config_pll p pp t bf = Except.error e) ∧
      ((∀ f, pll_search p.clk_in pp (u32 t) bf ≠ Flow.fault f) →
        clk_config_pll p pp t bf = Except.error Fault.bug_on_best_delta)) ∧
    (pp.max_M + 1 < U32 → pp.max_N + 2 < U32 →
      pll_search p.clk_in pp (u32 t) bf ≠ Flow.fault Fault.out_of_fuel) ∧
    (∀ {σ : Type} (g : gk20a σ) (freq old_freq : Nat) (e : Fault),
      clamp_target g.clk freq ≠ old_freq →
      clk_config_pll g.clk.gpc_pll gpc_pll_params (clamp_target g.clk freq) true =
        Except.error e →
      set_pll_target g freq old_freq = (Status.abort e, g)) := by
  have hflow := pll_search_flow p.clk_in pp (u32 t) bf hM
  have hsd : ∀ b, searched p.clk_in pp (u32 t) b → b.best_delta ≠ U32 - 1 := by
    intro b hb
    have := searched_delta _ _ _ _ hb
    unfold U32
    omega
  have hbest : ∀ b, search_best (pll_search p.clk_in pp (u32 t) bf) = some b →
      b = ⟨U32 - 1, pp.max_M, pp.min_N, pp.min_PL⟩ ∨ searched p.clk_in pp (u32 t) b := by
    intro b hb
    cases hs : pll_search p.clk_in pp (u32 t) bf with
    | next b1 =>
      rw [hs] at hb hflow
      simp only [search_best, Option.some.injEq] at hb
      rw [← hb]; exact hflow
    | found b1 =>
      rw [hs] at hb hflow
      simp only [search_best, Option.some.injEq] at hb
      rw [← hb]; exact Or.inr hflow
    | fault f => rw [hs] at hb; exact Option.noConfusion hb
  have hok : ∀ q f, clk_config_pll p pp t bf = Except.ok (q, f) →
      ∃ b, searched p.clk_in pp (u32 t) b ∧
        q.M = b.best_M ∧ q.N = b.best_N ∧ q.PL = b.best_PL := by
    intro q f hq
    cases hs : pll_search p.clk_in pp (u32 t) bf with
    | next b1 =>
      have hb : search_best (pll_search p.clk_in pp (u32 t) bf) = some b1 := by rw [hs]; rfl
      rw [clk_config_pll_of_best p pp t bf b1 hb] at hq
      have hfr := found_match_frame p b1 q f hq
      rcases hbest b1 hb with hi | hsr
      · have hbug := (found_match_bug p b1).mpr (by rw [hi])
        rw [hbug] at hq
        exact Except.noConfusion hq
      · exact ⟨b1, hsr, hfr.2.2.2.2.1, hfr.2.2.2.2.2.1, hfr.2.2.2.2.2.2⟩
    | found b1 =>
      have hb : search_best (pll_search p.clk_in pp (u32 t) bf) = some b1 := by rw [hs]; rfl
      rw [clk_config_pll_of_best p pp t bf b1 hb] at hq
      have hfr := found_match_frame p b1 q f hq
      rw [hs] at hflow
      exact ⟨b1, hflow, hfr.2.2.2.2.1, hfr.2.2.2.2.2.1, hfr.2.2.2.2.2.2⟩
    | fault f1 =>
      unfold clk_config_pll at hq
      rw [hs] at hq
      exact Except.noConfusion hq
  have hiff : clk_config_pll p pp t bf = Except.error Fault.bug_on_best_delta ↔
      pll_search p.clk_in pp (u32 t) bf =
        Flow.next ⟨U32 - 1, pp.max_M, pp.min_N, pp.min_PL⟩ := by
    cases hs : pll_search p.clk_in pp (u32 t) bf with
    | next b1 =>
      have hb : search_best (pll_search p.clk_in pp (u32 t) bf) = some b1 := by rw [hs]; rfl
      rw [clk_config_pll_of_best p pp t bf b1 hb, found_match_bug]
      constructor
      · intro hd
        rcases hbest b1 hb with hi | hsr
        · rw [hi]
        · exact absurd hd (hsd b1 hsr)
      · intro he
        simp only [Flow.next.injEq] at he
        rw [he]
    | found b1 =>
      have hb : search_best (pll_search p.clk_in pp (u32 t) bf) = some b1 := by rw [hs]; rfl
      rw [clk_config_pll_of_best p pp t bf b1 hb, found_match_bug]
      rw [hs] at hflow
      constructor
      · intro hd
        exact absurd hd (hsd b1 hflow)
      · intro he
        exact Flow.noConfusion he
    | fault f1 =>
      rw [hs] at hflow
      have hc : clk_config_pll p pp t bf = Except.error f1 := by
        unfold clk_config_pll
        rw [hs]
      rw [hc]
      constructor
      · intro he
        simp only [Except.error.injEq] at he
        rw [he] at hflow
        rcases hflow with h1 | h1 | h1 <;> exact Fault.noConfusion h1
      · intro he
        exact Flow.noConfusion he
  refine ⟨hiff, hbest, hok, ?_, ?_, ?_⟩
  · intro hnone
    constructor
    · cases hc : clk_config_pll p pp t bf with
      | error e => exact ⟨e, rfl⟩
      | ok r =>
        obtain ⟨b, hb, _⟩ := hok r.1 r.2 hc
        exact absurd hb (hnone b)
    · intro hnf
      rw [hiff]
      cases hs : pll_search p.clk_in pp (u32 t) bf with
      | next b1 =>
        have hb : search_best (pll_search p.clk_in pp (u32 t) bf) = some b1 := by rw [hs]; rfl
        rcases hbest b1 hb with hi | hsr
        · rw [hi]
        · exact absurd hsr (hnone b1)
      | found b1 =>
        rw [hs] at hflow
        exact absurd hflow (hnone b1)
      | fault f1 => exact absurd hs (hnf f1)
  · intro h1 h2
    exact pll_search_terminates _ _ _ _ h1 h2
  · intro σ g freq old_freq e hne hce
    unfold set_pll_target
    rw [if_pos hne, hce]

/-- Witness for C16 (amended): with a reference clock of 1 MHz no `M` of the
GPC bounds gives a `u` of at least `min_u = 12`, the search records nothing and
the call ends in the `BUG_ON`. -/
theorem clk_config_pll_unsatisfiable_witness :
    gpc_pll_params.max_M < U32 ∧
    pll_search 1 gpc_pll_params (u32 720) true =
      Flow.next ⟨U32 - 1, gpc_pll_params.max_M, gpc_pll_params.min_N, gpc_pll_params.min_PL⟩ ∧
    clk_config_pll { init_pll with clk_in := 1 } gpc_pll_params 720 true =
      Except.error Fault.bug_on_best_delta :=
  ⟨by decide, by decide!,
    (clk_config_pll_unsatisfiable { init_pll with clk_in := 1 } gpc_pll_params 720 true
      (by decide)).1.mpr (by decide!)⟩

/-! ## The steps of the rate controller -/

theorem clk_config_pll_consistent (p : pll) (pp : pll_parms) (t : Nat) (bf : Bool) (q : pll)
    (f : Nat) (h : clk_config_pll p pp t bf = Except.ok (q, f)) : pll_consistent q := by
  have key : ∀ b, found_match p b = Except.ok (q, f) → pll_consistent q := by
    intro b hb
    obtain ⟨d, hd, _, hf⟩ := found_match_freq p b q f hb
    obtain ⟨_, hin, _, _, hM, hN, hPL⟩ := found_match_frame p b q f hb
    exact ⟨d, by rw [hPL]; exact hd, by rw [hin, hM, hN]; exact hf⟩
  unfold clk_config_pll at h
  cases hs : pll_search p.clk_in pp (u32 t) bf with
  | next b => rw [hs] at h; exact key b h
  | found b => rw [hs] at h; exact key b h
  | fault e => rw [hs] at h; exact Except.noConfusion h

theorem set_pll_target_step {σ : Type} (g : gk20a σ) (freq old_freq : Nat) :
    (set_pll_target g freq old_freq).2.trace = g.trace ∧
    (set_pll_target g freq old_freq).2.power_on = g.power_on ∧
    (set_pll_target g freq old_freq).2.clk.gpc_pll.enabled = g.clk.gpc_pll.enabled ∧
    (pll_consistent g.clk.gpc_pll →
      pll_consistent (set_pll_target g freq old_freq).2.clk.gpc_pll) := by
  obtain ⟨f1, _, f3, _, _, _, _, f8⟩ := set_pll_target_frame g freq old_freq
  refine ⟨f1, f3, f8, ?_⟩
  intro hc
  unfold set_pll_target
  split_ifs with hne
  · cases hcfg : clk_config_pll g.clk.gpc_pll gpc_pll_params (clamp_target g.clk freq) true with
    | error e => exact hc
    | ok r => exact clk_config_pll_consistent _ _ _ _ r.1 r.2 hcfg
  · exact hc

theorem clk_program_gpc_pll_ok {σ : Type} (h : hw_trim) (io : RegIO σ) (g : gk20a σ)
    (hs : (clk_program_gpc_pll h io g).1 = Status.ret 0) :
    (clk_program_gpc_pll h io g).2.trace ≠ g.trace ∧
    (clk_program_gpc_pll h io g).2.power_on = g.power_on ∧
    (clk_program_gpc_pll h io g).2.clk =
      { g.clk with gpc_pll := { g.clk.gpc_pll with enabled := true } } ∧
    (coeff_reg_apart h →
      coeff_writes h (clk_program_gpc_pll h io g).2.trace =
        coeff_writes h g.trace ++ [coeff_of h g.clk.gpc_pll]) := by
  obtain ⟨hp, hc, hw⟩ := clk_program_gpc_pll_frame h io g
  have hclk : (clk_program_gpc_pll h io g).2.clk =
      { g.clk with gpc_pll := { g.clk.gpc_pll with enabled := true } } := by
    rcases hc with ⟨_, hc⟩ | ⟨hab, _⟩
    · exact hc
    · rw [hs] at hab; exact Status.noConfusion hab
  refine ⟨?_, hp, hclk, hw⟩
  obtain ⟨d1, c2, c3, c5, c6, vs, _, _, hcase⟩ := clk_program_gpc_pll_trace h io g
  intro heq
  have hlen := congrArg List.length heq
  rcases hcase with ⟨_, _, d7, ht⟩ | ⟨_, _, _, ht⟩
  · rw [ht] at hlen
    simp [steps_trace] at hlen
  · rw [ht] at hlen
    simp [steps_trace] at hlen

theorem set_pll_freq_cases {σ : Type} (h : hw_trim) (io : RegIO σ) (g : gk20a σ)
    (freq old_freq : Nat) :
    ((set_pll_freq h io g freq old_freq).2 = g ∧
      ((freq = old_freq ∧ g.clk.gpc_pll.enabled = true) ∨ g.power_on = false)) ∨
    (g.power_on = true ∧ set_pll_freq h io g freq old_freq = clk_program_gpc_pll h io g) := by
  unfold set_pll_freq
  split_ifs with h1 h2
  · exact Or.inl ⟨rfl, Or.inl h1⟩
  · exact Or.inr ⟨h2, rfl⟩
  · exact Or.inl ⟨rfl, Or.inr (by simpa using h2)⟩

theorem rate_step_program {σ : Type} (h : hw_trim) (io : RegIO σ) (g0 g : gk20a σ)
    (ht : g.trace = g0.trace) (hp0 : g.power_on = g0.power_on)
    (hc : pll_consistent g0.clk.gpc_pll → pll_consistent g.clk.gpc_pll)
    (hp : g.power_on = true) (hs : (clk_program_gpc_pll h io g).1 = Status.ret 0) :
    rate_step h g0 (clk_program_gpc_pll h io g).2 := by
  obtain ⟨k1, k2, k3, k4⟩ := clk_program_gpc_pll_ok h io g hs
  refine ⟨?_, Or.inr ⟨by rw [← ht]; exact k1, by rw [← hp0]; exact hp, by rw [k2]; exact hp,
    by rw [k3], ?_⟩⟩
  · intro hc0
    obtain ⟨d, hd, hf⟩ := hc hc0
    rw [k3]
    exact ⟨d, hd, hf⟩
  · intro ha
    rw [k4 ha, ht, k3]
    rfl

theorem rate_step_same {σ : Type} (h : hw_trim) (g0 g : gk20a σ)
    (ht : g.trace = g0.trace) (hp0 : g.power_on = g0.power_on)
    (hc : pll_consistent g0.clk.gpc_pll → pll_consistent g.clk.gpc_pll)
    (hen : g.clk.gpc_pll.enabled = true →
      g0.clk.gpc_pll.enabled = true ∧
      (g0.power_on = true → g.clk.gpc_pll.freq = g0.clk.gpc_pll.freq)) :
    rate_step h g0 g :=
  ⟨hc, Or.inl ⟨ht, hp0, hen⟩⟩

theorem set_pll_freq_step {σ : Type} (h : hw_trim) (io : RegIO σ) (g0 g : gk20a σ)
    (freq old_freq : Nat)
    (ht : g.trace = g0.trace) (hp0 : g.power_on = g0.power_on)
    (hc : pll_consistent g0.clk.gpc_pll → pll_consistent g.clk.gpc_pll)
    (hen : g.clk.gpc_pll.enabled = true → g0.clk.gpc_pll.enabled = true)
    (hfreq : freq = old_freq → g.clk.gpc_pll.freq = g0.clk.gpc_pll.freq)
    (hs : (set_pll_freq h io g freq old_freq).1 = Status.ret 0) :
    rate_step h g0 (set_pll_freq h io g freq old_freq).2 := by
  rcases set_pll_freq_cases h io g freq old_freq with ⟨e, hcase⟩ | ⟨hp, e⟩
  · rw [e]
    apply rate_step_same h g0 g ht hp0 hc
    intro he
    refine ⟨hen he, fun hpow => ?_⟩
    rcases hcase with ⟨hf, _⟩ | hoff
    · exact hfreq hf
    · rw [hp0, hpow] at hoff
      exact Bool.noConfusion hoff
  · rw [e] at hs ⊢
    exact rate_step_program h io g0 g ht hp0 hc hp hs

theorem gk20a_clk_export_set_rate_eq {σ : Type} (h : hw_trim) (io : RegIO σ) (g : gk20a σ)
    (r : Nat)
    (hT : (set_pll_target g (u32 (rate_gpu_to_gpc2clk r)) g.clk.gpc_pll.freq).1 = Status.ret 0) :
    ((set_pll_target g (u32 (rate_gpu_to_gpc2clk r)) g.clk.gpc_pll.freq).2.clk.gpc_pll.enabled =
        true →
      (gk20a_clk_export_set_rate h io g (some r)).status =
        (set_pll_freq h io (set_pll_target g (u32 (rate_gpu_to_gpc2clk r)) g.clk.gpc_pll.freq).2
          (set_pll_target g (u32 (rate_gpu_to_gpc2clk r))
            g.clk.gpc_pll.freq).2.clk.gpc_pll.freq g.clk.gpc_pll.freq).1 ∧
      (gk20a_clk_export_set_rate h io g (some r)).g =
        (set_pll_freq h io (set_pll_target g (u32 (rate_gpu_to_gpc2clk r)) g.clk.gpc_pll.freq).2
          (set_pll_target g (u32 (rate_gpu_to_gpc2clk r))
            g.clk.gpc_pll.freq).2.clk.gpc_pll.freq g.clk.gpc_pll.freq).2) ∧
    ((set_pll_target g (u32 (rate_gpu_to_gpc2clk r)) g.clk.gpc_pll.freq).2.clk.gpc_pll.enabled =
        false →
      (gk20a_clk_export_set_rate h io g (some r)).g =
        (set_pll_target g (u32 (rate_gpu_to_gpc2clk r)) g.clk.gpc_pll.freq).2) := by
  unfold gk20a_clk_export_set_rate
  simp only
  generalize set_pll_target g (u32 (rate_gpu_to_gpc2clk r)) g.clk.gpc_pll.freq = T at hT ⊢
  rw [if_pos hT]
  constructor
  · intro hen
    rw [if_pos hen]
    split_ifs <;> exact ⟨rfl, rfl⟩
  · intro hen
    have hne : ¬ T.2.clk.gpc_pll.enabled = true := by simp [hen]
    rw [if_neg hne, if_pos hT]

theorem gk20a_clk_export_set_rate_step {σ : Type} (h : hw_trim) (io : RegIO σ) (g : gk20a σ)
    (r : Nat) (hs : (gk20a_clk_export_set_rate h io g (some r)).status = Status.ret 0) :
    rate_step h g (gk20a_clk_export_set_rate h io g (some r)).g := by
  have hT := gk20a_clk_export_set_rate_target_ok h io g r hs
  obtain ⟨t1, t2, t3, t4⟩ := set_pll_target_step g (u32 (rate_gpu_to_gpc2clk r)) g.clk.gpc_pll.freq
  obtain ⟨e1, e2⟩ := gk20a_clk_export_set_rate_eq h io g r hT
  generalize set_pll_target g (u32 (rate_gpu_to_gpc2clk r)) g.clk.gpc_pll.freq = T
    at hT t1 t2 t3 t4 e1 e2
  cases hen : T.2.clk.gpc_pll.enabled with
  | true =>
    obtain ⟨e3, e4⟩ := e1 hen
    rw [e3] at hs
    rw [e4]
    exact set_pll_freq_step h io g T.2 _ _ t1 t2 t4 (fun _ => by rw [← t3]; exact hen)
      (fun hf => hf) hs
  | false =>
    rw [e2 hen]
    apply rate_step_same h g T.2 t1 t2 t4
    intro he
    rw [hen] at he
    exact Bool.noConfusion he

theorem gk20a_clk_export_enable_step {σ : Type} (h : hw_trim) (io : RegIO σ) (g : gk20a σ)
    (hs : (gk20a_clk_export_enable h io g).1 = Status.ret 0) :
    rate_step h g (gk20a_clk_export_enable h io g).2 := by
  unfold gk20a_clk_export_enable at hs ⊢
  exact set_pll_freq_step h io g g _ _ rfl rfl (fun hc => hc) (fun he => he) (fun _ => rfl) hs

theorem rate_step_of_eq {σ : Type} (h : hw_trim) (g0 g g1 : gk20a σ)
    (ht : g.trace = g0.trace) (hp : g.power_on = g0.power_on)
    (hc : g.clk.gpc_pll = g0.clk.gpc_pll) (hstep : rate_step h g g1) : rate_step h g0 g1 := by
  unfold rate_step at hstep ⊢
  rw [ht, hp, hc] at hstep
  exact hstep

theorem gk20a_clk_set_cap_step {σ : Type} (h : hw_trim) (io : RegIO σ) (g : gk20a σ)
    (rate : Nat) (hs : (gk20a_clk_set_cap h io g rate).1 = Status.ret 0) :
    rate_step h g (gk20a_clk_set_cap h io g rate).2 := by
  unfold gk20a_clk_set_cap at hs ⊢
  simp only at hs ⊢
  split_ifs at hs ⊢ with hle
  · exact rate_step_same h g _ rfl rfl (fun hc => hc) (fun he => ⟨he, fun _ => rfl⟩)
  · unfold gk20a_clk_set_rate at hs ⊢
    simp only at hs ⊢
    have key := gk20a_clk_export_set_rate_step h io
      { g with clk := { g.clk with cap_freq := u32 (rate_gpu_to_gpc2clk (clamp_cap rate)) } }
      (clamp_cap rate) hs
    generalize gk20a_clk_export_set_rate h io
      { g with clk := { g.clk with cap_freq := u32 (rate_gpu_to_gpc2clk (clamp_cap rate)) } }
      (some (clamp_cap rate)) = S at key ⊢
    exact rate_step_of_eq h g _ S.g rfl rfl rfl key

theorem gk20a_clk_set_cap_thermal_step {σ : Type} (h : hw_trim) (io : RegIO σ) (g : gk20a σ)
    (rate : Nat) (hs : (gk20a_clk_set_cap_thermal h io g rate).1 = Status.ret 0) :
    rate_step h g (gk20a_clk_set_cap_thermal h io g rate).2 := by
  unfold gk20a_clk_set_cap_thermal at hs ⊢
  simp only at hs ⊢
  split_ifs at hs ⊢ with hle
  · exact rate_step_same h g _ rfl rfl (fun hc => hc) (fun he => ⟨he, fun _ => rfl⟩)
  · unfold gk20a_clk_set_rate at hs ⊢
    simp only at hs ⊢
    have key := gk20a_clk_export_set_rate_step h io
      { g with clk := { g.clk with
          cap_freq_thermal := u32 (rate_gpu_to_gpc2clk (clamp_cap rate)) } }
      (clamp_cap rate) hs
    generalize gk20a_clk_export_set_rate h io
      { g with clk := { g.clk with
          cap_freq_thermal := u32 (rate_gpu_to_gpc2clk (clamp_cap rate)) } }
      (some (clamp_cap rate)) = S at key ⊢
    exact rate_step_of_eq h g _ S.g rfl rfl rfl key

theorem gk20a_clk_export_disable_step {σ : Type} (h : hw_trim) (io : RegIO σ) (g : gk20a σ) :
    (gk20a_clk_export_disable h io g).2.power_on = g.power_on ∧
    (pll_consistent g.clk.gpc_pll →
      pll_consistent (gk20a_clk_export_disable h io g).2.clk.gpc_pll) ∧
    (coeff_reg_apart h →
      coeff_writes h (gk20a_clk_export_disable h io g).2.trace = coeff_writes h g.trace) ∧
    ((gk20a_clk_export_disable h io g).2.clk.gpc_pll.enabled = true →
      g.clk.gpc_pll.enabled = true ∧ g.power_on = false) := by
  unfold gk20a_clk_export_disable
  split_ifs with hp
  · refine ⟨by simp [clk_disable_gpcpll, gk20a_writel, gk20a_readl], ?_, ?_, ?_⟩
    · rintro ⟨d, hd, hf⟩
      exact ⟨d, hd, hf⟩
    · intro ha
      simp [clk_disable_gpcpll, gk20a_writel, gk20a_readl, coeff_writes_append, coeff_writes,
        ha.2]
    · intro he
      simp [clk_disable_gpcpll] at he
  · exact ⟨rfl, fun hc => hc, fun _ => rfl, fun he => ⟨he, by simpa using hp⟩⟩

theorem rate_step_ghost {σ : Type} (h : hw_trim) (g g1 : gk20a σ) (hw : Option pll)
    (hstep : rate_step h g g1)
    (ih : pll_consistent g.clk.gpc_pll ∧ (∀ q, hw = some q → pll_consistent q) ∧
      (coeff_reg_apart h → (coeff_writes h g.trace).getLast? = hw.map (coeff_of h))) :
    pll_consistent g1.clk.gpc_pll ∧ (∀ q, programmed g g1 hw = some q → pll_consistent q) ∧
      (coeff_reg_apart h →
        (coeff_writes h g1.trace).getLast? = (programmed g g1 hw).map (coeff_of h)) := by
  unfold programmed
  rcases hstep with ⟨hc, ⟨ht, _, _⟩ | ⟨ht, _, _, _, hcw⟩⟩
  · rw [if_pos ht]
    exact ⟨hc ih.1, ih.2.1, fun ha => by rw [ht]; exact ih.2.2 ha⟩
  · rw [if_neg ht]
    refine ⟨hc ih.1, ?_, ?_⟩
    · intro q hq
      simp only [Option.some.injEq] at hq
      rw [← hq]
      exact hc ih.1
    · intro ha
      rw [hcw ha]
      simp

theorem rate_step_enabled {σ : Type} (h : hw_trim) (g g1 : gk20a σ) (hw : Option pll)
    (hstep : rate_step h g g1)
    (ih : g.clk.gpc_pll.enabled = true →
      g.power_on = true ∧ ∃ q, hw = some q ∧ g.clk.gpc_pll.freq = q.freq) :
    g1.clk.gpc_pll.enabled = true →
      g1.power_on = true ∧ ∃ q, programmed g g1 hw = some q ∧ g1.clk.gpc_pll.freq = q.freq := by
  intro he1
  unfold programmed
  rcases hstep with ⟨_, ⟨ht, hp, he⟩ | ⟨ht, _, hp1, _, _⟩⟩
  · rw [if_pos ht]
    obtain ⟨he0, hf⟩ := he he1
    obtain ⟨hpow, q, hq, hfq⟩ := ih he0
    exact ⟨by rw [hp]; exact hpow, q, hq, by rw [hf hpow]; exact hfq⟩
  · rw [if_neg ht]
    exact ⟨hp1, _, rfl, rfl⟩

/-- In every reachable state the frequency field is the frequency of the
coefficients, the recorded `struct pll` is one such, and its coefficients are
the last value written to the coefficient register. -/
theorem reachable_ghost {σ : Type} (h : hw_trim) (io : RegIO σ)
    (prog_ok off_ok : gk20a σ → Prop)
    (g : gk20a σ) (hw : Option pll) (hr : reachable h io prog_ok off_ok g hw) :
    pll_consistent g.clk.gpc_pll ∧ (∀ q, hw = some q → pll_consistent q) ∧
      (coeff_reg_apart h → (coeff_writes h g.trace).getLast? = hw.map (coeff_of h)) := by
  induction hr with
  | init g0 hen htr =>
    refine ⟨⟨1, rfl, ?_⟩, fun q hq => Option.noConfusion hq, fun _ => ?_⟩
    · simp [gk20a_clk_init_cap_freqs, gk20a_init_clk_setup_sw, u32, U32]
    · simp [gk20a_clk_init_cap_freqs, gk20a_init_clk_setup_sw, htr, coeff_writes]
  | program g hw hr hp hs ih =>
    obtain ⟨_, _, k3, k4⟩ := clk_program_gpc_pll_ok h io g hs
    refine ⟨?_, ?_, ?_⟩
    · obtain ⟨d, hd, hf⟩ := ih.1
      rw [k3]
      exact ⟨d, hd, hf⟩
    · intro q hq
      simp only [Option.some.injEq] at hq
      rw [← hq]
      exact ih.1
    · intro ha
      rw [k4 ha]
      simp
  | set_rate g hw rate hr hs ih =>
    exact rate_step_ghost h g _ hw (gk20a_clk_export_set_rate_step h io g rate hs) ih
  | enable g hw hr hs ih =>
    exact rate_step_ghost h g _ hw (gk20a_clk_export_enable_step h io g hs) ih
  | disable g hw hr ih =>
    obtain ⟨_, d2, d3, _⟩ := gk20a_clk_export_disable_step h io g
    exact ⟨d2 ih.1, ih.2.1, fun ha => by rw [d3 ha]; exact ih.2.2 ha⟩
  | set_cap g hw rate hr hs ih =>
    exact rate_step_ghost h g _ hw (gk20a_clk_set_cap_step h io g rate hs) ih
  | set_cap_thermal g hw rate hr hs ih =>
    exact rate_step_ghost h g _ hw (gk20a_clk_set_cap_thermal_step h io g rate hs) ih
  | power_on g hw hr ih => exact ih
  | power_off g hw hr hok ih => exact ih

/-! ## Claim C20: the frequency of an enabled PLL -/

set_option maxRecDepth 100000 in
/-- C20 (as stated, refuted): on the simulated device, initialization, enable,
power off and a rate request for 335 MHz lead to a state with `enabled` set
and a frequency of 672 MHz, while the coefficients last programmed, and last
written to the coefficient register, are those of 720 MHz: unpowered,
`set_pll_freq` skips the programming and `enabled` stays set.  The same state
of affairs is reached without ever turning the power off while `enabled` is
set: initialization, power off, the programming of `gk20a_init_clk_setup_hw`
(which sets `enabled` on the unpowered device) and the rate request. -/
theorem enabled_frequency_stale_after_power_off :
    (reachable sim_trim sim_io (fun s => s.power_on = true) (fun _ => True) stale_state
      (some { init_pll with enabled := true }) ∧
    stale_state.clk.gpc_pll.enabled = true ∧
    stale_state.clk.gpc_pll.freq = 672 ∧
    ({ init_pll with enabled := true } : pll).freq = 720 ∧
    (coeff_writes sim_trim stale_state.trace).getLast? =
      some (coeff_of sim_trim { init_pll with enabled := true })) ∧
    (reachable sim_trim sim_io (fun _ => True) (fun s => s.clk.gpc_pll.enabled = false)
      stale_state_unpowered (some init_pll) ∧
    stale_state_unpowered.clk.gpc_pll.enabled = true ∧
    stale_state_unpowered.power_on = false ∧
    stale_state_unpowered.clk.gpc_pll.freq = 672 ∧
    init_pll.freq = 720 ∧
    (coeff_writes sim_trim stale_state_unpowered.trace).getLast? =
      some (coeff_of sim_trim init_pll)) := by
  have r0 : reachable sim_trim sim_io (fun s => s.power_on = true) (fun _ => True)
      sim_init none := reachable.init _ rfl rfl
  have r1 := reachable.enable sim_init none r0 (by decide)
  have r2 := reachable.power_off _ _ r1 trivial
  have r3 := reachable.set_rate _ _ 335 r2 (by decide!)
  have e : programmed (set_power (gk20a_clk_export_enable sim_trim sim_io sim_init).2 false)
      (gk20a_clk_export_set_rate sim_trim sim_io
        (set_power (gk20a_clk_export_enable sim_trim sim_io sim_init).2 false) (some 335)).g
      (programmed sim_init (gk20a_clk_export_enable sim_trim sim_io sim_init).2 none) =
      some { init_pll with enabled := true } := by decide!
  rw [e] at r3
  have s0 : reachable sim_trim sim_io (fun _ => True)
      (fun s => s.clk.gpc_pll.enabled = false) sim_init none := reachable.init _ rfl rfl
  have s1 := reachable.power_off _ _ s0 (by decide)
  have s2 := reachable.program _ _ s1 trivial (by decide)
  have s3 := reachable.set_rate _ _ 335 s2 (by decide!)
  have e2 : programmed (clk_program_gpc_pll sim_trim sim_io (set_power sim_init false)).2
      (gk20a_clk_export_set_rate sim_trim sim_io
        (clk_program_gpc_pll sim_trim sim_io (set_power sim_init false)).2 (some 335)).g
      (some (set_power sim_init false).clk.gpc_pll) = some init_pll := by decide!
  rw [e2] at s3
  exact ⟨⟨r3, by decide!, by decide!, rfl, by decide!⟩,
    ⟨s3, by decide!, by decide!, by decide!, rfl, by decide!⟩⟩

/-- C20 (amended): in every state reachable from initialization through the
programming of `gk20a_init_clk_setup_hw`, set rate, enable, disable, the cap
setters and power transitions, where `gk20a_init_clk_setup_hw` is run only on a
powered device and the power is turned off only while the PLL is not enabled:
if `enabled` is set, the device is powered and the frequency of the state is
the frequency of the `struct pll` last programmed by a call of
`clk_program_gpc_pll` that returned 0.  The frequency fields are the
frequencies of their coefficients, and the coefficients of that `struct pll`
are the last value written to the coefficient register. -/
theorem enabled_frequency_invariant {σ : Type} (h : hw_trim) (io : RegIO σ) (g : gk20a σ)
    (hw : Option pll)
    (hr : reachable h io (fun s => s.power_on = true)
      (fun s => s.clk.gpc_pll.enabled = false) g hw) :
    (g.clk.gpc_pll.enabled = true →
      g.power_on = true ∧ ∃ q, hw = some q ∧ g.clk.gpc_pll.freq = q.freq) ∧
    pll_consistent g.clk.gpc_pll ∧ (∀ q, hw = some q → pll_consistent q) ∧
    (coeff_reg_apart h → (coeff_writes h g.trace).getLast? = hw.map (coeff_of h)) := by
  refine ⟨?_, reachable_ghost h io _ _ g hw hr⟩
  induction hr with
  | init g0 hen htr =>
    intro he
    simp [gk20a_clk_init_cap_freqs, gk20a_init_clk_setup_sw, hen] at he
  | program g hw hr hp hs ih =>
    obtain ⟨_, k2, k3, _⟩ := clk_program_gpc_pll_ok h io g hs
    have hpow : g.power_on = true := hp
    intro _
    exact ⟨by rw [k2]; exact hpow, g.clk.gpc_pll, rfl, by rw [k3]⟩
  | set_rate g hw rate hr hs ih =>
    exact rate_step_enabled h g _ hw (gk20a_clk_export_set_rate_step h io g rate hs) ih
  | enable g hw hr hs ih =>
    exact rate_step_enabled h g _ hw (gk20a_clk_export_enable_step h io g hs) ih
  | disable g hw hr ih =>
    obtain ⟨_, _, _, d4⟩ := gk20a_clk_export_disable_step h io g
    intro he
    obtain ⟨he0, hoff⟩ := d4 he
    have hpow := (ih he0).1
    rw [hoff] at hpow
    exact Bool.noConfusion hpow
  | set_cap g hw rate hr hs ih =>
    exact rate_step_enabled h g _ hw (gk20a_clk_set_cap_step h io g rate hs) ih
  | set_cap_thermal g hw rate hr hs ih =>
    exact rate_step_enabled h g _ hw (gk20a_clk_set_cap_thermal_step h io g rate hs) ih
  | power_on g hw hr ih =>
    intro he
    exact ⟨rfl, (ih he).2⟩
  | power_off g hw hr hok ih =>
    intro he
    have hen : g.clk.gpc_pll.enabled = true := he
    have hoff : g.clk.gpc_pll.enabled = false := hok
    rw [hoff] at hen
    exact Bool.noConfusion hen

set_option maxRecDepth 100000 in
/-- Witness for C20 (amended): the theorem at the simulated state after
initialization, the programming of `gk20a_init_clk_setup_hw` on the powered
device and a rate request for 335 MHz, where the PLL is enabled at the 672 MHz
that were programmed last. -/
theorem enabled_frequency_invariant_witness :
    reachable sim_trim sim_io (fun s => s.power_on = true)
      (fun s => s.clk.gpc_pll.enabled = false)
      (gk20a_clk_export_set_rate sim_trim sim_io
        (clk_program_gpc_pll sim_trim sim_io sim_init).2 (some 335)).g
      (programmed (clk_program_gpc_pll sim_trim sim_io sim_init).2
        (gk20a_clk_export_set_rate sim_trim sim_io
          (clk_program_gpc_pll sim_trim sim_io sim_init).2 (some 335)).g
        (some sim_init.clk.gpc_pll)) ∧
    (gk20a_clk_export_set_rate sim_trim sim_io
      (clk_program_gpc_pll sim_trim sim_io sim_init).2 (some 335)).g.clk.gpc_pll.enabled = true ∧
    (gk20a_clk_export_set_rate sim_trim sim_io
      (clk_program_gpc_pll sim_trim sim_io sim_init).2 (some 335)).g.clk.gpc_pll.freq = 672 ∧
    ((gk20a_clk_export_set_rate sim_trim sim_io
        (clk_program_gpc_pll sim_trim sim_io sim_init).2 (some 335)).g.clk.gpc_pll.enabled =
        true →
      (gk20a_clk_export_set_rate sim_trim sim_io
        (clk_program_gpc_pll sim_trim sim_io sim_init).2 (some 335)).g.power_on = true ∧
      ∃ q, programmed (clk_program_gpc_pll sim_trim sim_io sim_init).2
          (gk20a_clk_export_set_rate sim_trim sim_io
            (clk_program_gpc_pll sim_trim sim_io sim_init).2 (some 335)).g
          (some sim_init.clk.gpc_pll) = some q ∧
        (gk20a_clk_export_set_rate sim_trim sim_io
          (clk_program_gpc_pll sim_trim sim_io sim_init).2 (some 335)).g.clk.gpc_pll.freq =
          q.freq) :=
  ⟨reachable.set_rate _ _ 335
      (reachable.program sim_init none (reachable.init _ rfl rfl) (by decide) (by decide))
      (by decide!),
    by decide!, by decide!,
    (enabled_frequency_invariant sim_trim sim_io _ _
      (reachable.set_rate _ _ 335
        (reachable.program sim_init none (reachable.init _ rfl rfl) (by decide) (by decide))
        (by decide!))).1⟩

/-! ## Claim C21: the unit conversion -/

/-- C21: converting an internal rate to external units and back gives the rate
again when it is even (and one less when it is odd); the external rate is
`x / 2` rounded down, so twice it is at most `x` and more than `x - 2`.
`gk20a_clk_get_rate` reports the frequency of the state converted this way,
and so does a `gk20a_clk_export_set_rate` that returns 0. -/
theorem rate_round_trip (x : Nat) :
    (x % 2 = 0 → rate_gpu_to_gpc2clk (rate_gpc2clk_to_gpu x) = x) ∧
    (x % 2 = 1 → rate_gpu_to_gpc2clk (rate_gpc2clk_to_gpu x) = x - 1) ∧
    rate_gpc2clk_to_gpu x = x / 2 ∧
    2 * rate_gpc2clk_to_gpu x ≤ x ∧ x < 2 * rate_gpc2clk_to_gpu x + 2 ∧
    rate_gpc2clk_to_gpu (rate_gpu_to_gpc2clk x) = x ∧
    (∀ {σ : Type} (g : gk20a σ), gk20a_clk_get_rate g = g.clk.gpc_pll.freq / 2) ∧
    (∀ {σ : Type} (h : hw_trim) (io : RegIO σ) (g : gk20a σ) (r : Nat),
      (gk20a_clk_export_set_rate h io g (some r)).status = Status.ret 0 →
      (gk20a_clk_export_set_rate h io g (some r)).rate =
        some ((gk20a_clk_export_set_rate h io g (some r)).g.clk.gpc_pll.freq / 2)) := by
  refine ⟨?_, ?_, rfl, ?_, ?_, ?_, fun _ => rfl, ?_⟩
  · intro h; unfold rate_gpu_to_gpc2clk rate_gpc2clk_to_gpu; omega
  · intro h; unfold rate_gpu_to_gpc2clk rate_gpc2clk_to_gpu; omega
  · unfold rate_gpc2clk_to_gpu; omega
  · unfold rate_gpc2clk_to_gpu; omega
  · unfold rate_gpu_to_gpc2clk rate_gpc2clk_to_gpu; omega
  · intro σ h io g r hs
    unfold gk20a_clk_export_set_rate at hs ⊢
    simp only at hs ⊢
    generalize set_pll_target g (u32 (rate_gpu_to_gpc2clk r)) g.clk.gpc_pll.freq = T at hs ⊢
    generalize set_pll_freq h io T.2 T.2.clk.gpc_pll.freq g.clk.gpc_pll.freq = A at hs ⊢
    split_ifs at hs ⊢ <;> first | rfl | exact absurd hs ‹_›

/-- Witness for C21: the round trip at the even rate 720. -/
theorem rate_round_trip_witness :
    720 % 2 = 0 ∧ rate_gpu_to_gpc2clk (rate_gpc2clk_to_gpu 720) = 720 :=
  ⟨by decide, (rate_round_trip 720).1 (by decide)⟩

/-! ## Claim C25: the range of the caps -/

theorem gk20a_clk_set_cap_caps {σ : Type} (h : hw_trim) (io : RegIO σ) (g : gk20a σ)
    (rate : Nat) :
    (gk20a_clk_set_cap h io g rate).2.clk.cap_freq = 2 * clamp_cap rate ∧
    (gk20a_clk_set_cap h io g rate).2.clk.cap_freq_thermal = g.clk.cap_freq_thermal ∧
    (gk20a_clk_set_cap_thermal h io g rate).2.clk.cap_freq_thermal = 2 * clamp_cap rate ∧
    (gk20a_clk_set_cap_thermal h io g rate).2.clk.cap_freq = g.clk.cap_freq := by
  have e := (clamp_cap_eq rate).2
  have k1 := gk20a_clk_set_rate_caps h io
    { g with clk := { g.clk with cap_freq := u32 (rate_gpu_to_gpc2clk (clamp_cap rate)) } }
    (clamp_cap rate)
  have k2 := gk20a_clk_set_rate_caps h io
    { g with clk := { g.clk with
        cap_freq_thermal := u32 (rate_gpu_to_gpc2clk (clamp_cap rate)) } }
    (clamp_cap rate)
  unfold gk20a_clk_set_cap gk20a_clk_set_cap_thermal
  simp only
  generalize gk20a_clk_set_rate h io
    { g with clk := { g.clk with cap_freq := u32 (rate_gpu_to_gpc2clk (clamp_cap rate)) } }
    (clamp_cap rate) = S1 at k1 ⊢
  generalize gk20a_clk_set_rate h io
    { g with clk := { g.clk with
        cap_freq_thermal := u32 (rate_gpu_to_gpc2clk (clamp_cap rate)) } }
    (clamp_cap rate) = S2 at k2 ⊢
  refine ⟨?_, ?_, ?_, ?_⟩
  · split_ifs
    · exact e
    · rw [k1.1]; exact e
  · split_ifs
    · rfl
    · exact k1.2
  · split_ifs
    · exact e
    · rw [k2.2]; exact e
  · split_ifs
    · rfl
    · exact k2.1

theorem clamp_cap_range (rate : Nat) : 204 ≤ 2 * clamp_cap rate ∧ 2 * clamp_cap rate ≤ 1248 := by
  have := (clamp_cap_eq rate).1
  omega

theorem cap_calls_range {σ : Type} (h : hw_trim) (io : RegIO σ) (calls : List (Bool × Nat)) :
    ∀ g : gk20a σ,
      204 ≤ g.clk.cap_freq ∧ g.clk.cap_freq ≤ 1248 ∧
        204 ≤ g.clk.cap_freq_thermal ∧ g.clk.cap_freq_thermal ≤ 1248 →
      204 ≤ (cap_calls h io g calls).clk.cap_freq ∧
        (cap_calls h io g calls).clk.cap_freq ≤ 1248 ∧
        204 ≤ (cap_calls h io g calls).clk.cap_freq_thermal ∧
        (cap_calls h io g calls).clk.cap_freq_thermal ≤ 1248 := by
  induction calls with
  | nil => intro g hg; exact hg
  | cons c cs ih =>
    intro g hg
    obtain ⟨a1, a2, a3, a4⟩ := gk20a_clk_set_cap_caps h io g c.2
    have hr := clamp_cap_range c.2
    have step : ∀ r : Status × gk20a σ,
        r = (if c.1 = true then gk20a_clk_set_cap_thermal h io g c.2
             else gk20a_clk_set_cap h io g c.2) →
        204 ≤ r.2.clk.cap_freq ∧ r.2.clk.cap_freq ≤ 1248 ∧
          204 ≤ r.2.clk.cap_freq_thermal ∧ r.2.clk.cap_freq_thermal ≤ 1248 := by
      intro r hr2
      rw [hr2]
      split_ifs
      · rw [a3, a4]; omega
      · rw [a1, a2]; omega
    unfold cap_calls
    generalize (if c.1 = true then gk20a_clk_set_cap_thermal h io g c.2
      else gk20a_clk_set_cap h io g c.2) = r at step
    have hs := step r rfl
    obtain ⟨s, g1⟩ := r
    cases s with
    | ret code => exact ih g1 hs
    | abort f => exact hs

/-- C25: `gk20a_clk_init_cap_freqs` sets both caps to `max_freq = 1248`, and
after any sequence of calls of `gk20a_clk_set_cap` and
`gk20a_clk_set_cap_thermal`, with any arguments, made from there, both caps lie
within `[min_freq, max_freq] = [204, 1248]`; each call stores twice the rate
clamped to `[102, 624]` in its cap and leaves the other cap as it is. -/
theorem cap_freqs_in_range {σ : Type} (h : hw_trim) (io : RegIO σ) (g0 : gk20a σ)
    (calls : List (Bool × Nat)) :
    (gk20a_clk_init_cap_freqs g0).clk.cap_freq = gpc_pll_params.max_freq ∧
    (gk20a_clk_init_cap_freqs g0).clk.cap_freq_thermal = gpc_pll_params.max_freq ∧
    gpc_pll_params.min_freq = 204 ∧ gpc_pll_params.max_freq = 1248 ∧
    gpc_pll_params.min_freq ≤
      (cap_calls h io (gk20a_clk_init_cap_freqs g0) calls).clk.cap_freq ∧
    (cap_calls h io (gk20a_clk_init_cap_freqs g0) calls).clk.cap_freq ≤
      gpc_pll_params.max_freq ∧
    gpc_pll_params.min_freq ≤
      (cap_calls h io (gk20a_clk_init_cap_freqs g0) calls).clk.cap_freq_thermal ∧
    (cap_calls h io (gk20a_clk_init_cap_freqs g0) calls).clk.cap_freq_thermal ≤
      gpc_pll_params.max_freq ∧
    (∀ (g : gk20a σ) (rate : Nat),
      (gk20a_clk_set_cap h io g rate).2.clk.cap_freq = 2 * max 102 (min rate 624) ∧
      (gk20a_clk_set_cap h io g rate).2.clk.cap_freq_thermal = g.clk.cap_freq_thermal ∧
      (gk20a_clk_set_cap_thermal h io g rate).2.clk.cap_freq_thermal =
        2 * max 102 (min rate 624) ∧
      (gk20a_clk_set_cap_thermal h io g rate).2.clk.cap_freq = g.clk.cap_freq) := by
  have hr := cap_calls_range h io calls (gk20a_clk_init_cap_freqs g0)
    ⟨(by decide : (204 : Nat) ≤ 1248), (by decide : (1248 : Nat) ≤ 1248),
      (by decide : (204 : Nat) ≤ 1248), (by decide : (1248 : Nat) ≤ 1248)⟩
  refine ⟨rfl, rfl, rfl, rfl, hr.1, hr.2.1, hr.2.2.1, hr.2.2.2, ?_⟩
  intro g rate
  have := gk20a_clk_set_cap_caps h io g rate
  rw [(clamp_cap_eq rate).1] at this
  exact this

/-! ## Claim C26: the rounding of the output frequency -/

/-- The delta of a recorded candidate is the distance of `lwv_u32` from the
target. -/
theorem searched_lwv (ref : Nat) (pp : pll_parms) (t : Nat) (b : Best)
    (h : searched ref pp t b) :
    ∃ d, pl_to_div.get? b.best_PL = some d ∧
      b.best_delta = abs_diff (lwv_u32 (u32 (ref * b.best_N) / b.best_M) d) t := by
  obtain ⟨_, _, _, _, _, _, _, _, _, _, _, d, hd, he⟩ := h
  exact ⟨d, hd, he⟩

/-- C26 (as stated, refuted): for the VCO frequency `2 ^ 32 - 1` and the divider
factor 2 of the table, the sum `vco_f + 1` wraps to 0 in `u32` and the rounded
output is 0, while `vco_f / 2` is 2147483647: twice the distance of `lwv * d`
from `vco_f` is not at most `d`. -/
theorem lwv_u32_wraps :
    2 ∈ pl_to_div ∧ lwv_u32 4294967295 2 = 0 ∧ 4294967295 / 2 = 2147483647 ∧
    ¬ (2 * adist (lwv_u32 4294967295 2 * 2) 4294967295 ≤ 2) ∧
    ¬ (lwv_u32 4294967295 2 = 4294967295 / 2 + 1 ↔ 2 ≤ 2 * (4294967295 % 2)) := by
  decide

/-- C26 (amended): for every divider factor `d` of the table and every VCO
frequency for which `vco_f + d / 2` does not wrap, the rounded output
`lwv = (vco_f + d / 2) / d` is the integer nearest to `vco_f / d`, halves going
up: twice the distance of `lwv * d` from `vco_f` is at most `d`, `lwv` is the
quotient or the quotient plus one, the latter exactly when twice the remainder
is at least `d` (which for odd `d` is the same as more than `d`), no multiple
of `d` is nearer to `vco_f`, and of two multiples equally near, `lwv` is the
larger. -/
theorem lwv_u32_rounds_half_up (vco_f d : Nat) (hd : d ∈ pl_to_div)
    (hno : vco_f + d / 2 < U32) :
    2 * adist (lwv_u32 vco_f d * d) vco_f ≤ d ∧
    (lwv_u32 vco_f d = vco_f / d + 1 ↔ d ≤ 2 * (vco_f % d)) ∧
    (lwv_u32 vco_f d = vco_f / d ↔ 2 * (vco_f % d) < d) ∧
    (d % 2 = 1 → (d ≤ 2 * (vco_f % d) ↔ d < 2 * (vco_f % d))) ∧
    (∀ k, adist (lwv_u32 vco_f d * d) vco_f ≤ adist (k * d) vco_f) ∧
    (∀ k, adist (k * d) vco_f = adist (lwv_u32 vco_f d * d) vco_f → k ≤ lwv_u32 vco_f d) := by
  have e : lwv_u32 vco_f d = (vco_f + d / 2) / d := by
    unfold lwv_u32
    rw [u32_of_lt _ hno]
  rw [e]
  unfold adist
  simp only [pl_to_div, List.mem_cons, List.mem_singleton, List.not_mem_nil, or_false] at hd
  rcases hd with h | h | h | h | h | h | h | h | h | h | h | h | h | h | h <;> subst h <;>
    refine ⟨by omega, by omega, by omega, by omega, fun k => by omega, fun k => by omega⟩

/-- Witness for C26 (amended): the VCO frequency 1451 and the divider factor 2:
`1451 / 2 = 725.5` rounds up to 726. -/
theorem lwv_u32_rounds_half_up_witness :
    2 ∈ pl_to_div ∧ 1451 + 2 / 2 < U32 ∧ lwv_u32 1451 2 = 726 ∧
    2 * adist (lwv_u32 1451 2 * 2) 1451 ≤ 2 :=
  ⟨by decide, by decide, by decide,
    (lwv_u32_rounds_half_up 1451 2 (by decide) (by decide)).1⟩

/-! ## Claim C24: the window of divider indices -/

theorem pl_to_div_ge_index (i : Nat) (h : i < 14) : i ≤ pl_to_div.getD i 0 := by
  interval_cases i <;> decide

/-- The index loop yields the threshold itself or an index from the start of
the scan on. -/
theorem find_PL_ge (x : Nat) : ∀ fuel i, find_PL x fuel i = x ∨ i ≤ find_PL x fuel i := by
  intro fuel
  induction fuel with
  | zero => intro i; exact Or.inl rfl
  | succ fuel ih =>
    intro i
    unfold find_PL
    split_ifs
    · exact Or.inr (le_refl _)
    · rcases ih (i + 1) with h | h
      · exact Or.inl h
      · exact Or.inr (by omega)

/-- The index loop is monotone in the threshold, also where it finds no index. -/
theorem find_PL_mono (x y : Nat) (hxy : x ≤ y) :
    ∀ fuel i, i + fuel ≤ 14 → find_PL x fuel i ≤ find_PL y fuel i := by
  intro fuel
  induction fuel with
  | zero => intro i _; exact hxy
  | succ fuel ih =>
    intro i hi
    unfold find_PL
    have ht := pl_to_div_ge_index i (by omega)
    by_cases h1 : x ≤ pl_to_div.getD i 0
    · rw [if_pos h1]
      by_cases h2 : y ≤ pl_to_div.getD i 0
      · rw [if_pos h2]
      · rw [if_neg h2]
        rcases find_PL_ge y fuel (i + 1) with h | h
        · rw [h]; omega
        · omega
    · rw [if_neg h1, if_neg (by omega)]
      exact ih (i + 1) (by omega)

set_option maxRecDepth 100000 in
/-- C24 (as stated, refuted): with the bounds of the GPC PLL and a VCO range of
`[2 ^ 32 - 1, 2 ^ 32 - 1]`, the target 2 gives `low_PL = 32` and `high_PL = 0`:
the sum `max_vco_f + target_vco_f - 1` wraps to 0 in `u32`, so the upper factor
is clamped up to `min_PL = 1`, index 0, while the lower factor is clamped down
to `max_PL = 32`.  The loop over `pl` then runs no iteration and the call ends
in the `BUG_ON`. -/
theorem low_PL_above_high_PL :
    (1 : Nat) ≤ 2 ∧
    ({ gpc_pll_params with min_vco := 4294967295, max_vco := 4294967295 } : pll_parms).min_vco ≤
      ({ gpc_pll_params with min_vco := 4294967295, max_vco := 4294967295 } : pll_parms).max_vco ∧
    gpc_pll_params.min_PL ≤ gpc_pll_params.max_PL ∧
    low_PL { gpc_pll_params with min_vco := 4294967295, max_vco := 4294967295 } 2 = 32 ∧
    high_PL { gpc_pll_params with min_vco := 4294967295, max_vco := 4294967295 } 2 = 0 ∧
    clk_config_pll init_pll
        { gpc_pll_params with min_vco := 4294967295, max_vco := 4294967295 } 2 true =
      Except.error Fault.bug_on_best_delta := by
  decide!

/-- C24 (amended): for every target of at least 1 and every bounds with
`min_vco ≤ max_vco`, for which neither `target + target / 50` nor
`max_vco_f + target_vco_f - 1` wraps in `u32`, the loop bounds satisfy
`low_PL ≤ high_PL`, as `u32` values and, when `high_PL` is below `2 ^ 31`, as the
`int`s the loop compares.  (Whether `min_PL ≤ max_PL` does not matter.) -/
theorem low_PL_le_high_PL (pp : pll_parms) (t : Nat) (ht : 1 ≤ t)
    (hvco : pp.min_vco ≤ pp.max_vco) (h1 : t + t / 50 < U32)
    (h2 : vco_ceiling pp t + (t + t / 50) - 1 < U32) :
    low_PL pp t ≤ high_PL pp t ∧
    (high_PL pp t < 2147483648 → to_int (low_PL pp t) ≤ to_int (high_PL pp t)) := by
  have e1 : u32 (t + t / 50) = t + t / 50 := u32_of_lt _ h1
  have hc : pp.max_vco ≤ vco_ceiling pp t := by
    unfold vco_ceiling
    simp only
    split_ifs <;> omega
  have e2 : u32 (vco_ceiling pp t + (t + t / 50) - 1) = vco_ceiling pp t + (t + t / 50) - 1 :=
    u32_of_lt _ h2
  have hdiv : pp.min_vco / (t + t / 50) ≤ (vco_ceiling pp t + (t + t / 50) - 1) / (t + t / 50) :=
    Nat.div_le_div_right (by omega)
  have key : low_PL pp t ≤ high_PL pp t := by
    unfold low_PL high_PL
    simp only [e1, e2]
    exact find_PL_mono _ _ (by omega) 14 0 (by omega)
  refine ⟨key, fun hh => ?_⟩
  unfold to_int
  rw [if_pos hh, if_pos (by omega)]
  exact_mod_cast key

/-- Witness for C24 (amended): the bounds of the GPC PLL and the target 720,
where the window is the indices 0 to 2. -/
theorem low_PL_le_high_PL_witness :
    (1 : Nat) ≤ 720 ∧ gpc_pll_params.min_vco ≤ gpc_pll_params.max_vco ∧
    720 + 720 / 50 < U32 ∧ vco_ceiling gpc_pll_params 720 + (720 + 720 / 50) - 1 < U32 ∧
    low_PL gpc_pll_params 720 = 0 ∧ high_PL gpc_pll_params 720 = 2 ∧
    low_PL gpc_pll_params 720 ≤ high_PL gpc_pll_params 720 :=
  ⟨by decide, by decide, by decide, by decide, by decide, by decide,
    (low_PL_le_high_PL gpc_pll_params 720 (by decide) (by decide) (by decide) (by decide)).1⟩

/-! ## Claim C27: the solver on the legal frequency range -/

theorem find_PL_small (x : Nat) (hx : x ≤ 24) : find_PL x 14 0 < 14 := by
  interval_cases x <;> decide

/-- On the legal frequency range both loop bounds are indices of the table. -/
theorem window_shipped (t : Nat) (h1 : 204 ≤ t) (h2 : t ≤ 1248) :
    low_PL gpc_pll_params t < 14 ∧ high_PL gpc_pll_params t < 14 := by
  have e : u32 (t + t / 50) = t + t / 50 := u32_of_lt _ (by unfold U32; omega)
  have hc := vco_ceiling_shipped t (by omega)
  have e2 : u32 (2000 + (t + t / 50) - 1) = 2000 + (t + t / 50) - 1 :=
    u32_of_lt _ (by unfold U32; omega)
  have hh : (2000 + (t + t / 50) - 1) / (t + t / 50) < 11 :=
    (Nat.div_lt_iff_lt_mul (by omega)).mpr (by omega)
  have hl : 1000 / (t + t / 50) < 5 := (Nat.div_lt_iff_lt_mul (by omega)).mpr (by omega)
  constructor
  · unfold low_PL
    simp only [e]
    apply find_PL_small
    simp only [gpc_pll_params]
    omega
  · unfold high_PL
    simp only [e, hc, e2]
    apply find_PL_small
    simp only [gpc_pll_params]
    omega

/-- A recorded candidate of the GPC bounds passes `found_match`: its divider
index is in the table and `M * pl_to_div[PL]` is neither 0 nor wraps. -/
theorem found_match_of_searched (p : pll) (t : Nat) (b : Best) (hin : p.clk_in = 12)
    (hs : searched 12 gpc_pll_params t b) :
    found_match p b =
      Except.ok ({ p with M := b.best_M, N := b.best_N, PL := b.best_PL,
                          freq := pll_freq_of 12 b.best_M b.best_N b.best_PL },
                 pll_freq_of 12 b.best_M b.best_N b.best_PL) ∧
    1 ≤ b.best_M ∧ b.best_M ≤ 255 ∧ 8 ≤ b.best_N ∧ b.best_N ≤ 255 ∧ b.best_PL < 15 := by
  have hdel := searched_delta _ _ _ _ hs
  obtain ⟨m1, m2, m3, _, _, n1, n2, _, _, _, _, d, hd, _⟩ := hs
  simp only [gpc_pll_params] at m1 m2 n1 n2
  have hlt : b.best_PL < 15 := by
    by_contra hge
    have hnone : pl_to_div.get? b.best_PL = none :=
      List.get?_eq_none.mpr (by simp only [pl_to_div, List.length]; omega)
    rw [hnone] at hd
    exact Option.noConfusion hd
  have hg := pl_to_div_get b.best_PL hlt
  rw [hd] at hg
  simp only [Option.some.injEq] at hg
  have hpos := pl_to_div_pos b.best_PL hlt
  rw [← hg] at hpos
  have hmd : b.best_M * d ≤ 255 * 32 := Nat.mul_le_mul m2 hpos.2
  have hmd0 : 1 ≤ b.best_M * d := Nat.mul_pos (by omega) hpos.1
  have e1 : u32 (b.best_M * d) = b.best_M * d := u32_of_lt _ (by unfold U32; omega)
  have e2 : u32 (p.clk_in * b.best_N) = 12 * b.best_N := by
    rw [hin]; exact u32_of_lt _ (by unfold U32; omega)
  refine ⟨?_, by omega, m2, n1, n2, hlt⟩
  unfold found_match
  rw [if_neg (by unfold U32; omega), hd]
  simp only
  rw [if_neg (by rw [e1]; omega), e1, e2]
  unfold pll_freq_of
  rw [← hg]

/-- With the GPC bounds, a 12 MHz input clock and a target in `[204, 1248]` the
search reaches `found_match` with a recorded candidate, in either mode. -/
theorem pll_search_shipped (t : Nat) (bf : Bool) (h1 : 204 ≤ t) (h2 : t ≤ 1248) :
    ∃ b, search_best (pll_search 12 gpc_pll_params t bf) = some b ∧
      searched 12 gpc_pll_params t b := by
  have hflow : ∀ c, flow_ok
      (fun b => b = ⟨U32 - 1, gpc_pll_params.max_M, gpc_pll_params.min_N,
        gpc_pll_params.min_PL⟩ ∨ searched 12 gpc_pll_params t b)
      (searched 12 gpc_pll_params t) (pll_search 12 gpc_pll_params t c) :=
    fun c => pll_search_flow 12 gpc_pll_params t c (by decide)
  obtain ⟨b, hb, _, hlt, _⟩ := solver_spec t (by omega) (by omega)
  have htrue : ∃ b, search_best (pll_search 12 gpc_pll_params t true) = some b ∧
      searched 12 gpc_pll_params t b := by
    refine ⟨b, hb, ?_⟩
    have hf := hflow true
    cases hs : pll_search 12 gpc_pll_params t true with
    | next b1 =>
      rw [hs] at hb hf
      simp only [search_best, Option.some.injEq] at hb
      rcases hf with hi | hsr
      · rw [← hb, hi] at hlt
        exact absurd hlt (lt_irrefl _)
      · rw [← hb]; exact hsr
    | found b1 =>
      rw [hs] at hb hf
      simp only [search_best, Option.some.injEq] at hb
      rw [← hb]; exact hf
    | fault f => rw [hs] at hb; exact Option.noConfusion hb
  cases bf with
  | true => exact htrue
  | false =>
    rcases pll_search_false 12 gpc_pll_params t with he | ⟨b1, hf, _⟩
    · rw [he]; exact htrue
    · have hfl := hflow false
      rw [hf] at hfl ⊢
      exact ⟨b1, rfl, hfl⟩

/-- C27: with the GPC bounds, a 12 MHz input clock and the table `pl_to_div`,
for every target in `[204, 1248]` and either value of `best_fit`: the loop
bounds `low_PL` and `high_PL` are indices of the table, the search reaches
`found_match` without a fault (no read outside the table, no division by zero,
no loop without end) with a recorded candidate, whose `best_delta` is not `~0`,
and `clk_config_pll` returns: it ends in no fault and not in the `BUG_ON`. -/
theorem clk_config_pll_safe (p : pll) (t : Nat) (bf : Bool) (hin : p.clk_in = 12)
    (h1 : 204 ≤ t) (h2 : t ≤ 1248) :
    low_PL gpc_pll_params t < 15 ∧ high_PL gpc_pll_params t < 15 ∧
    (∃ b, search_best (pll_search p.clk_in gpc_pll_params (u32 t) bf) = some b ∧
      searched p.clk_in gpc_pll_params (u32 t) b ∧ b.best_delta < U32 - 1 ∧
      b.best_PL < 15 ∧ 1 ≤ b.best_M ∧
      clk_config_pll p gpc_pll_params t bf =
        Except.ok ({ p with M := b.best_M, N := b.best_N, PL := b.best_PL,
                            freq := pll_freq_of 12 b.best_M b.best_N b.best_PL },
                   pll_freq_of 12 b.best_M b.best_N b.best_PL)) ∧
    (∀ e, clk_config_pll p gpc_pll_params t bf ≠ Except.error e) := by
  have hw := window_shipped t h1 h2
  have hu : u32 t = t := u32_of_lt t (by unfold U32; omega)
  obtain ⟨b, hb, hs⟩ := pll_search_shipped t bf h1 h2
  obtain ⟨hfm, m1, _, _, _, hpl⟩ := found_match_of_searched p t b hin hs
  have hdel := searched_delta _ _ _ _ hs
  have hcfg := clk_config_pll_of_best p gpc_pll_params t bf b (by rw [hin, hu]; exact hb)
  rw [hfm] at hcfg
  refine ⟨by omega, by omega, ⟨b, by rw [hin, hu]; exact hb, by rw [hin, hu]; exact hs,
    by unfold U32; omega, hpl, m1, hcfg⟩, ?_⟩
  intro e he
  rw [hcfg] at he
  exact Except.noConfusion he

set_option maxRecDepth 100000 in
/-- Witness for C27: the theorem at the target 720 without best fit. -/
theorem clk_config_pll_safe_witness :
    init_pll.clk_in = 12 ∧ 204 ≤ 720 ∧ 720 ≤ 1248 ∧
    low_PL gpc_pll_params 720 < 15 ∧ high_PL gpc_pll_params 720 < 15 ∧
    ∀ e, clk_config_pll init_pll gpc_pll_params 720 false ≠ Except.error e :=
  ⟨rfl, by decide, by decide,
    (clk_config_pll_safe init_pll 720 false rfl (by decide) (by decide)).1,
    (clk_config_pll_safe init_pll 720 false rfl (by decide) (by decide)).2.1,
    (clk_config_pll_safe init_pll 720 false rfl (by decide) (by decide)).2.2.2⟩

/-! ## Claim C28: coefficients and frequency -/

theorem set_pll_target_keeps (P : pll → Prop)
    (hS : ∀ q t r, P q → clk_config_pll q gpc_pll_params t true = Except.ok r → P r.1)
    {σ : Type} (g : gk20a σ) (freq old_freq : Nat) (hg : P g.clk.gpc_pll) :
    P (set_pll_target g freq old_freq).2.clk.gpc_pll := by
  unfold set_pll_target
  split_ifs with hne
  · cases hcfg : clk_config_pll g.clk.gpc_pll gpc_pll_params (clamp_target g.clk freq) true with
    | error e => exact hg
    | ok r => exact hS _ _ r hg hcfg
  · exact hg

theorem clk_program_gpc_pll_keeps (P : pll → Prop)
    (hE : ∀ q e, P q → P { q with enabled := e })
    {σ : Type} (h : hw_trim) (io : RegIO σ) (g : gk20a σ) (hg : P g.clk.gpc_pll) :
    P (clk_program_gpc_pll h io g).2.clk.gpc_pll := by
  rcases (clk_program_gpc_pll_frame h io g).2.1 with ⟨_, hc⟩ | ⟨_, hc⟩
  · rw [hc]; exact hE _ true hg
  · rw [hc]; exact hg

theorem set_pll_freq_keeps (P : pll → Prop)
    (hE : ∀ q e, P q → P { q with enabled := e })
    {σ : Type} (h : hw_trim) (io : RegIO σ) (g : gk20a σ) (freq old_freq : Nat)
    (hg : P g.clk.gpc_pll) :
    P (set_pll_freq h io g freq old_freq).2.clk.gpc_pll := by
  unfold set_pll_freq
  split_ifs
  · exact hg
  · exact clk_program_gpc_pll_keeps P hE h io g hg
  · exact hg

theorem clk_disable_gpcpll_pll {σ : Type} (h : hw_trim) (io : RegIO σ) (g : gk20a σ) :
    (clk_disable_gpcpll h io g).2.clk.gpc_pll = { g.clk.gpc_pll with enabled := false } := by
  simp [clk_disable_gpcpll, gk20a_writel, gk20a_readl]

theorem gk20a_clk_export_disable_keeps (P : pll → Prop)
    (hE : ∀ q e, P q → P { q with enabled := e })
    {σ : Type} (h : hw_trim) (io : RegIO σ) (g : gk20a σ) (hg : P g.clk.gpc_pll) :
    P (gk20a_clk_export_disable h io g).2.clk.gpc_pll := by
  unfold gk20a_clk_export_disable
  split_ifs
  · rw [clk_disable_gpcpll_pll]; exact hE _ false hg
  · exact hg

theorem gk20a_clk_export_set_rate_keeps (P : pll → Prop)
    (hE : ∀ q e, P q → P { q with enabled := e })
    (hS : ∀ q t r, P q → clk_config_pll q gpc_pll_params t true = Except.ok r → P r.1)
    {σ : Type} (h : hw_trim) (io : RegIO σ) (g : gk20a σ) (r : Nat) (hg : P g.clk.gpc_pll) :
    P (gk20a_clk_export_set_rate h io g (some r)).g.clk.gpc_pll := by
  have hT := set_pll_target_keeps P hS g (u32 (rate_gpu_to_gpc2clk r)) g.clk.gpc_pll.freq hg
  unfold gk20a_clk_export_set_rate
  simp only
  generalize set_pll_target g (u32 (rate_gpu_to_gpc2clk r)) g.clk.gpc_pll.freq = T at hT ⊢
  have hA := set_pll_freq_keeps P hE h io T.2 T.2.clk.gpc_pll.freq g.clk.gpc_pll.freq hT
  generalize set_pll_freq h io T.2 T.2.clk.gpc_pll.freq g.clk.gpc_pll.freq = A at hA ⊢
  split_ifs <;> assumption

theorem gk20a_clk_set_cap_keeps (P : pll → Prop)
    (hE : ∀ q e, P q → P { q with enabled := e })
    (hS : ∀ q t r, P q → clk_config_pll q gpc_pll_params t true = Except.ok r → P r.1)
    {σ : Type} (h : hw_trim) (io : RegIO σ) (g : gk20a σ) (rate : Nat) (hg : P g.clk.gpc_pll) :
    P (gk20a_clk_set_cap h io g rate).2.clk.gpc_pll ∧
    P (gk20a_clk_set_cap_thermal h io g rate).2.clk.gpc_pll := by
  have k1 := gk20a_clk_export_set_rate_keeps P hE hS h io
    { g with clk := { g.clk with cap_freq := u32 (rate_gpu_to_gpc2clk (clamp_cap rate)) } }
    (clamp_cap rate) hg
  have k2 := gk20a_clk_export_set_rate_keeps P hE hS h io
    { g with clk := { g.clk with
        cap_freq_thermal := u32 (rate_gpu_to_gpc2clk (clamp_cap rate)) } }
    (clamp_cap rate) hg
  unfold gk20a_clk_set_cap gk20a_clk_set_cap_thermal gk20a_clk_set_rate
  simp only
  generalize gk20a_clk_export_set_rate h io
    { g with clk := { g.clk with cap_freq := u32 (rate_gpu_to_gpc2clk (clamp_cap rate)) } }
    (some (clamp_cap rate)) = S1 at k1 ⊢
  generalize gk20a_clk_export_set_rate h io
    { g with clk := { g.clk with
        cap_freq_thermal := u32 (rate_gpu_to_gpc2clk (clamp_cap rate)) } }
    (some (clamp_cap rate)) = S2 at k2 ⊢
  constructor <;> split_ifs <;> assumption

/-- What the solver returns for the GPC bounds and a 12 MHz input clock
satisfies `pll_inv`. -/
theorem clk_config_pll_inv (q : pll) (t : Nat) (r : pll × Nat) (hq : pll_inv q)
    (hr : clk_config_pll q gpc_pll_params t true = Except.ok r) : pll_inv r.1 := by
  have hin := hq.1
  have hflow := pll_search_flow q.clk_in gpc_pll_params (u32 t) true (by decide)
  have key : ∀ b, searched q.clk_in gpc_pll_params (u32 t) b →
      found_match q b = Except.ok r → pll_inv r.1 := by
    intro b hs hf
    rw [hin] at hs
    obtain ⟨hfm, m1, m2, _, n2, hpl⟩ := found_match_of_searched q (u32 t) b hin hs
    rw [hfm] at hf
    simp only [Except.ok.injEq] at hf
    rw [← hf]
    exact ⟨hin, m1, m2, n2, hpl, by simp only [hin]; rfl⟩
  have hinit : ∀ b : Best, b.best_delta = U32 - 1 → found_match q b ≠ Except.ok r := by
    intro b hb hf
    rw [(found_match_bug q b).mpr hb] at hf
    exact Except.noConfusion hf
  unfold clk_config_pll at hr
  cases hs : pll_search q.clk_in gpc_pll_params (u32 t) true with
  | next b =>
    rw [hs] at hr hflow
    rcases hflow with hi | hsr
    · exact absurd hr (hinit b (by rw [hi]))
    · exact key b hsr hr
  | found b =>
    rw [hs] at hr hflow
    exact key b hflow hr
  | fault e => rw [hs] at hr; exact Except.noConfusion hr

/-- C28: in every state reachable from the seed `M = 1`, `N = 60`, `PL = 0`,
720 MHz through `set_pll_target`, `set_pll_freq`, the programming sequence, set
rate, enable, disable, the cap setters and power transitions, the input clock
is 12 MHz, the coefficients lie in the GPC bounds, and the frequency field is
`clk_in * N / (M * pl_to_div[PL])` with truncating division.  The programming
sequence and the disable sequence leave `M`, `N`, `PL` and the frequency as they
are. -/
theorem seeded_freq_consistent {σ : Type} (h : hw_trim) (io : RegIO σ) (g : gk20a σ)
    (hr : seeded h io g) :
    g.clk.gpc_pll.clk_in = 12 ∧ 1 ≤ g.clk.gpc_pll.M ∧ g.clk.gpc_pll.M ≤ 255 ∧
    g.clk.gpc_pll.N ≤ 255 ∧ g.clk.gpc_pll.PL < 15 ∧
    g.clk.gpc_pll.freq =
      g.clk.gpc_pll.clk_in * g.clk.gpc_pll.N /
        (g.clk.gpc_pll.M * pl_to_div.getD g.clk.gpc_pll.PL 0) ∧
    (∀ s : gk20a σ,
      (clk_program_gpc_pll h io s).2.clk.gpc_pll.M = s.clk.gpc_pll.M ∧
      (clk_program_gpc_pll h io s).2.clk.gpc_pll.N = s.clk.gpc_pll.N ∧
      (clk_program_gpc_pll h io s).2.clk.gpc_pll.PL = s.clk.gpc_pll.PL ∧
      (clk_program_gpc_pll h io s).2.clk.gpc_pll.freq = s.clk.gpc_pll.freq ∧
      (clk_disable_gpcpll h io s).2.clk.gpc_pll.M = s.clk.gpc_pll.M ∧
      (clk_disable_gpcpll h io s).2.clk.gpc_pll.N = s.clk.gpc_pll.N ∧
      (clk_disable_gpcpll h io s).2.clk.gpc_pll.PL = s.clk.gpc_pll.PL ∧
      (clk_disable_gpcpll h io s).2.clk.gpc_pll.freq = s.clk.gpc_pll.freq) := by
  have hE : ∀ (q : pll) (e : Bool), pll_inv q → pll_inv { q with enabled := e } :=
    fun q e hq => hq
  have hS : ∀ q t r, pll_inv q → clk_config_pll q gpc_pll_params t true = Except.ok r →
      pll_inv r.1 := fun q t r hq hr => clk_config_pll_inv q t r hq hr
  have inv : pll_inv g.clk.gpc_pll := by
    induction hr with
    | seed g0 =>
      refine ⟨rfl, ?_, ?_, ?_, ?_, ?_⟩ <;>
        simp [gk20a_init_clk_setup_sw, pl_to_div]
    | init_caps g hr ih => exact ih
    | set_target g freq old_freq hr hs ih => exact set_pll_target_keeps pll_inv hS g _ _ ih
    | apply_freq g freq old_freq hr hs ih => exact set_pll_freq_keeps pll_inv hE h io g _ _ ih
    | program g hr hs ih => exact clk_program_gpc_pll_keeps pll_inv hE h io g ih
    | set_rate g rate hr hs ih =>
      exact gk20a_clk_export_set_rate_keeps pll_inv hE hS h io g rate ih
    | enable g hr hs ih =>
      unfold gk20a_clk_export_enable
      exact set_pll_freq_keeps pll_inv hE h io g _ _ ih
    | disable g hr ih => exact gk20a_clk_export_disable_keeps pll_inv hE h io g ih
    | set_cap g rate hr hs ih => exact (gk20a_clk_set_cap_keeps pll_inv hE hS h io g rate ih).1
    | set_cap_thermal g rate hr hs ih =>
      exact (gk20a_clk_set_cap_keeps pll_inv hE hS h io g rate ih).2
    | power g powered hr ih => exact ih
  obtain ⟨i1, i2, i3, i4, i5, i6⟩ := inv
  refine ⟨i1, i2, i3, i4, i5, i6, ?_⟩
  intro s
  have hd := clk_disable_gpcpll_pll h io s
  rcases (clk_program_gpc_pll_frame h io s).2.1 with ⟨_, hc⟩ | ⟨_, hc⟩ <;>
    rw [hc, hd] <;> exact ⟨rfl, rfl, rfl, rfl, rfl, rfl, rfl, rfl⟩

set_option maxRecDepth 100000 in
/-- Witness for C28: the theorem at the simulated state after the seed and a
rate request for 335 MHz, where the coefficients are `(1, 112, 1)` and the
frequency is `12 * 112 / (1 * 2) = 672`. -/
theorem seeded_freq_consistent_witness :
    seeded sim_trim sim_io
      (gk20a_clk_export_set_rate sim_trim sim_io sim_init (some 335)).g ∧
    (gk20a_clk_export_set_rate sim_trim sim_io sim_init (some 335)).g.clk.gpc_pll =
      { init_pll with M := 1, N := 112, PL := 1, freq := 672 } ∧
    (gk20a_clk_export_set_rate sim_trim sim_io sim_init (some 335)).g.clk.gpc_pll.freq =
      (gk20a_clk_export_set_rate sim_trim sim_io sim_init (some 335)).g.clk.gpc_pll.clk_in *
        (gk20a_clk_export_set_rate sim_trim sim_io sim_init (some 335)).g.clk.gpc_pll.N /
        ((gk20a_clk_export_set_rate sim_trim sim_io sim_init (some 335)).g.clk.gpc_pll.M *
          pl_to_div.getD
            (gk20a_clk_export_set_rate sim_trim sim_io sim_init (some 335)).g.clk.gpc_pll.PL 0) :=
  ⟨seeded.set_rate sim_init 335 (seeded.init_caps _ (seeded.seed _)) (by decide!), by decide!,
    (seeded_freq_consistent sim_trim sim_io _
      (seeded.set_rate sim_init 335 (seeded.init_caps _ (seeded.seed _))
        (by decide!))).2.2.2.2.2.1⟩

/-! ## The search as a scan over the candidates of its reference -/

theorem abs_diff_eq_adist (a b : Nat) (ha : a < 2147483648) (hb : b < 2147483648) :
    abs_diff a b = adist a b := by
  unfold abs_diff adist u32 U32
  simp only
  split_ifs <;> omega

theorem scan_append (xs ys : List Best) :
    ∀ b, scan b (xs ++ ys) =
      match scan b xs with
      | Flow.next b1 => scan b1 ys
      | r => r := by
  induction xs with
  | nil => intro b; rfl
  | cons c cs ih =>
    intro b
    simp only [List.cons_append, scan]
    split_ifs
    · rfl
    · exact ih c
    · exact ih b

theorem cand_ok_iff (pp : pll_parms) (ref minv maxv m n : Nat) :
    cand_ok pp ref minv maxv m n = true ↔
      pp.min_N ≤ n ∧ n ≤ pp.max_N ∧ minv ≤ ref * n / m ∧ ref * n / m ≤ maxv := by
  unfold cand_ok
  exact decide_eq_true_iff

theorem filter_above (pp : pll_parms) (ref minv maxv m n k : Nat) (h : pp.max_N < n) :
    (List.range' n k).filter (cand_ok pp ref minv maxv m) = [] := by
  apply List.filter_eq_nil_iff.mpr
  intro a ha
  have := (List.mem_range'_1.mp ha).1
  rw [cand_ok_iff]
  omega

/-- The loop over `n` is the scan over the candidates from `n` to `n2`. -/
theorem n_loop_scan (pp : pll_parms) (ref t minv maxv pl d m n2 : Nat) (hd : d ≤ 32)
    (hb1 : ref * pp.max_N + 16 < 2147483648) (ht : t < 2147483648) (hn2 : n2 + 1 < U32) :
    ∀ fuel n b, 1 ≤ fuel → n2 + 2 ≤ fuel + n →
      n_loop pp ref t minv maxv true pl d m n2 fuel n b =
        scan b (((List.range' n (n2 + 1 - n)).filter (cand_ok pp ref minv maxv m)).map
          (cand ref t pl d m)) := by
  intro fuel
  induction fuel with
  | zero => intro n b h; omega
  | succ fuel ih =>
    intro n b hf hm
    simp only [n_loop]
    by_cases h1 : n2 < n
    · rw [if_pos h1]
      have hz : n2 + 1 - n = 0 := by omega
      rw [hz]
      rfl
    · rw [if_neg h1]
      have hk : n2 + 1 - n = (n2 + 1 - (n + 1)) + 1 := by omega
      have e : u32 (n + 1) = n + 1 := u32_of_lt _ (by omega)
      have ih1 := ih (n + 1)
      rw [hk, List.range'_succ, e]
      by_cases h2 : n < pp.min_N
      · rw [if_pos h2, List.filter_cons_of_neg (by rw [cand_ok_iff]; omega)]
        exact ih1 b (by omega) (by omega)
      · rw [if_neg h2]
        by_cases h3 : pp.max_N < n
        · rw [if_pos h3, ← List.range'_succ, filter_above pp ref minv maxv m n _ h3]
          rfl
        · rw [if_neg h3]
          have hrn : ref * n ≤ ref * pp.max_N := Nat.mul_le_mul_left _ (by omega)
          have ev : u32 (ref * n) = ref * n := u32_of_lt _ (by unfold U32; omega)
          have hv : ref * n / m ≤ ref * n := Nat.div_le_self _ _
          have hd2 : d / 2 ≤ 16 := by omega
          have el : u32 (ref * n / m + d / 2) = ref * n / m + d / 2 :=
            u32_of_lt _ (by unfold U32; omega)
          have hl : (ref * n / m + d / 2) / d ≤ ref * n / m + d / 2 := Nat.div_le_self _ _
          have ea : abs_diff ((ref * n / m + d / 2) / d) t =
              adist ((ref * n / m + d / 2) / d) t :=
            abs_diff_eq_adist _ _ (by omega) ht
          rw [ev, el, ea]
          by_cases h4 : minv ≤ ref * n / m ∧ ref * n / m ≤ maxv
          · rw [if_pos h4,
              List.filter_cons_of_pos (by rw [cand_ok_iff]; exact ⟨by omega, by omega, h4⟩),
              List.map_cons]
            simp only [scan, cand, Bool.true_eq_false, false_and, or_false]
            rw [ih1 _ (by omega) (by omega), ih1 _ (by omega) (by omega)]
          · rw [if_neg h4, List.filter_cons_of_neg (by rw [cand_ok_iff]; tauto)]
            exact ih1 b (by omega) (by omega)

theorem cands_n_above (pp : pll_parms) (ref t minv maxv pl d m : Nat)
    (h : pp.max_N < t * d * m / ref) : cands_n pp ref t minv maxv pl d m = [] := by
  unfold cands_n
  rw [filter_above pp ref minv maxv m _ _ h]
  rfl

/-- The loop over `m` is the scan over the candidates of the dividers from `m`
to `max_M`: the two `break`s leave only dividers without a candidate. -/
theorem m_loop_scan (pp : pll_parms) (ref t minv maxv pl d : Nat) (hd : d ≤ 32)
    (ht1 : 1 ≤ t) (href : ref ≠ 0) (hov : t * 32 * (pp.max_M + 1) + ref < U32)
    (hb1 : ref * pp.max_N + 16 < 2147483648) :
    ∀ fuel m b, 1 ≤ fuel → pp.max_M + 2 ≤ fuel + m → 1 ≤ m →
      m_loop pp ref t minv maxv true pl d (u32 (t * d)) fuel m b =
        scan b ((List.range' m (pp.max_M + 1 - m)).flatMap
          (cands_at pp ref t minv maxv pl d)) := by
  have h32 : t * 32 ≤ t * 32 * (pp.max_M + 1) := Nat.le_mul_of_pos_right _ (by omega)
  have htd : t * d ≤ t * 32 := Nat.mul_le_mul_left _ hd
  have etd : u32 (t * d) = t * d := u32_of_lt _ (by omega)
  have ht : t < 2147483648 := by unfold U32 at hov; omega
  have hM : pp.max_M + 1 < U32 := by
    have : 1 * 32 * (pp.max_M + 1) ≤ t * 32 * (pp.max_M + 1) :=
      Nat.mul_le_mul_right _ (Nat.mul_le_mul_right _ ht1)
    omega
  rw [etd]
  intro fuel
  induction fuel with
  | zero => intro m b h; omega
  | succ fuel ih =>
    intro m b hf hm hm1
    simp only [m_loop]
    by_cases h1 : pp.max_M < m
    · rw [if_pos h1]
      have hz : pp.max_M + 1 - m = 0 := by omega
      rw [hz]
      rfl
    · rw [if_neg h1, if_neg (by omega)]
      have hk : pp.max_M + 1 - m = (pp.max_M + 1 - (m + 1)) + 1 := by omega
      have e : u32 (m + 1) = m + 1 := u32_of_lt _ (by omega)
      have ih1 := fun b1 => ih (m + 1) b1 (by omega) (by omega) (by omega)
      have htdm : t * d * m ≤ t * 32 * (pp.max_M + 1) :=
        Nat.mul_le_mul htd (by omega)
      rw [e]
      by_cases h3 : ref / m < pp.min_u
      · rw [if_pos h3]
        have hnil : (List.range' m (pp.max_M + 1 - m)).flatMap
            (cands_at pp ref t minv maxv pl d) = [] := by
          apply List.flatMap_eq_nil_iff.mpr
          intro m1 hm1
          have hge := (List.mem_range'_1.mp hm1).1
          have := Nat.div_le_div_left (a := ref) hge (by omega)
          unfold cands_at
          rw [if_neg (by omega)]
        rw [hnil]
        rfl
      · rw [if_neg h3, hk, List.range'_succ, List.flatMap_cons]
        by_cases h4 : pp.max_u < ref / m
        · rw [if_pos h4]
          have : cands_at pp ref t minv maxv pl d m = [] := by
            unfold cands_at
            rw [if_neg (by omega)]
          rw [this, List.nil_append]
          exact ih1 b
        · rw [if_neg h4, if_neg href]
          have e1 : u32 (t * d * m) = t * d * m := u32_of_lt _ (by omega)
          have e2 : u32 (t * d * m + (ref - 1)) = t * d * m + (ref - 1) :=
            u32_of_lt _ (by omega)
          rw [e1, e2]
          by_cases h6 : pp.max_N < t * d * m / ref
          · rw [if_pos h6, ← List.flatMap_cons, ← List.range'_succ]
            have hnil : (List.range' m (pp.max_M + 1 - (m + 1) + 1)).flatMap
                (cands_at pp ref t minv maxv pl d) = [] := by
              apply List.flatMap_eq_nil_iff.mpr
              intro m1 hm1
              have hge := (List.mem_range'_1.mp hm1).1
              have hmul : t * d * m ≤ t * d * m1 := Nat.mul_le_mul_left _ hge
              have := Nat.div_le_div_right (c := ref) hmul
              unfold cands_at
              split_ifs
              · exact cands_n_above pp ref t minv maxv pl d m1 (by omega)
              · rfl
            rw [hnil]
            rfl
          · rw [if_neg h6]
            have hle := n2_le (t * d * m) ref href
            rw [e2] at hle
            have hdiv : (t * d * m + (ref - 1)) / ref ≤ t * d * m + (ref - 1) :=
              Nat.div_le_self _ _
            have hn := n_loop_scan pp ref t minv maxv pl d m
              ((t * d * m + (ref - 1)) / ref) hd hb1 ht (by omega)
              (pp.max_N + 4) (t * d * m / ref) b (by omega) (by omega)
            have hc : cands_at pp ref t minv maxv pl d m =
                ((List.range' (t * d * m / ref)
                  ((t * d * m + (ref - 1)) / ref + 1 - t * d * m / ref)).filter
                  (cand_ok pp ref minv maxv m)).map (cand ref t pl d m) := by
              unfold cands_at cands_n
              rw [if_pos ⟨by omega, by omega⟩]
            rw [hn, hc, scan_append]
            cases scan b (((List.range' (t * d * m / ref)
                ((t * d * m + (ref - 1)) / ref + 1 - t * d * m / ref)).filter
                (cand_ok pp ref minv maxv m)).map (cand ref t pl d m)) with
            | next b1 => exact ih1 b1
            | found b1 => rfl
            | fault f => rfl

/-- The loop over `pl` is the scan over the candidates of the divider indices
from `pl` down to `lo`. -/
theorem pl_loop_scan (pp : pll_parms) (ref t minv maxv lo : Nat)
    (ht1 : 1 ≤ t) (href : ref ≠ 0) (hmin : 1 ≤ pp.min_M)
    (hov : t * 32 * (pp.max_M + 1) + ref < U32)
    (hb1 : ref * pp.max_N + 16 < 2147483648) :
    ∀ (k fuel : Nat) (pl : Int) (b : Best), pl + 1 = (lo : Int) + (k : Int) → lo + k ≤ 15 →
      k + 1 ≤ fuel →
      pl_loop pp ref t minv maxv true (lo : Int) fuel pl b =
        scan b ((List.range' lo k).reverse.flatMap (cands_pl pp ref t minv maxv)) := by
  intro k
  induction k with
  | zero =>
    intro fuel pl b hpl _ hf
    obtain ⟨f, rfl⟩ : ∃ f, fuel = f + 1 := ⟨fuel - 1, by omega⟩
    simp only [pl_loop]
    rw [if_pos (by omega)]
    rfl
  | succ k ih =>
    intro fuel pl b hpl hk hf
    obtain ⟨f, rfl⟩ : ∃ f, fuel = f + 1 := ⟨fuel - 1, by omega⟩
    have hnat : pl.toNat = lo + k := by omega
    have hget := pl_to_div_get (lo + k) (by omega)
    have hpos := pl_to_div_pos (lo + k) (by omega)
    simp only [pl_loop]
    rw [if_neg (by omega), if_neg (by omega), hnat, hget]
    simp only
    have hm := m_loop_scan pp ref t minv maxv (lo + k) (pl_to_div.getD (lo + k) 0) hpos.2
      ht1 href hov hb1 (pp.max_M + 2) pp.min_M b (by omega) (by omega) hmin
    have hr : (List.range' lo (k + 1)).reverse = (lo + k) :: (List.range' lo k).reverse := by
      rw [List.range'_concat, List.reverse_append]
      simp
    rw [hm, hr, List.flatMap_cons, scan_append]
    have hc : cands_pl pp ref t minv maxv (lo + k) =
        (List.range' pp.min_M (pp.max_M + 1 - pp.min_M)).flatMap
          (cands_at pp ref t minv maxv (lo + k) (pl_to_div.getD (lo + k) 0)) := rfl
    rw [hc]
    cases scan b ((List.range' pp.min_M (pp.max_M + 1 - pp.min_M)).flatMap
        (cands_at pp ref t minv maxv (lo + k) (pl_to_div.getD (lo + k) 0))) with
    | next b1 => exact ih f (pl - 1) b1 (by omega) (by omega) (by omega)
    | found b1 => rfl
    | fault e => rfl

/-- Without `u32` wrap-around and with both loop bounds in the table, the
best-fit search is the scan over the candidates of the exhaustive reference. -/
theorem pll_search_scan (ref : Nat) (pp : pll_parms) (t : Nat)
    (ht1 : 1 ≤ t) (href : ref ≠ 0) (hmin : 1 ≤ pp.min_M)
    (hov : t * 32 * (pp.max_M + 1) + ref < U32)
    (hb1 : ref * pp.max_N + 16 < 2147483648)
    (hhi : high_PL pp t < 15) (hlo : low_PL pp t < 2147483648) :
    pll_search ref pp t true =
      scan ⟨U32 - 1, pp.max_M, pp.min_N, pp.min_PL⟩ (reference_candidates ref pp t) := by
  have h32 : t * 32 ≤ t * 32 * (pp.max_M + 1) := Nat.le_mul_of_pos_right _ (by omega)
  have e : u32 (t + t / 50) = t + t / 50 := u32_of_lt _ (by omega)
  have elo : to_int (low_PL pp t) = (low_PL pp t : Int) := by
    unfold to_int
    rw [if_pos hlo]
  have ehi : to_int (high_PL pp t) = (high_PL pp t : Int) := by
    unfold to_int
    rw [if_pos (by omega)]
  unfold pll_search reference_candidates
  rw [if_neg (by rw [e]; omega), elo, ehi]
  by_cases hle : low_PL pp t ≤ high_PL pp t
  · exact pl_loop_scan pp ref t _ _ (low_PL pp t) ht1 href hmin hov hb1
      (high_PL pp t + 1 - low_PL pp t) 17 _ _ (by omega) (by omega) (by omega)
  · have hz : high_PL pp t + 1 - low_PL pp t = 0 := by omega
    rw [hz]
    simp only [pl_loop]
    rw [if_pos (by omega)]
    rfl

/-- What the scan yields: nothing is recorded when no candidate is below the
running best; otherwise the candidate recorded last is the first of the list
that attains the least delta. -/
theorem scan_spec (cs : List Best) :
    ∀ b, (scan b cs = Flow.next b ∧ ∀ c ∈ cs, b.best_delta ≤ c.best_delta) ∨
      ∃ pre r post, cs = pre ++ r :: post ∧ r.best_delta < b.best_delta ∧
        (∀ c ∈ pre, r.best_delta < c.best_delta) ∧
        (∀ c ∈ post, r.best_delta ≤ c.best_delta) ∧
        scan b cs = if r.best_delta = 0 then Flow.found r else Flow.next r := by
  induction cs with
  | nil => intro b; exact Or.inl ⟨rfl, fun c hc => by simp at hc⟩
  | cons c cs ih =>
    intro b
    simp only [scan]
    by_cases h1 : c.best_delta < b.best_delta
    · rw [if_pos h1]
      by_cases h0 : c.best_delta = 0
      · rw [if_pos h0]
        refine Or.inr ⟨[], c, cs, rfl, h1, fun x hx => by simp at hx, fun x _ => by omega, ?_⟩
        rw [if_pos h0]
      · rw [if_neg h0]
        rcases ih c with ⟨hs, hall⟩ | ⟨pre, r, post, hcs, hlt, hpre, hpost, hs⟩
        · refine Or.inr ⟨[], c, cs, rfl, h1, fun x hx => by simp at hx, hall, ?_⟩
          rw [if_neg h0, hs]
        · refine Or.inr ⟨c :: pre, r, post, by rw [hcs]; rfl, by omega, ?_, hpost, hs⟩
          intro x hx
          rcases List.mem_cons.mp hx with hx | hx
          · rw [hx]; exact hlt
          · exact hpre x hx
    · rw [if_neg h1]
      rcases ih b with ⟨hs, hall⟩ | ⟨pre, r, post, hcs, hlt, hpre, hpost, hs⟩
      · refine Or.inl ⟨hs, ?_⟩
        intro x hx
        rcases List.mem_cons.mp hx with hx | hx
        · rw [hx]; omega
        · exact hall x hx
      · refine Or.inr ⟨c :: pre, r, post, by rw [hcs]; rfl, hlt, ?_, hpost, hs⟩
        intro x hx
        rcases List.mem_cons.mp hx with hx | hx
        · rw [hx]; omega
        · exact hpre x hx

/-- The first record attaining the least delta, found by its place in the
list. -/
theorem first_min_of_split (pre post : List Best) (r : Best)
    (hpre : ∀ c ∈ pre, r.best_delta < c.best_delta)
    (hpost : ∀ c ∈ post, r.best_delta ≤ c.best_delta) :
    first_min (pre ++ r :: post) = some r := by
  unfold first_min
  have hr : r ∈ pre ++ r :: post := by simp
  have hmin : ∀ c ∈ pre ++ r :: post, r.best_delta ≤ c.best_delta := by
    intro c hc
    rcases List.mem_append.mp hc with h | h
    · exact le_of_lt (hpre c h)
    · rcases List.mem_cons.mp h with h | h
      · rw [h]
      · exact hpost c h
  rw [List.find?_append]
  have h1 : List.find?
      (fun c => (pre ++ r :: post).all fun c1 => decide (c.best_delta ≤ c1.best_delta)) pre =
      none := by
    apply List.find?_eq_none.mpr
    intro x hx hall
    have := List.all_eq_true.mp hall r hr
    have hlt := hpre x hx
    simp only [decide_eq_true_eq] at this
    omega
  rw [h1, List.find?_cons_of_pos]
  · rfl
  · apply List.all_eq_true.mpr
    intro x hx
    simp only [decide_eq_true_eq]
    exact hmin x hx

theorem first_min_nil : first_min [] = none := rfl

/-- The scan from a running best above every candidate ends with the first
candidate attaining the least delta, by the jump if that delta is 0. -/
theorem scan_first_min (cs : List Best) (b : Best)
    (hall : ∀ c ∈ cs, c.best_delta < b.best_delta) :
    scan b cs =
      match first_min cs with
      | none => Flow.next b
      | some r => if r.best_delta = 0 then Flow.found r else Flow.next r := by
  rcases scan_spec cs b with ⟨hs, hge⟩ | ⟨pre, r, post, hcs, _, hpre, hpost, hs⟩
  · cases cs with
    | nil => rfl
    | cons c cs =>
      have h1 := hall c (by simp)
      have h2 := hge c (by simp)
      omega
  · rw [hs, hcs, first_min_of_split pre post r hpre hpost]

/-- The candidates of the reference are exactly the records of the triples
the claim lists: `pl` in the window, `m` in its range with `u` in its range,
`n` between the floor and the ceiling of `t * d * m / ref` and in its range,
and the VCO frequency in its range. -/
theorem mem_reference_candidates (ref : Nat) (pp : pll_parms) (t : Nat) (b : Best) :
    b ∈ reference_candidates ref pp t ↔
      ∃ pl m n, low_PL pp t ≤ pl ∧ pl ≤ high_PL pp t ∧
        pp.min_M ≤ m ∧ m ≤ pp.max_M ∧ pp.min_u ≤ ref / m ∧ ref / m ≤ pp.max_u ∧
        t * pl_to_div.getD pl 0 * m / ref ≤ n ∧
        n ≤ (t * pl_to_div.getD pl 0 * m + (ref - 1)) / ref ∧
        pp.min_N ≤ n ∧ n ≤ pp.max_N ∧
        pp.min_vco ≤ ref * n / m ∧ ref * n / m ≤ vco_ceiling pp t ∧
        b = cand ref t pl (pl_to_div.getD pl 0) m n := by
  unfold reference_candidates cands_pl
  simp only [List.mem_flatMap, List.mem_reverse, List.mem_range'_1]
  constructor
  · rintro ⟨pl, ⟨hp1, hp2⟩, m, ⟨hm1, hm2⟩, hb⟩
    unfold cands_at at hb
    split_ifs at hb with hu
    · unfold cands_n at hb
      simp only [List.mem_map, List.mem_filter, List.mem_range'_1, cand_ok_iff] at hb
      obtain ⟨n, ⟨⟨hn1, hn2⟩, hn3, hn4, hn5, hn6⟩, rfl⟩ := hb
      exact ⟨pl, m, n, hp1, by omega, hm1, by omega, hu.1, hu.2, hn1, by omega, hn3, hn4,
        hn5, hn6, rfl⟩
    · simp at hb
  · rintro ⟨pl, m, n, hp1, hp2, hm1, hm2, hu1, hu2, hn1, hn2, hn3, hn4, hn5, hn6, rfl⟩
    refine ⟨pl, ⟨hp1, by omega⟩, m, ⟨hm1, by omega⟩, ?_⟩
    unfold cands_at
    rw [if_pos ⟨hu1, hu2⟩]
    unfold cands_n
    simp only [List.mem_map, List.mem_filter, List.mem_range'_1, cand_ok_iff]
    exact ⟨n, ⟨⟨hn1, by omega⟩, hn3, hn4, hn5, hn6⟩, rfl⟩

theorem adist_lt (a b c : Nat) (ha : a < c) (hb : b < c) : adist a b < c := by
  unfold adist
  omega

/-- A candidate of the reference passes `found_match`. -/
theorem found_match_of_candidate (p : pll) (pp : pll_parms) (t : Nat) (b : Best)
    (ht1 : 1 ≤ t) (hmin : 1 ≤ pp.min_M)
    (hov : t * 32 * (pp.max_M + 1) + p.clk_in < U32)
    (hb1 : p.clk_in * pp.max_N + 16 < 2147483648)
    (hhi : high_PL pp t < 15)
    (hb : b ∈ reference_candidates p.clk_in pp t) :
    b.best_delta < 2147483648 ∧
    found_match p b =
      Except.ok ({ p with M := b.best_M, N := b.best_N, PL := b.best_PL,
                          freq := pll_freq_of p.clk_in b.best_M b.best_N b.best_PL },
                 pll_freq_of p.clk_in b.best_M b.best_N b.best_PL) := by
  obtain ⟨pl, m, n, _, hp2, hm1, hm2, _, _, _, _, _, hn4, _, _, rfl⟩ :=
    (mem_reference_candidates _ _ _ _).mp hb
  have hpos := pl_to_div_pos pl (by omega)
  have hget := pl_to_div_get pl (by omega)
  have ht : t < 2147483648 := by
    have : t * 32 ≤ t * 32 * (pp.max_M + 1) := Nat.le_mul_of_pos_right _ (by omega)
    unfold U32 at hov
    omega
  have hrn : p.clk_in * n ≤ p.clk_in * pp.max_N := Nat.mul_le_mul_left _ hn4
  have hv : p.clk_in * n / m ≤ p.clk_in * n := Nat.div_le_self _ _
  have hl : (p.clk_in * n / m + pl_to_div.getD pl 0 / 2) / pl_to_div.getD pl 0 ≤
      p.clk_in * n / m + pl_to_div.getD pl 0 / 2 := Nat.div_le_self _ _
  have hdel : (cand p.clk_in t pl (pl_to_div.getD pl 0) m n).best_delta < 2147483648 :=
    adist_lt _ _ _ (by omega) ht
  have hmd : m * pl_to_div.getD pl 0 ≤ (pp.max_M + 1) * 32 :=
    Nat.mul_le_mul (by omega) hpos.2
  have hmd0 : 1 ≤ m * pl_to_div.getD pl 0 := Nat.mul_pos (by omega) hpos.1
  have hmx : 1 * 32 * (pp.max_M + 1) ≤ t * 32 * (pp.max_M + 1) :=
    Nat.mul_le_mul_right _ (Nat.mul_le_mul_right _ ht1)
  have e1 : u32 (m * pl_to_div.getD pl 0) = m * pl_to_div.getD pl 0 :=
    u32_of_lt _ (by omega)
  have e2 : u32 (p.clk_in * n) = p.clk_in * n := u32_of_lt _ (by unfold U32; omega)
  refine ⟨hdel, ?_⟩
  unfold found_match
  rw [if_neg (by unfold U32; omega)]
  simp only [cand, hget]
  rw [if_neg (by rw [e1]; omega), e1, e2]
  rfl

/-- The best-fit solver against the exhaustive reference, for inputs without
`u32` wrap-around whose loop bounds lie in the table. -/
theorem clk_config_pll_reference (p : pll) (pp : pll_parms) (t : Nat)
    (ht1 : 1 ≤ t) (href : p.clk_in ≠ 0) (hmin : 1 ≤ pp.min_M)
    (hov : t * 32 * (pp.max_M + 1) + p.clk_in < U32)
    (hb1 : p.clk_in * pp.max_N + 16 < 2147483648)
    (hhi : high_PL pp t < 15) (hlo : low_PL pp t < 2147483648) :
    (reference_candidates p.clk_in pp t = [] ∧ reference_search p.clk_in pp t = none ∧
      clk_config_pll p pp t true = Except.error Fault.bug_on_best_delta) ∨
    ∃ pre r post, reference_candidates p.clk_in pp t = pre ++ r :: post ∧
      (∀ c ∈ pre, r.best_delta < c.best_delta) ∧
      (∀ c ∈ post, r.best_delta ≤ c.best_delta) ∧
      reference_search p.clk_in pp t = some r ∧
      clk_config_pll p pp t true =
        Except.ok ({ p with M := r.best_M, N := r.best_N, PL := r.best_PL,
                            freq := pll_freq_of p.clk_in r.best_M r.best_N r.best_PL },
                   pll_freq_of p.clk_in r.best_M r.best_N r.best_PL) := by
  have h32 : t * 32 ≤ t * 32 * (pp.max_M + 1) := Nat.le_mul_of_pos_right _ (by omega)
  have hu : u32 t = t := u32_of_lt _ (by omega)
  have hs := pll_search_scan p.clk_in pp t ht1 href hmin hov hb1 hhi hlo
  have hcfg : ∀ r, r ∈ reference_candidates p.clk_in pp t → _ :=
    fun r hr => found_match_of_candidate p pp t r ht1 hmin hov hb1 hhi hr
  unfold clk_config_pll
  rw [hu, hs]
  rcases scan_spec (reference_candidates p.clk_in pp t)
      ⟨U32 - 1, pp.max_M, pp.min_N, pp.min_PL⟩ with
    ⟨hsc, hge⟩ | ⟨pre, r, post, hcs, _, hpre, hpost, hsc⟩
  · left
    have hnil : reference_candidates p.clk_in pp t = [] := by
      cases hc : reference_candidates p.clk_in pp t with
      | nil => rfl
      | cons c cs =>
        have h1 := (hcfg c (by rw [hc]; simp)).1
        have h2 := hge c (by rw [hc]; simp)
        simp only [U32] at h2
        omega
    refine ⟨hnil, by unfold reference_search; rw [hnil]; rfl, ?_⟩
    rw [hsc]
    exact (found_match_bug p _).mpr rfl
  · right
    have hr : r ∈ reference_candidates p.clk_in pp t := by rw [hcs]; simp
    refine ⟨pre, r, post, hcs, hpre, hpost, ?_, ?_⟩
    · unfold reference_search
      rw [hcs]
      exact first_min_of_split pre post r hpre hpost
    · rw [hsc]
      split_ifs <;> exact (hcfg r hr).2

/-! ## Claim C23: the search against its exhaustive reference -/

set_option maxRecDepth 100000 in
/-- C23 (as stated, refuted): with the GPC bounds, a 12 MHz reference clock and
the target 80 no product or sum of the search wraps, and the exhaustive
reference yields the triple `(1, 160, 13)` with delta 0; but the loop bound
`high_PL` is 25, not an index of the table, and `clk_config_pll` ends in the
read of `pl_to_div[25]` instead of returning that triple.  With the target 4000
nothing wraps either and the window is the single index 0, but it holds no
candidate (`n` would be 333, above `max_N`): there is no triple to return and
the call ends in the `BUG_ON`. -/
theorem clk_config_pll_faults_where_reference_returns :
    ((1 ≤ 80 ∧ init_pll.clk_in ≠ 0 ∧ 1 ≤ gpc_pll_params.min_M ∧
      80 * 32 * (gpc_pll_params.max_M + 1) + init_pll.clk_in < U32 ∧
      init_pll.clk_in * gpc_pll_params.max_N + 16 < 2147483648) ∧
    low_PL gpc_pll_params 80 = 8 ∧ high_PL gpc_pll_params 80 = 25 ∧
    reference_search init_pll.clk_in gpc_pll_params 80 = some ⟨0, 1, 160, 13⟩ ∧
    clk_config_pll init_pll gpc_pll_params 80 true = Except.error Fault.out_of_bounds) ∧
    (4000 * 32 * (gpc_pll_params.max_M + 1) + init_pll.clk_in < U32 ∧
    low_PL gpc_pll_params 4000 = 0 ∧ high_PL gpc_pll_params 4000 = 0 ∧
    reference_candidates init_pll.clk_in gpc_pll_params 4000 = [] ∧
    clk_config_pll init_pll gpc_pll_params 4000 true =
      Except.error Fault.bug_on_best_delta) := by
  decide!

/-- C23 (amended): for every input with best fit and without 32-bit overflow
(`t * 32 * (max_M + 1) + clk_in` below `2 ^ 32`, `clk_in * max_N + 16` below
`2 ^ 31`), with target, reference clock and `min_M` not 0 and with loop bounds
inside the table, `clk_config_pll` returns what the exhaustive reference yields: the
first record, in scan order (`pl` descending, `m` ascending, `n` ascending),
that attains the least rounded delta over all candidates of the window, and
the `BUG_ON` if the window has no candidate.  Every candidate scanned before
the returned one has a larger delta (ties keep the earlier one) and none has a
smaller one; the candidates are all triples with `pl` in the window, `m` in its
range with `u` in its range, `n` from the floor to the ceiling of
`t * d * m / clk_in` in its range and the VCO frequency in
`[min_vco, vco ceiling]`, so the two `break`s of the loop over `m` skip none. -/
theorem clk_config_pll_refines_reference (p : pll) (pp : pll_parms) (t : Nat)
    (ht1 : 1 ≤ t) (href : p.clk_in ≠ 0) (hmin : 1 ≤ pp.min_M)
    (hov : t * 32 * (pp.max_M + 1) + p.clk_in < U32)
    (hb1 : p.clk_in * pp.max_N + 16 < 2147483648)
    (hhi : high_PL pp t < 15) (hlo : low_PL pp t < 2147483648) :
    clk_config_pll p pp t true =
      (match reference_search p.clk_in pp t with
       | none => Except.error Fault.bug_on_best_delta
       | some r =>
         Except.ok ({ p with M := r.best_M, N := r.best_N, PL := r.best_PL,
                             freq := pll_freq_of p.clk_in r.best_M r.best_N r.best_PL },
                    pll_freq_of p.clk_in r.best_M r.best_N r.best_PL)) ∧
    (∀ r, reference_search p.clk_in pp t = some r →
      ∃ pre post, reference_candidates p.clk_in pp t = pre ++ r :: post ∧
        (∀ c ∈ pre, r.best_delta < c.best_delta) ∧
        (∀ c ∈ post, r.best_delta ≤ c.best_delta)) ∧
    (reference_search p.clk_in pp t = none ↔ reference_candidates p.clk_in pp t = []) ∧
    (∀ b, b ∈ reference_candidates p.clk_in pp t ↔
      ∃ pl m n, low_PL pp t ≤ pl ∧ pl ≤ high_PL pp t ∧
        pp.min_M ≤ m ∧ m ≤ pp.max_M ∧ pp.min_u ≤ p.clk_in / m ∧ p.clk_in / m ≤ pp.max_u ∧
        t * pl_to_div.getD pl 0 * m / p.clk_in ≤ n ∧
        n ≤ (t * pl_to_div.getD pl 0 * m + (p.clk_in - 1)) / p.clk_in ∧
        pp.min_N ≤ n ∧ n ≤ pp.max_N ∧
        pp.min_vco ≤ p.clk_in * n / m ∧ p.clk_in * n / m ≤ vco_ceiling pp t ∧
        b = cand p.clk_in t pl (pl_to_div.getD pl 0) m n) := by
  refine ⟨?_, ?_, ?_, mem_reference_candidates p.clk_in pp t⟩
  · rcases clk_config_pll_reference p pp t ht1 href hmin hov hb1 hhi hlo with
      ⟨_, hn, hc⟩ | ⟨pre, r, post, _, _, _, hr, hc⟩
    · rw [hn]; exact hc
    · rw [hr]; exact hc
  · intro r hr
    rcases clk_config_pll_reference p pp t ht1 href hmin hov hb1 hhi hlo with
      ⟨_, hn, _⟩ | ⟨pre, r1, post, hcs, hpre, hpost, hr1, _⟩
    · rw [hn] at hr; exact Option.noConfusion hr
    · rw [hr1] at hr
      simp only [Option.some.injEq] at hr
      rw [← hr]
      exact ⟨pre, post, hcs, hpre, hpost⟩
  · rcases clk_config_pll_reference p pp t ht1 href hmin hov hb1 hhi hlo with
      ⟨hnil, hn, _⟩ | ⟨pre, r1, post, hcs, _, _, hr1, _⟩
    · exact ⟨fun _ => hnil, fun _ => hn⟩
    · constructor
      · intro h; rw [hr1] at h; exact Option.noConfusion h
      · intro h; rw [hcs] at h; simp at h

set_option maxRecDepth 100000 in
/-- Witness for C23: the GPC bounds, a 12 MHz reference clock and the target
720, where the reference yields `(1, 120, 1)` with delta 0. -/
theorem clk_config_pll_refines_reference_witness :
    (1 ≤ 720 ∧ init_pll.clk_in ≠ 0 ∧ 1 ≤ gpc_pll_params.min_M ∧
      720 * 32 * (gpc_pll_params.max_M + 1) + init_pll.clk_in < U32 ∧
      init_pll.clk_in * gpc_pll_params.max_N + 16 < 2147483648 ∧
      high_PL gpc_pll_params 720 < 15 ∧ low_PL gpc_pll_params 720 < 2147483648) ∧
    reference_search 12 gpc_pll_params 720 = some ⟨0, 1, 120, 1⟩ ∧
    clk_config_pll init_pll gpc_pll_params 720 true =
      (match reference_search init_pll.clk_in gpc_pll_params 720 with
       | none => Except.error Fault.bug_on_best_delta
       | some r =>
         Except.ok
           ({ init_pll with
                M := r.best_M, N := r.best_N, PL := r.best_PL,
                freq := pll_freq_of init_pll.clk_in r.best_M r.best_N r.best_PL },
            pll_freq_of init_pll.clk_in r.best_M r.best_N r.best_PL)) :=
  ⟨⟨by decide, by decide, by decide, by decide, by decide, by decide, by decide⟩, by decide!,
    (clk_config_pll_refines_reference init_pll gpc_pll_params 720 (by decide) (by decide)
      (by decide) (by decide) (by decide) (by decide) (by decide)).1⟩

/-! ## The accesses of the controller and `clk_mutex` -/

/-- Inside a section without lock calls the discipline is kept as long as the
mutex is held. -/
theorem guarded_plain (body rest : List Access) (h1 : Access.lock ∉ body)
    (h2 : Access.unlock ∉ body) : guarded true (body ++ rest) = guarded true rest := by
  induction body with
  | nil => rfl
  | cons e es ih =>
    have ih1 := ih (fun hm => h1 (List.mem_cons_of_mem _ hm))
      (fun hm => h2 (List.mem_cons_of_mem _ hm))
    cases e with
    | lock => exact absurd (List.mem_cons_self _ _) h1
    | unlock => exact absurd (List.mem_cons_self _ _) h2
    | pll_state => simpa [guarded] using ih1
    | cap_freq => simpa [guarded] using ih1
    | cap_freq_thermal => simpa [guarded] using ih1
    | reg e => simpa [guarded] using ih1

/-- A critical section keeps the lock discipline: every access in it is made
with the mutex held. -/
theorem guarded_critical (log : List Access) (s : Status) (hc : critical_section log s) :
    guarded false log = true := by
  obtain ⟨body, h1, h2, e⟩ := hc
  rw [e]
  show (!false && guarded true (body ++ unlock_if s)) = true
  rw [guarded_plain body _ h1 h2]
  cases s <;> rfl

theorem regs_since_plain {σ : Type} (g g1 : gk20a σ) :
    Access.lock ∉ regs_since g g1 ∧ Access.unlock ∉ regs_since g g1 := by
  unfold regs_since
  constructor
  · intro hm
    obtain ⟨e, _, he⟩ := List.mem_map.mp hm
    exact Access.noConfusion he
  · intro hm
    obtain ⟨e, _, he⟩ := List.mem_map.mp hm
    exact Access.noConfusion he

theorem regs_since_self {σ : Type} (g g1 : gk20a σ) (ht : g1.trace = g.trace) :
    regs_since g g1 = [] := by
  unfold regs_since
  rw [ht]
  simp

theorem regs_since_congr {σ : Type} (g g0 g1 : gk20a σ) (ht : g.trace = g0.trace) :
    regs_since g g1 = regs_since g0 g1 := by
  unfold regs_since
  rw [ht]

theorem clk_program_gpc_pll_accesses_plain {σ : Type} (h : hw_trim) (io : RegIO σ)
    (g : gk20a σ) :
    Access.lock ∉ clk_program_gpc_pll_accesses h io g ∧
    Access.unlock ∉ clk_program_gpc_pll_accesses h io g := by
  obtain ⟨r1, r2⟩ := regs_since_plain g (clk_program_gpc_pll h io g).2
  unfold clk_program_gpc_pll_accesses
  cases (clk_program_gpc_pll h io g).1 <;> simp [r1, r2]

theorem set_pll_target_accesses_plain {σ : Type} (g : gk20a σ) (freq old_freq : Nat) :
    Access.lock ∉ set_pll_target_accesses g freq old_freq ∧
    Access.unlock ∉ set_pll_target_accesses g freq old_freq := by
  unfold set_pll_target_accesses
  split_ifs <;> simp

theorem set_pll_freq_accesses_plain {σ : Type} (h : hw_trim) (io : RegIO σ) (g : gk20a σ)
    (freq old_freq : Nat) :
    Access.lock ∉ set_pll_freq_accesses h io g freq old_freq ∧
    Access.unlock ∉ set_pll_freq_accesses h io g freq old_freq := by
  obtain ⟨p1, p2⟩ := clk_program_gpc_pll_accesses_plain h io g
  unfold set_pll_freq_accesses
  split_ifs <;> simp [p1, p2]

/-- Every hardware access of `set_pll_freq` is in its log. -/
theorem set_pll_freq_regs {σ : Type} (h : hw_trim) (io : RegIO σ) (g : gk20a σ)
    (freq old_freq : Nat) (x : Access)
    (hx : x ∈ regs_since g (set_pll_freq h io g freq old_freq).2) :
    x ∈ set_pll_freq_accesses h io g freq old_freq := by
  unfold set_pll_freq at hx
  unfold set_pll_freq_accesses
  by_cases h1 : freq = old_freq ∧ g.clk.gpc_pll.enabled = true
  · rw [if_pos h1, regs_since_self g g rfl] at hx
    exact absurd hx (List.not_mem_nil _)
  · rw [if_neg h1] at hx ⊢
    by_cases h2 : g.power_on = true
    · rw [if_pos h2] at hx ⊢
      apply List.mem_append_right
      unfold clk_program_gpc_pll_accesses
      exact List.mem_cons_of_mem _ (List.mem_append_left _ hx)
    · rw [if_neg h2, regs_since_self g g rfl] at hx
      exact absurd hx (List.not_mem_nil _)

/-- The log of `gk20a_clk_export_set_rate` is one critical section. -/
theorem gk20a_clk_export_set_rate_critical {σ : Type} (h : hw_trim) (io : RegIO σ)
    (g : gk20a σ) (r : Nat) :
    critical_section (gk20a_clk_export_set_rate_accesses h io g (some r))
      (gk20a_clk_export_set_rate h io g (some r)).status := by
  obtain ⟨t1, t2⟩ := set_pll_target_accesses_plain g (u32 (rate_gpu_to_gpc2clk r))
    g.clk.gpc_pll.freq
  obtain ⟨f1, f2⟩ := set_pll_freq_accesses_plain h io
    (set_pll_target g (u32 (rate_gpu_to_gpc2clk r)) g.clk.gpc_pll.freq).2
    (set_pll_target g (u32 (rate_gpu_to_gpc2clk r)) g.clk.gpc_pll.freq).2.clk.gpc_pll.freq
    g.clk.gpc_pll.freq
  refine ⟨[Access.pll_state] ++
      set_pll_target_accesses g (u32 (rate_gpu_to_gpc2clk r)) g.clk.gpc_pll.freq ++
      (if (set_pll_target g (u32 (rate_gpu_to_gpc2clk r)) g.clk.gpc_pll.freq).1 = Status.ret 0
       then
        [Access.pll_state] ++
        (if (set_pll_target g (u32 (rate_gpu_to_gpc2clk r))
            g.clk.gpc_pll.freq).2.clk.gpc_pll.enabled = true then
          Access.pll_state :: set_pll_freq_accesses h io
            (set_pll_target g (u32 (rate_gpu_to_gpc2clk r)) g.clk.gpc_pll.freq).2
            (set_pll_target g (u32 (rate_gpu_to_gpc2clk r))
              g.clk.gpc_pll.freq).2.clk.gpc_pll.freq g.clk.gpc_pll.freq
         else []) ++
        (if (gk20a_clk_export_set_rate h io g (some r)).status = Status.ret 0 then
          [Access.pll_state]
         else [])
       else []), ?_, ?_, ?_⟩
  · split_ifs <;> simp [t1, f1]
  · split_ifs <;> simp [t2, f2]
  · unfold gk20a_clk_export_set_rate_accesses
    simp only [List.cons_append, List.nil_append, List.append_assoc]

/-- Every hardware access of `gk20a_clk_export_set_rate` is in its log. -/
theorem gk20a_clk_export_set_rate_regs {σ : Type} (h : hw_trim) (io : RegIO σ)
    (g : gk20a σ) (r : Nat) (x : Access)
    (hx : x ∈ regs_since g (gk20a_clk_export_set_rate h io g (some r)).g) :
    x ∈ gk20a_clk_export_set_rate_accesses h io g (some r) := by
  have hF := (set_pll_target_frame g (u32 (rate_gpu_to_gpc2clk r)) g.clk.gpc_pll.freq).1
  have hR := fun f o => set_pll_freq_regs h io
    (set_pll_target g (u32 (rate_gpu_to_gpc2clk r)) g.clk.gpc_pll.freq).2 f o x
  unfold gk20a_clk_export_set_rate_accesses
  simp only
  generalize (gk20a_clk_export_set_rate h io g (some r)).status = st
  unfold gk20a_clk_export_set_rate at hx
  simp only at hx
  generalize set_pll_target g (u32 (rate_gpu_to_gpc2clk r)) g.clk.gpc_pll.freq = T
    at hF hR hx ⊢
  have hnil : regs_since g T.2 = [] := regs_since_self g T.2 hF
  by_cases hT : T.1 = Status.ret 0
  · rw [if_pos hT] at hx ⊢
    by_cases hen : T.2.clk.gpc_pll.enabled = true
    · rw [if_pos hen] at hx ⊢
      have hx1 : x ∈ regs_since T.2
          (set_pll_freq h io T.2 T.2.clk.gpc_pll.freq g.clk.gpc_pll.freq).2 := by
        rw [regs_since_congr T.2 g _ hF]
        split_ifs at hx <;> exact hx
      have := hR _ _ hx1
      simp [this]
    · rw [if_neg hen, if_pos hT, hnil] at hx
      exact absurd hx (List.not_mem_nil _)
  · rw [if_neg hT, hnil] at hx
    exact absurd hx (List.not_mem_nil _)

/-- The log of `gk20a_clk_export_enable` is one critical section. -/
theorem gk20a_clk_export_enable_critical {σ : Type} (h : hw_trim) (io : RegIO σ)
    (g : gk20a σ) :
    critical_section (gk20a_clk_export_enable_accesses h io g)
      (gk20a_clk_export_enable h io g).1 := by
  obtain ⟨f1, f2⟩ := set_pll_freq_accesses_plain h io g g.clk.gpc_pll.freq g.clk.gpc_pll.freq
  refine ⟨Access.pll_state ::
    set_pll_freq_accesses h io g g.clk.gpc_pll.freq g.clk.gpc_pll.freq, ?_, ?_, ?_⟩
  · simp [f1]
  · simp [f2]
  · unfold gk20a_clk_export_enable_accesses
    simp only [List.cons_append, List.nil_append, List.append_assoc]

/-- The log of `gk20a_clk_export_disable` is one critical section. -/
theorem gk20a_clk_export_disable_critical {σ : Type} (h : hw_trim) (io : RegIO σ)
    (g : gk20a σ) :
    critical_section (gk20a_clk_export_disable_accesses h io g)
      (gk20a_clk_export_disable h io g).1 := by
  obtain ⟨r1, r2⟩ := regs_since_plain g (clk_disable_gpcpll h io g).2
  have hs : (gk20a_clk_export_disable h io g).1 = Status.ret 0 := by
    unfold gk20a_clk_export_disable
    split_ifs <;> rfl
  rw [hs]
  refine ⟨if g.power_on = true then clk_disable_gpcpll_accesses h io g else [], ?_, ?_, ?_⟩
  · split_ifs <;> simp [clk_disable_gpcpll_accesses, r1]
  · split_ifs <;> simp [clk_disable_gpcpll_accesses, r2]
  · unfold gk20a_clk_export_disable_accesses
    simp only [List.cons_append, List.nil_append, List.append_assoc, unlock_if]

/-- Every hardware access of `gk20a_clk_export_disable` is in its log. -/
theorem gk20a_clk_export_disable_regs {σ : Type} (h : hw_trim) (io : RegIO σ)
    (g : gk20a σ) (x : Access)
    (hx : x ∈ regs_since g (gk20a_clk_export_disable h io g).2) :
    x ∈ gk20a_clk_export_disable_accesses h io g := by
  unfold gk20a_clk_export_disable at hx
  unfold gk20a_clk_export_disable_accesses
  by_cases hp : g.power_on = true
  · rw [if_pos hp] at hx ⊢
    unfold clk_disable_gpcpll_accesses
    simp [hx]
  · rw [if_neg hp, regs_since_self g g rfl] at hx
    exact absurd hx (List.not_mem_nil _)

/-- A cap setter after its store: every hardware access of the rate request it
may force is in the log of that request. -/
theorem cap_setter_regs {σ : Type} (h : hw_trim) (io : RegIO σ) (g1 : gk20a σ) (c : Nat)
    (x : Access)
    (hx : x ∈ regs_since g1 (if gk20a_clk_get_rate g1 ≤ c then (Status.ret 0, g1)
      else gk20a_clk_set_rate h io g1 c).2) :
    x ∈ (if gk20a_clk_get_rate g1 ≤ c then []
      else gk20a_clk_set_rate_accesses h io g1 c) := by
  by_cases hle : gk20a_clk_get_rate g1 ≤ c
  · rw [if_pos hle, regs_since_self g1 g1 rfl] at hx
    exact absurd hx (List.not_mem_nil _)
  · rw [if_neg hle] at hx ⊢
    exact gk20a_clk_export_set_rate_regs h io g1 c x hx

/-! ## Claim C22: the guard `clk_mutex` -/

set_option maxRecDepth 100000 in
/-- C22 (as stated, refuted): `gk20a_clk_get_rate` reads the frequency of the PLL
state without taking `clk_mutex`, and `gk20a_clk_set_cap` and
`gk20a_clk_set_cap_thermal` store their cap and read the frequency before the
mutex is taken for the first time, inside the rate request they force: on the
simulated state (rate 360) with the cap 335 their logs start with these two
accesses, then comes the lock call.  None of the three logs keeps the lock
discipline. -/
theorem clk_mutex_not_held_by_get_rate :
    gk20a_clk_get_rate_accesses sim_state = [Access.pll_state] ∧
    guarded false (gk20a_clk_get_rate_accesses sim_state) = false ∧
    (gk20a_clk_set_cap_accesses sim_trim sim_io sim_state 335).take 3 =
      [Access.cap_freq, Access.pll_state, Access.lock] ∧
    guarded false (gk20a_clk_set_cap_accesses sim_trim sim_io sim_state 335) = false ∧
    (gk20a_clk_set_cap_thermal_accesses sim_trim sim_io sim_state 335).take 3 =
      [Access.cap_freq_thermal, Access.pll_state, Access.lock] ∧
    guarded false (gk20a_clk_set_cap_thermal_accesses sim_trim sim_io sim_state 335) =
      false := by
  decide!

/-- C22 (amended): each of `gk20a_clk_export_set_rate`, `gk20a_clk_export_enable`
and `gk20a_clk_export_disable` holds `clk_mutex` for its whole duration: its
log is one critical section (the lock call comes first, the unlock call last
when the call returns, none in between), so every access to the PLL state, to
`cap_freq` and `cap_freq_thermal` and every register access it makes happens
with the mutex held, and every entry the call appends to the hardware trace is
in that section.  The rate request forced by `gk20a_clk_set_cap` or
`gk20a_clk_set_cap_thermal` is such a section: after the setter's store of its
cap and its read of the rate, the rest of its log keeps the lock discipline
and holds every register access of the setter. -/
theorem clk_mutex_guards_export_ops {σ : Type} (h : hw_trim) (io : RegIO σ) (g : gk20a σ)
    (r rate : Nat) :
    (critical_section (gk20a_clk_export_set_rate_accesses h io g (some r))
        (gk20a_clk_export_set_rate h io g (some r)).status ∧
      guarded false (gk20a_clk_export_set_rate_accesses h io g (some r)) = true ∧
      ∀ e, e ∈ (gk20a_clk_export_set_rate h io g (some r)).g.trace.drop g.trace.length →
        Access.reg e ∈ gk20a_clk_export_set_rate_accesses h io g (some r)) ∧
    (critical_section (gk20a_clk_export_enable_accesses h io g)
        (gk20a_clk_export_enable h io g).1 ∧
      guarded false (gk20a_clk_export_enable_accesses h io g) = true ∧
      ∀ e, e ∈ (gk20a_clk_export_enable h io g).2.trace.drop g.trace.length →
        Access.reg e ∈ gk20a_clk_export_enable_accesses h io g) ∧
    (critical_section (gk20a_clk_export_disable_accesses h io g)
        (gk20a_clk_export_disable h io g).1 ∧
      guarded false (gk20a_clk_export_disable_accesses h io g) = true ∧
      ∀ e, e ∈ (gk20a_clk_export_disable h io g).2.trace.drop g.trace.length →
        Access.reg e ∈ gk20a_clk_export_disable_accesses h io g) ∧
    (∃ rest, gk20a_clk_set_cap_accesses h io g rate =
        [Access.cap_freq, Access.pll_state] ++ rest ∧
      guarded false rest = true ∧
      ∀ e, e ∈ (gk20a_clk_set_cap h io g rate).2.trace.drop g.trace.length →
        Access.reg e ∈ rest) ∧
    (∃ rest, gk20a_clk_set_cap_thermal_accesses h io g rate =
        [Access.cap_freq_thermal, Access.pll_state] ++ rest ∧
      guarded false rest = true ∧
      ∀ e, e ∈ (gk20a_clk_set_cap_thermal h io g rate).2.trace.drop g.trace.length →
        Access.reg e ∈ rest) := by
  have hrest : ∀ (g1 : gk20a σ) (c : Nat),
      guarded false (if gk20a_clk_get_rate g1 ≤ c then []
        else gk20a_clk_set_rate_accesses h io g1 c) = true := by
    intro g1 c
    split_ifs
    · rfl
    · exact guarded_critical _ _ (gk20a_clk_export_set_rate_critical h io g1 c)
  refine ⟨⟨gk20a_clk_export_set_rate_critical h io g r,
      guarded_critical _ _ (gk20a_clk_export_set_rate_critical h io g r), ?_⟩,
    ⟨gk20a_clk_export_enable_critical h io g,
      guarded_critical _ _ (gk20a_clk_export_enable_critical h io g), ?_⟩,
    ⟨gk20a_clk_export_disable_critical h io g,
      guarded_critical _ _ (gk20a_clk_export_disable_critical h io g), ?_⟩,
    ⟨_, rfl, hrest _ _, ?_⟩, ⟨_, rfl, hrest _ _, ?_⟩⟩
  · intro e he
    exact gk20a_clk_export_set_rate_regs h io g r _ (List.mem_map_of_mem Access.reg he)
  · intro e he
    have := set_pll_freq_regs h io g g.clk.gpc_pll.freq g.clk.gpc_pll.freq _
      (List.mem_map_of_mem Access.reg he)
    unfold gk20a_clk_export_enable_accesses
    simp [this]
  · intro e he
    exact gk20a_clk_export_disable_regs h io g _ (List.mem_map_of_mem Access.reg he)
  · intro e he
    exact cap_setter_regs h io
      { g with clk := { g.clk with cap_freq := u32 (rate_gpu_to_gpc2clk (clamp_cap rate)) } }
      (clamp_cap rate) _ (List.mem_map_of_mem Access.reg he)
  · intro e he
    exact cap_setter_regs h io
      { g with clk := { g.clk with
          cap_freq_thermal := u32 (rate_gpu_to_gpc2clk (clamp_cap rate)) } }
      (clamp_cap rate) _ (List.mem_map_of_mem Access.reg he)

end Gk20aClk
